import Mathlib

/-!
# OV7670 camera driver: register sequencing core

A shallow embedding of `src/ov7670.c` (command list player, start-up,
frame-rate resolver, frame geometry, auxiliary controls) and of
`src/arch/rp2040.c` (bring-up, polling capture), and the properties their
specification states about them.

Conventions of the embedding.

* The sensor is a register file together with the chronological trace of the
  transport calls made on it.  `OV7670_read_register` and
  `OV7670_write_register` are `extern` in the source; they are modelled as
  reading and updating that register file.
* `uint8_t`, `uint16_t` and `uint32_t` values are natural numbers, reduced
  `% 2 ^ w` wherever the C code narrows or can wrap.
* `float` and `double` values are rationals; every floating-point operation
  of the C code is followed by the IEEE 754 rounding to binary32 or binary64
  (`f32`, `f64`).
* The header `ov7670.h` (register addresses, bit masks, the input clock
  `OV7670_XCLK_HZ`) is not part of the sources at hand, so its constants are
  the fields of a parameter record `Header`.
-/

namespace OV7670

/-! ## Header constants, sensor state -/

/-- Constants of `ov7670.h` used by the code below, taken as parameters. -/
structure Header where
  OV7670_XCLK_HZ : Nat
  OV7670_REG_DBLV : Nat
  OV7670_REG_CLKRC : Nat
  OV7670_REG_COM3 : Nat
  OV7670_REG_COM14 : Nat
  OV7670_REG_SCALING_DCWCTR : Nat
  OV7670_REG_SCALING_PCLK_DIV : Nat
  OV7670_REG_SCALING_XSC : Nat
  OV7670_REG_SCALING_YSC : Nat
  OV7670_REG_HSTART : Nat
  OV7670_REG_HSTOP : Nat
  OV7670_REG_HREF : Nat
  OV7670_REG_VSTART : Nat
  OV7670_REG_VSTOP : Nat
  OV7670_REG_VREF : Nat
  OV7670_REG_SCALING_PCLK_DELAY : Nat
  OV7670_REG_COM11 : Nat
  OV7670_REG_MVFP : Nat
  OV7670_COM3_DCWEN : Nat
  OV7670_COM3_SCALEEN : Nat
  OV7670_MVFP_MIRROR : Nat
  OV7670_MVFP_VFLIP : Nat
  OV7670_REG_COM7 : Nat
  OV7670_COM7_RESET : Nat
  OV7670_COLOR_RGB : Nat
  OV7670_STATUS_OK : Nat

/-- The values the OV7670 data sheet gives these constants, with a 24 MHz
input clock.  Used only to instantiate theorems at a concrete header. -/
def datasheet : Header where
  OV7670_XCLK_HZ := 24000000
  OV7670_REG_DBLV := 0x6B
  OV7670_REG_CLKRC := 0x11
  OV7670_REG_COM3 := 0x0C
  OV7670_REG_COM14 := 0x3E
  OV7670_REG_SCALING_DCWCTR := 0x72
  OV7670_REG_SCALING_PCLK_DIV := 0x73
  OV7670_REG_SCALING_XSC := 0x70
  OV7670_REG_SCALING_YSC := 0x71
  OV7670_REG_HSTART := 0x17
  OV7670_REG_HSTOP := 0x18
  OV7670_REG_HREF := 0x32
  OV7670_REG_VSTART := 0x19
  OV7670_REG_VSTOP := 0x1A
  OV7670_REG_VREF := 0x03
  OV7670_REG_SCALING_PCLK_DELAY := 0xA2
  OV7670_REG_COM11 := 0x3B
  OV7670_REG_MVFP := 0x1E
  OV7670_COM3_DCWEN := 0x04
  OV7670_COM3_SCALEEN := 0x08
  OV7670_MVFP_MIRROR := 0x20
  OV7670_MVFP_VFLIP := 0x10
  OV7670_REG_COM7 := 0x12
  OV7670_COM7_RESET := 0x80
  OV7670_COLOR_RGB := 0
  OV7670_STATUS_OK := 0

/-- One call of the register transport or of a primitive of the host
environment (delay, pin control, architecture bring-up), as seen from outside.
`platform` is the opaque handle passed through (0 is NULL). -/
inductive Event where
  | read (platform reg : Nat)
  | write (platform reg value : Nat)
  | delay (ms : Nat)
  | pin_output (pin : Int)
  | pin_write (pin : Int) (hi : Nat)
  | arch_begin
  deriving DecidableEq, Repr

/-- Sensor register file and the trace of transport calls, oldest first. -/
structure Sensor where
  regs : Nat → Nat
  trace : List Event

/-- `extern void OV7670_write_register(void *platform, uint8_t reg,
uint8_t value)`: the value is narrowed to 8 bits by the parameter type. -/
def OV7670_write_register (platform reg value : Nat) (s : Sensor) : Sensor :=
  { regs := fun r => if r = reg then value % 256 else s.regs r
    trace := s.trace ++ [Event.write platform reg (value % 256)] }

/-- `extern int OV7670_read_register(void *platform, uint8_t reg)`: returns
the register content and leaves the register file unchanged. -/
def OV7670_read_register (platform reg : Nat) (s : Sensor) : Nat × Sensor :=
  (s.regs reg, { s with trace := s.trace ++ [Event.read platform reg] })

/-- A sensor with every register cleared and no transport call made yet. -/
def Sensor.blank : Sensor := { regs := fun _ => 0, trace := [] }

/-! ## Floating-point arithmetic (`float`, `double`)

The values of C `float` and `double` objects are rational numbers; every
operation the C code performs on them is followed by the rounding of IEEE 754
(round to nearest, ties to even) to binary32 or binary64.  The rounding is
defined twice: `fl_round` on rationals, and `fl_exec` on numerator and
denominator, which the model runs; the two are proved equal. -/

/-- Round to the nearest integer, a tie going to the even neighbour. -/
def round_even (q : ℚ) : ℤ :=
  if q - ⌊q⌋ < 1 / 2 then ⌊q⌋
  else if 1 / 2 < q - ⌊q⌋ then ⌊q⌋ + 1
  else if ⌊q⌋ % 2 = 0 then ⌊q⌋ else ⌊q⌋ + 1

/-- Index of the leading one bit of `n`, by halving at most `fuel` times. -/
def log2_fuel : Nat → Nat → Nat
  | 0, _ => 0
  | fuel + 1, n => if 2 ≤ n then log2_fuel fuel (n / 2) + 1 else 0

/-- Index of the leading one bit of `n`, found from `lo` upwards in steps of
`2 ^ (i - 1)`, ..., 2, 1. -/
def log2_bin (n : Nat) : Nat → Nat → Nat
  | 0, lo => lo
  | i + 1, lo =>
    if 2 ^ (lo + 2 ^ i) ≤ n then log2_bin n i (lo + 2 ^ i) else log2_bin n i lo

/-- Index of the leading one bit of `n` (0 for `n = 0`). -/
def nlog2 (n : Nat) : Nat :=
  if n < 2 ^ 4096 then log2_bin n 12 0 else log2_fuel n n

/-- Binary exponent of a positive rational `q`: the integer `k` with
`2 ^ k ≤ q < 2 ^ (k + 1)`. -/
def ilog2 (q : ℚ) : ℤ :=
  let k : ℤ := (nlog2 q.num.natAbs : ℤ) - (nlog2 q.den : ℤ)
  if (2 : ℚ) ^ k ≤ q then k else k - 1

/-- Rounding of a rational `q ≥ 0` to a significand of `prec` bits, the
exponent of the last place being at least `emin` (gradual underflow). -/
def fl_abs (prec : Nat) (emin : ℤ) (q : ℚ) : ℚ :=
  if q = 0 then 0
  else
    let e : ℤ := max (ilog2 q - ((prec : ℤ) - 1)) emin
    (round_even (q / (2 : ℚ) ^ e) : ℚ) * (2 : ℚ) ^ e

/-- Rounding of a rational to `prec` significant bits, to nearest, ties to
even; the rounding is symmetric about zero. -/
def fl_round (prec : Nat) (emin : ℤ) (q : ℚ) : ℚ :=
  if 0 ≤ q then fl_abs prec emin q else -fl_abs prec emin (-q)

/-- The quotient `N / D` rounded to the nearest integer, ties to even. -/
def round_even_div (N D : Nat) : Nat :=
  if 2 * (N % D) < D then N / D
  else if D < 2 * (N % D) then N / D + 1
  else if (N / D) % 2 = 0 then N / D else N / D + 1

/-- Binary exponent of the quotient `a / d` of two positive numbers. -/
def ilog2_nat (a d : Nat) : ℤ :=
  if nlog2 d ≤ nlog2 a then
    (if d * 2 ^ (nlog2 a - nlog2 d) ≤ a then ((nlog2 a - nlog2 d : ℕ) : ℤ)
     else ((nlog2 a - nlog2 d : ℕ) : ℤ) - 1)
  else
    (if d ≤ a * 2 ^ (nlog2 d - nlog2 a) then -((nlog2 d - nlog2 a : ℕ) : ℤ)
     else -((nlog2 d - nlog2 a : ℕ) : ℤ) - 1)

/-- The quotient `a / d` rounded to a multiple of `2 ^ e`. -/
def fl_scale (a d : Nat) : ℤ → ℚ
  | Int.ofNat e => ((round_even_div a (d * 2 ^ e) * 2 ^ e : ℕ) : ℚ)
  | Int.negSucc e => mkRat (round_even_div (a * 2 ^ (e + 1)) d) (2 ^ (e + 1))

/-- The quotient `a / d` rounded to `prec` significant bits. -/
def fl_nat (prec : Nat) (emin : ℤ) : Nat → Nat → ℚ
  | 0, _ => 0
  | a + 1, d => fl_scale (a + 1) d (max (ilog2_nat (a + 1) d - ((prec : ℤ) - 1)) emin)

/-- Rounding of a rational to `prec` significant bits, computed on its
numerator and denominator. -/
def fl_exec (prec : Nat) (emin : ℤ) (q : ℚ) : ℚ :=
  match q with
  | ⟨Int.ofNat n, d, _, _⟩ => fl_nat prec emin n d
  | ⟨Int.negSucc n, d, _, _⟩ => -fl_nat prec emin (n + 1) d

/-- Rounding to IEEE 754 binary32, the C type `float`: 24 significant bits,
least exponent -149.  A result of magnitude `2 ^ 128` or more overflows to an
infinity, for which `2 ^ 128` and `-2 ^ 128` stand. -/
def f32 (q : ℚ) : ℚ :=
  max (-((2 ^ 128 : ℕ) : ℚ)) (min ((2 ^ 128 : ℕ) : ℚ) (fl_exec 24 (-149) q))

/-- Rounding to IEEE 754 binary64, the C type `double`: 53 significant bits,
least exponent -1074; `2 ^ 1024` and `-2 ^ 1024` stand for the infinities. -/
def f64 (q : ℚ) : ℚ :=
  max (-((2 ^ 1024 : ℕ) : ℚ)) (min ((2 ^ 1024 : ℕ) : ℚ) (fl_exec 53 (-1074) q))

/-! ## Frame-rate resolver (`OV7670_set_fps`) -/

/-- `static const uint8_t pll_ratio[] = {1, 4, 6, 8};` -/
def pll_ratio : List Nat := [1, 4, 6, 8]

/-- `sizeof pll_ratio / sizeof pll_ratio[0]` -/
def num_plls : Nat := pll_ratio.length

/-- The three locals `best_pll`, `best_div`, `best_delta` of the search. -/
structure Best where
  best_pll : Nat
  best_div : Nat
  best_delta : ℚ
  deriving DecidableEq

/-- Body of the inner `for (div = first_div; div <= 32; div++)` loop.  In
`pclk_result > pclk_target` the `uint32_t` is converted to `float`;
`(float)pclk_result * 5.0 / 4000000.0` is computed in `double` and rounded to
`float` by the assignment; `fps - fps_result` is a `float` subtraction. -/
def set_fps_div_body (fps pclk_target : ℚ) (p xclk_pll : Nat) (b : Best)
    (div : Nat) : Best :=
  let pclk_result : Nat := xclk_pll / div
  if f32 (pclk_result : ℚ) > pclk_target then b
  else
    let fps_result := f32 (f64 (f64 (f32 (pclk_result : ℚ) * 5) / 4000000))
    let delta := f32 (fps - fps_result)
    if delta < b.best_delta then
      { best_pll := p, best_div := div, best_delta := delta }
    else b

/-- Body of the outer `for (p = 0; p < num_plls; p++)` loop; the product
`OV7670_XCLK_HZ * pll_ratio[p]` is stored in a `uint32_t`. -/
def set_fps_pll_body (xclk : Nat) (fps pclk_target : ℚ) (b : Best) (p : Nat) :
    Best :=
  let xclk_pll : Nat := (xclk * pll_ratio.getD p 0) % 2 ^ 32
  let first_div := if p ≠ 0 then 2 else 1
  (List.range' first_div (33 - first_div)).foldl
    (set_fps_div_body fps pclk_target p xclk_pll) b

/-- The brute-force search of `OV7670_set_fps`, from the initial
`best_pll = 0`, `best_div = 1`, `best_delta = 30.0`. -/
def set_fps_search (xclk : Nat) (fps pclk_target : ℚ) : Best :=
  (List.range num_plls).foldl (set_fps_pll_body xclk fps pclk_target)
    { best_pll := 0, best_div := 1, best_delta := 30 }

/-- `float OV7670_set_fps(void *platform, float fps)`: returns the achieved
rate and the sensor after the (possible) register writes.  `fps` is the value
of the (finite) `float` argument.  `fps * 4000000.0 / 5.0` is computed in
`double` and rounded to `float` by the assignment to `pclk_target`;
`(float)pclk_min` and the returned `fps - best_delta` are rounded to
`float`. -/
def OV7670_set_fps (H : Header) (platform : Nat) (fps : ℚ) (s : Sensor) :
    ℚ × Sensor :=
  let fps := if fps > 30 then 30 else fps
  let pclk_target := f32 (f64 (f64 (fps * 4000000) / 5))
  let pclk_min : Nat := (H.OV7670_XCLK_HZ / 32) % 2 ^ 32
  if pclk_target < f32 (pclk_min : ℚ) then
    let s1 :=
      if platform ≠ 0 then
        OV7670_write_register platform H.OV7670_REG_CLKRC 31
          (OV7670_write_register platform H.OV7670_REG_DBLV 0 s)
      else s
    let min_rate : Nat := (pclk_min * 5) % 2 ^ 32 / 4000000
    (f32 (min_rate : ℚ), s1)
  else
    let b := set_fps_search H.OV7670_XCLK_HZ fps pclk_target
    let s1 :=
      if platform ≠ 0 then
        if pll_ratio.getD b.best_pll 0 = b.best_div then
          OV7670_write_register platform H.OV7670_REG_CLKRC 0x40
            (OV7670_write_register platform H.OV7670_REG_DBLV 0 s)
        else
          OV7670_write_register platform H.OV7670_REG_CLKRC (b.best_div - 1)
            (OV7670_write_register platform H.OV7670_REG_DBLV
              (b.best_pll <<< 6) s)
      else s
    (f32 (fps - b.best_delta), s1)

/-! ## Frame geometry (`OV7670_frame_control`, `OV7670_set_size`) -/

/-- Modelled from the spec: the `OV7670_size` enumeration of `ov7670.h`, five
downsample levels whose order matches the window table of `OV7670_set_size`
(index 0 is `SIZE_DIV1`, index 4 is `SIZE_DIV16`). -/
def OV7670_SIZE_DIV1 : Nat := 0

/-- Modelled from the spec: second value of the `OV7670_size` enumeration. -/
def OV7670_SIZE_DIV2 : Nat := 1

/-- Modelled from the spec: third value of the `OV7670_size` enumeration. -/
def OV7670_SIZE_DIV4 : Nat := 2

/-- Modelled from the spec: fourth value of the `OV7670_size` enumeration. -/
def OV7670_SIZE_DIV8 : Nat := 3

/-- Modelled from the spec: fifth value of the `OV7670_size` enumeration. -/
def OV7670_SIZE_DIV16 : Nat := 4

/-- `void OV7670_frame_control(void *platform, uint8_t size, uint8_t vstart,
uint16_t hstart, uint8_t edge_offset, uint8_t pclk_delay)`.  The arguments
are narrowed to their parameter types on entry; `value`, `xsc`, `ysc` are
`uint8_t` and `vstop`, `hstop` are `uint16_t`. -/
def OV7670_frame_control (H : Header)
    (platform size vstart hstart edge_offset pclk_delay : Nat) (s : Sensor) :
    Sensor :=
  let size := size % 256
  let vstart := vstart % 256
  let hstart := hstart % 65536
  let edge_offset := edge_offset % 256
  let pclk_delay := pclk_delay % 256
  -- Enable downsampling if sub-VGA, and zoom if 1:16 scale
  let value := (if size > OV7670_SIZE_DIV1 then H.OV7670_COM3_DCWEN else 0) % 256
  let value :=
    if size = OV7670_SIZE_DIV16 then (value ||| H.OV7670_COM3_SCALEEN) % 256
    else value
  let s := OV7670_write_register platform H.OV7670_REG_COM3 value s
  -- Enable PCLK division if sub-VGA
  let value := (if size > OV7670_SIZE_DIV1 then 0x18 + size else 0) % 256
  let s := OV7670_write_register platform H.OV7670_REG_COM14 value s
  -- Horiz/vert downsample ratio, 1:8 max
  let value := (if size ≤ OV7670_SIZE_DIV8 then size else OV7670_SIZE_DIV8) % 256
  let s := OV7670_write_register platform H.OV7670_REG_SCALING_DCWCTR
    (value * 0x11) s
  -- Pixel clock divider if sub-VGA
  let value := (if size > OV7670_SIZE_DIV1 then 0xF0 + size else 0x08) % 256
  let s := OV7670_write_register platform H.OV7670_REG_SCALING_PCLK_DIV value s
  -- Apply 0.5 digital zoom at 1:16 size
  let value := (if size = OV7670_SIZE_DIV16 then 0x40 else 0x20) % 256
  let rx := OV7670_read_register platform H.OV7670_REG_SCALING_XSC s
  let xsc := rx.1 % 256
  let ry := OV7670_read_register platform H.OV7670_REG_SCALING_YSC rx.2
  let ysc := ry.1 % 256
  let xsc := ((xsc &&& 0x80) ||| value) % 256
  let ysc := ((ysc &&& 0x80) ||| value) % 256
  let s := OV7670_write_register platform H.OV7670_REG_SCALING_XSC xsc ry.2
  let s := OV7670_write_register platform H.OV7670_REG_SCALING_YSC ysc s
  -- Window size is scattered across multiple registers
  let vstop := (vstart + 480) % 65536
  let hstop := ((hstart + 640) % 784) % 65536
  let s := OV7670_write_register platform H.OV7670_REG_HSTART (hstart >>> 3) s
  let s := OV7670_write_register platform H.OV7670_REG_HSTOP (hstop >>> 3) s
  let s := OV7670_write_register platform H.OV7670_REG_HREF
    (((edge_offset <<< 6) ||| ((hstop &&& 0b111) <<< 3)) ||| (hstart &&& 0b111)) s
  let s := OV7670_write_register platform H.OV7670_REG_VSTART (vstart >>> 2) s
  let s := OV7670_write_register platform H.OV7670_REG_VSTOP (vstop >>> 2) s
  let s := OV7670_write_register platform H.OV7670_REG_VREF
    (((vstop &&& 0b11) <<< 2) ||| (vstart &&& 0b11)) s
  OV7670_write_register platform H.OV7670_REG_SCALING_PCLK_DELAY pclk_delay s

/-- The `window[]` table of `OV7670_set_size`: per size the tuple
`{vstart, hstart, edge_offset, pclk_delay}`. -/
def window : List (Nat × Nat × Nat × Nat) :=
  [ (9, 162, 2, 2),   -- SIZE_DIV1  640x480 VGA
    (10, 174, 4, 2),  -- SIZE_DIV2  320x240 QVGA
    (11, 186, 2, 2),  -- SIZE_DIV4  160x120 QQVGA
    (12, 210, 0, 2),  -- SIZE_DIV8  80x60
    (15, 252, 3, 2) ] -- SIZE_DIV16 40x30

/-- `void OV7670_set_size(void *platform, OV7670_size size)`; `none` stands
for an access outside the five-entry `window[]` table. -/
def OV7670_set_size (H : Header) (platform size : Nat) (s : Sensor) :
    Option Sensor :=
  match window[size]? with
  | none => none
  | some (vstart, hstart, edge_offset, pclk_delay) =>
    some (OV7670_frame_control H platform size vstart hstart edge_offset
      pclk_delay s)

/-! ## Auxiliary controls (`OV7670_night`, `OV7670_flip`,
`OV7670_test_pattern`) -/

/-- `static const uint8_t night_bits[]` of `OV7670_night`. -/
def night_bits : List Nat := [0b00000000, 0b10100000, 0b11000000, 0b11100000]

/-- `void OV7670_night(void *platform, OV7670_night_mode night)`; `none`
stands for an access outside the four-entry `night_bits[]` table. -/
def OV7670_night (H : Header) (platform night : Nat) (s : Sensor) :
    Option Sensor :=
  let r := OV7670_read_register platform H.OV7670_REG_COM11 s
  let com11 := r.1 % 256
  let com11 := (com11 &&& 0b00011111) % 256
  match night_bits[night]? with
  | none => none
  | some bits =>
    let com11 := (com11 ||| bits) % 256
    some (OV7670_write_register platform H.OV7670_REG_COM11 com11 r.2)

/-- The C expression `x & ~m` stored back into a `uint8_t`: of the `int`
complement `~m` only the low eight bits meet `x`, and those are `0xFF ^ m`. -/
def and_not8 (x m : Nat) : Nat := (x &&& (0xFF ^^^ (m % 256))) % 256

/-- `void OV7670_flip(void *platform, bool flip_x, bool flip_y)`. -/
def OV7670_flip (H : Header) (platform : Nat) (flip_x flip_y : Bool)
    (s : Sensor) : Sensor :=
  let r := OV7670_read_register platform H.OV7670_REG_MVFP s
  let mvfp := r.1 % 256
  let mvfp :=
    if flip_x then (mvfp ||| H.OV7670_MVFP_MIRROR) % 256
    else and_not8 mvfp H.OV7670_MVFP_MIRROR
  let mvfp :=
    if flip_y then (mvfp ||| H.OV7670_MVFP_VFLIP) % 256
    else and_not8 mvfp H.OV7670_MVFP_VFLIP
  OV7670_write_register platform H.OV7670_REG_MVFP mvfp r.2

/-- `void OV7670_test_pattern(void *platform, OV7670_pattern pattern)`. -/
def OV7670_test_pattern (H : Header) (platform pattern : Nat) (s : Sensor) :
    Sensor :=
  let rx := OV7670_read_register platform H.OV7670_REG_SCALING_XSC s
  let xsc := rx.1 % 256
  let ry := OV7670_read_register platform H.OV7670_REG_SCALING_YSC rx.2
  let ysc := ry.1 % 256
  let xsc := if pattern &&& 1 ≠ 0 then (xsc ||| 0x80) % 256 else and_not8 xsc 0x80
  let ysc := if pattern &&& 2 ≠ 0 then (ysc ||| 0x80) % 256 else and_not8 ysc 0x80
  let s := OV7670_write_register platform H.OV7670_REG_SCALING_XSC xsc ry.2
  OV7670_write_register platform H.OV7670_REG_SCALING_YSC ysc s

/-! ## Command list player (`OV7670_write_list`, `OV7670_write_list_len`) -/

/-- `OV7670_command`: a register address and a value, both `uint8_t`. -/
structure OV7670_command where
  reg : Nat
  value : Nat
  deriving DecidableEq, Repr

/-- `OV7670_delay_ms(ms)`, a primitive of the host environment: recorded in
the trace. -/
def OV7670_delay_ms (ms : Nat) (s : Sensor) : Sensor :=
  { s with trace := s.trace ++ [Event.delay ms] }

/-- `void OV7670_write_list(void *platform, const OV7670_command *cmd)`.  The
argument is the array from `cmd[0]` on; the loop
`for (i = 0; cmd[i].reg != 0xFF && cmd[i].value != 0xFF; i++)` either stops at
an element or runs past the end of the array, which is `none`. -/
def OV7670_write_list (platform : Nat) : List OV7670_command → Sensor → Option Sensor
  | [], _ => none
  | c :: rest, s =>
    if c.reg ≠ 0xFF ∧ c.value ≠ 0xFF then
      OV7670_write_list platform rest
        (OV7670_delay_ms 1 (OV7670_write_register platform c.reg c.value s))
    else some s

/-- Body of the loop of `OV7670_write_list_len` at index `i`; `none` is a read
past the end of the array. -/
def write_list_len_body (platform : Nat) (cmd : List OV7670_command)
    (s : Sensor) (i : Nat) : Option Sensor :=
  match cmd[i]? with
  | none => none
  | some c =>
    some (OV7670_delay_ms 1 (OV7670_write_register platform c.reg c.value s))

/-- `void OV7670_write_list_len(void *platform, const OV7670_command *cmd,
int len)`: `for (int i = 0; i < len; i++)`. -/
def OV7670_write_list_len (platform : Nat) (cmd : List OV7670_command)
    (len : Int) (s : Sensor) : Option Sensor :=
  (List.range len.toNat).foldlM (write_list_len_body platform cmd) s

/-! ## Vocabulary of the statements -/

/-- The request after `fps = (fps > 30) ? 30 : fps`. -/
def clamp_fps (r : ℚ) : ℚ := if r > 30 then 30 else r

/-- Pixel clock the search computes for PLL index `p` and divider `div`:
`xclk_pll / div` with `xclk_pll = OV7670_XCLK_HZ * pll_ratio[p]`. -/
def pclk_of (xclk p div : Nat) : Nat := (xclk * pll_ratio.getD p 0) % 2 ^ 32 / div

/-- The `float` pixel-clock target of a (clamped) request:
`fps * 4000000.0 / 5.0`, computed in `double`, stored in a `float`. -/
def pclk_target_of (fps : ℚ) : ℚ := f32 (f64 (f64 (fps * 4000000) / 5))

/-- The `float` frame rate the search computes for a pixel clock:
`(float)pclk_result * 5.0 / 4000000.0`, stored in a `float`. -/
def fps_result_of (pclk : Nat) : ℚ :=
  f32 (f64 (f64 (f32 (pclk : ℚ) * 5) / 4000000))

/-- The `float` distance `delta = fps - fps_result` of a pixel clock from the
request. -/
def delta_of (fps : ℚ) (pclk : Nat) : ℚ := f32 (fps - fps_result_of pclk)

/-- The pairs (PLL index, divider) visited by the two nested loops. -/
def Visited (p div : Nat) : Prop :=
  p < 4 ∧ (if p ≠ 0 then 2 else 1) ≤ div ∧ div ≤ 32

/-- Rate of the pair (multiplier `m`, divider `d`) in the words of the
specification: `floor(XCLK * m / d) * 5 / 4000000`, without wrap-around. -/
def rate (xclk m d : Nat) : ℚ := ((xclk * m / d : Nat) : ℚ) * 5 / 4000000

/-- Search space in the words of the specification: a supported multiplier
and a divider in `[1, 32]`, at least 2 unless the multiplier is 1. -/
def SearchSpace (m d : Nat) : Prop :=
  m ∈ [1, 4, 6, 8] ∧ 1 ≤ d ∧ d ≤ 32 ∧ (m ≠ 1 → 2 ≤ d)

/-- Rates of the search space that exceed neither the request nor 30. -/
def AchievableRates (xclk : Nat) (r : ℚ) : Set ℚ :=
  {q | ∃ m d, SearchSpace m d ∧ q = rate xclk m d ∧ q ≤ min r 30}

/-- The two zoom registers are distinct from each other and from the eleven
other registers `OV7670_frame_control` writes. -/
@[reducible] def ScalingRegsDistinct (H : Header) : Prop :=
  H.OV7670_REG_SCALING_XSC ≠ H.OV7670_REG_SCALING_YSC ∧
  ∀ r ∈ [H.OV7670_REG_COM3, H.OV7670_REG_COM14, H.OV7670_REG_SCALING_DCWCTR,
      H.OV7670_REG_SCALING_PCLK_DIV, H.OV7670_REG_HSTART, H.OV7670_REG_HSTOP,
      H.OV7670_REG_HREF, H.OV7670_REG_VSTART, H.OV7670_REG_VSTOP,
      H.OV7670_REG_VREF, H.OV7670_REG_SCALING_PCLK_DELAY],
    H.OV7670_REG_SCALING_XSC ≠ r ∧ H.OV7670_REG_SCALING_YSC ≠ r

/-! ## Camera start-up (`OV7670_begin`) -/

/-- The pin numbers of `OV7670_pins`; a negative `enable` or `reset` means
the pin is not connected. -/
structure OV7670_pins where
  enable : Int
  reset : Int
  xclk : Int
  pclk : Int
  vsync : Int
  hsync : Int
  data : List Int

/-- The `OV7670_host` descriptor: pins and the opaque platform handle. -/
structure OV7670_host where
  pins : OV7670_pins
  platform : Nat

/-- The sentinel-terminated command tables `OV7670_rgb`, `OV7670_yuv` and
`OV7670_init` of `ov7670.c`.  Their entries are written with constants of
`ov7670.h`, so the tables are parameters. -/
structure Tables where
  OV7670_rgb : List OV7670_command
  OV7670_yuv : List OV7670_command
  OV7670_init : List OV7670_command

/-- `OV7670_pin_output(pin)`, a primitive of the host environment. -/
def OV7670_pin_output (pin : Int) (s : Sensor) : Sensor :=
  { s with trace := s.trace ++ [Event.pin_output pin] }

/-- `OV7670_pin_write(pin, hi)`, a primitive of the host environment. -/
def OV7670_pin_write (pin : Int) (hi : Nat) (s : Sensor) : Sensor :=
  { s with trace := s.trace ++ [Event.pin_write pin hi] }

/-- `OV7670_status OV7670_begin(OV7670_host *host, OV7670_colorspace
colorspace, OV7670_size size, float fps)`, the `#if 1` branch.  The
architecture-specific `OV7670_arch_begin` is a parameter giving the status it
returns; its call is recorded in the trace.  `none` stands for a read outside
a table. -/
def OV7670_begin (H : Header) (T : Tables) (arch_begin : OV7670_host → Nat)
    (host : OV7670_host) (colorspace size : Nat) (fps : ℚ) (s : Sensor) :
    Option (Nat × Sensor) :=
  let s := { s with trace := s.trace ++ [Event.arch_begin] }
  let status := arch_begin host
  if status ≠ H.OV7670_STATUS_OK then some (status, s)
  else
    let s := OV7670_delay_ms 300 s
    -- ENABLE AND/OR RESET CAMERA
    let s :=
      if host.pins.enable ≥ 0 then
        OV7670_delay_ms 300
          (OV7670_pin_write host.pins.enable 0 (OV7670_pin_output host.pins.enable s))
      else s
    let s :=
      if host.pins.reset ≥ 0 then
        OV7670_pin_write host.pins.reset 1
          (OV7670_delay_ms 1
            (OV7670_pin_write host.pins.reset 0 (OV7670_pin_output host.pins.reset s)))
      else
        OV7670_write_register host.platform H.OV7670_REG_COM7 H.OV7670_COM7_RESET s
    let s := OV7670_delay_ms 1 s
    let s := (OV7670_set_fps H host.platform fps s).2
    do
      let s ← OV7670_write_list host.platform
        (if colorspace = H.OV7670_COLOR_RGB then T.OV7670_rgb else T.OV7670_yuv) s
      let s ← OV7670_write_list host.platform T.OV7670_init s
      let s ← OV7670_set_size H host.platform size s
      some (H.OV7670_STATUS_OK, OV7670_delay_ms 300 s)

/-! ## RP2040 bring-up (`OV7670_arch_begin` of `arch/rp2040.c`) -/

/-- `static uint16_t ov7670_pio_opcodes[]`, the table of `ov7670_pio_program`
as initialised. -/
def ov7670_pio_opcodes : List Nat :=
  [ 0b0010000010000000,   -- WAIT 1 GPIO 0 (mask in VSYNC pin before use)
    0b0010000010000000,   -- WAIT 1 GPIO 0 (mask in PCLK pin before use)
    0b0100000000001000,   -- IN PINS 8
    0b0010000000000000 ]  -- WAIT 0 GPIO 0 (mask in PCLK pin before use)

/-- Results of the Pico SDK queries made by `OV7670_arch_begin`; the SDK is
not part of the sources, so what it returns is a parameter. -/
structure PicoSdk where
  pwm_gpio_to_slice_num : Int → Nat
  pwm_gpio_to_channel : Int → Nat
  pio_add_program : List Nat → Nat
  pio_claim_unused_sm : Nat

/-- One hardware-configuring call of the Pico SDK, with the arguments that
`OV7670_arch_begin` computes. -/
inductive HwCall where
  | pwm_init (slice : Nat) (clkdiv : ℚ) (wrap : Nat)
  | pwm_set_chan_level (slice channel level : Nat)
  | gpio_set_function (pin : Int)
  | pio_add_program (instructions : List Nat)
  | pio_claim_unused_sm
  | pio_sm_set_consecutive_pindirs (sm : Nat) (base : Int) (count : Nat)
  | pio_sm_init (sm offset wrap_target wrap : Nat) (in_base : Int)
  | pio_sm_set_enabled (sm : Nat)
  | input_sync_bypass (mask : Nat)

/-- What `OV7670_arch_begin` leaves behind: the content of the table
`ov7670_pio_opcodes` of the PIO program, the content of the array it names
`ov_7670_pio_opcodes`, the architecture-private fields of the host, and the
hardware calls made. -/
structure OV7670_arch where
  opcodes : List Nat
  ov_7670_pio_opcodes : List Nat
  sm : Nat
  pclk_mask : Nat
  vsync_mask : Nat
  hsync_mask : Nat
  calls : List HwCall

/-- `opcode |= pin` on a `uint16_t` opcode with an `int` pin number. -/
def or_pin (opcode : Nat) (pin : Int) : Nat :=
  (opcode ||| (pin % 65536).toNat) % 65536

/-- `OV7670_status OV7670_arch_begin(OV7670_host *host)` of `arch/rp2040.c`,
run on the current content `opcodes` of the table `ov7670_pio_opcodes`.  The
three `|=` statements of the source name `ov_7670_pio_opcodes`, an identifier
that no source file declares: it is a separate array, whose content is the
parameter `ov_7670_pio_opcodes`.  The program loaded by `pio_add_program` is
`ov7670_pio_program`, whose instructions are `ov7670_pio_opcodes`. -/
def OV7670_arch_begin (H : Header) (sdk : PicoSdk) (host : OV7670_host)
    (opcodes : List Nat) (ov_7670_pio_opcodes : List Nat) : Nat × OV7670_arch :=
  -- LOOK UP PWM SLICE & CHANNEL BASED ON XCLK PIN
  let slice := sdk.pwm_gpio_to_slice_num host.pins.xclk % 256
  let channel := sdk.pwm_gpio_to_channel host.pins.xclk % 256
  -- CONFIGURE PWM FOR XCLK OUT
  let calls :=
    [ HwCall.pwm_init slice (125000000 / ((H.OV7670_XCLK_HZ : ℚ) * 2)) 1,
      HwCall.pwm_set_chan_level slice channel 1,
      HwCall.gpio_set_function host.pins.xclk ]
  -- SET UP PIO (TO DO: verify the DATA pins are contiguous)
  let ov_7670_pio_opcodes := ov_7670_pio_opcodes.set 0
    (or_pin (ov_7670_pio_opcodes.getD 0 0) host.pins.vsync)
  let ov_7670_pio_opcodes := ov_7670_pio_opcodes.set 1
    (or_pin (ov_7670_pio_opcodes.getD 1 0) host.pins.pclk)
  let ov_7670_pio_opcodes := ov_7670_pio_opcodes.set 3
    (or_pin (ov_7670_pio_opcodes.getD 3 0) host.pins.pclk)
  let offset := sdk.pio_add_program opcodes
  let sm := sdk.pio_claim_unused_sm
  let data0 := host.pins.data.headD 0
  let calls := calls ++
    [ HwCall.pio_add_program opcodes,
      HwCall.pio_claim_unused_sm,
      HwCall.pio_sm_set_consecutive_pindirs sm data0 8,
      HwCall.pio_sm_init sm offset offset (offset + opcodes.length - 1) data0,
      HwCall.pio_sm_set_enabled sm ]
  let mask := ((0xFF <<< data0.toNat) ||| (1 <<< host.pins.pclk.toNat)) % 2 ^ 32
  let calls := calls ++ [HwCall.input_sync_bypass mask]
  (H.OV7670_STATUS_OK,
    { opcodes := opcodes
      ov_7670_pio_opcodes := ov_7670_pio_opcodes
      sm := sm
      pclk_mask := (1 <<< host.pins.pclk.toNat) % 2 ^ 32
      vsync_mask := (1 <<< host.pins.vsync.toNat) % 2 ^ 32
      hsync_mask := (1 <<< host.pins.hsync.toNat) % 2 ^ 32
      calls := calls })

/-- The data pins are contiguous: each one is the previous one plus one. -/
def ContiguousPins (data : List Int) : Prop :=
  ∀ i, i < data.length - 1 → data.getD (i + 1) 0 = data.getD i 0 + 1

/-! ## Polling capture (`OV7670_capture` of `arch/rp2040.c`) -/

/-- What the volatile locations read by `OV7670_capture` hold at the `n`-th
volatile read: the two sync registers, `PCC->ISR.bit.DRDY`, `PCC->RHR.reg`. -/
structure CaptureEnv where
  vsync_reg : Nat → Nat
  hsync_reg : Nat → Nat
  drdy : Nat → Bool
  rhr : Nat → Nat

/-- Observable steps of `OV7670_capture`. -/
inductive CapEvent where
  | read_vsync
  | read_hsync
  | read_drdy
  | disable_interrupts
  | enable_interrupts
  | store (index value : Nat)
  deriving DecidableEq, Repr

/-- Progress of a capture: number of volatile reads made, offset of `dest`
from its initial value, events so far (oldest first). -/
structure CapState where
  t : Nat
  dest : Nat
  trace : List CapEvent

/-- The C operator `!` on an integer. -/
def lnot (v : Nat) : Nat := if v = 0 then 1 else 0

/-- A polling loop `while (cond) ;` whose condition reads one volatile
location per test; `fuel` bounds the number of tests, `none` is fuel
exhausted. -/
def wait_while (cond : Nat → Bool) (ev : CapEvent) : Nat → CapState → Option CapState
  | 0, _ => none
  | fuel + 1, st =>
    let st1 : CapState := { st with t := st.t + 1, trace := st.trace ++ [ev] }
    if cond st.t then wait_while cond ev fuel st1 else some st1

/-- A counted loop: `n` iterations of `body`. -/
def repeat_steps (body : CapState → Option CapState) : Nat → CapState → Option CapState
  | 0, st => some st
  | n + 1, st => (body st).bind (repeat_steps body n)

/-- Body of `for (int x = 0; x < width; x++)`: wait for data ready, then
`*dest++ = PCC->RHR.reg` (a 16-bit store). -/
def capture_pixel (env : CaptureEnv) (fuel : Nat) (st : CapState) : Option CapState :=
  (wait_while (fun t => !env.drdy t) CapEvent.read_drdy fuel st).map fun st1 =>
    { t := st1.t + 1
      dest := st1.dest + 1
      trace := st1.trace ++ [CapEvent.store st1.dest (env.rhr st1.t % 65536)] }

/-- Body of `for (uint16_t y = 0; y < height; y++)`; `width` is already
halved. -/
def capture_row (env : CaptureEnv) (fuel hsync_bit width : Nat) (st : CapState) :
    Option CapState := do
  let st ← wait_while (fun t => decide (env.hsync_reg t &&& hsync_bit ≠ 0))
    CapEvent.read_hsync fuel st
  let st ← wait_while (fun t => decide (lnot (env.hsync_reg t) &&& hsync_bit ≠ 0))
    CapEvent.read_hsync fuel st
  repeat_steps (capture_pixel env fuel) width st

/-- `void OV7670_capture(uint16_t *dest, uint16_t width, uint16_t height,
volatile uint32_t *vsync_reg, uint32_t vsync_bit, volatile uint32_t
*hsync_reg, uint32_t hsync_bit)`; every polling loop may test its condition
up to `fuel` times. -/
def OV7670_capture (env : CaptureEnv) (fuel width height vsync_bit hsync_bit : Nat) :
    Option CapState := do
  let st ← wait_while (fun t => decide (env.vsync_reg t &&& vsync_bit ≠ 0))
    CapEvent.read_vsync fuel { t := 0, dest := 0, trace := [] }
  let st : CapState := { st with trace := st.trace ++ [CapEvent.disable_interrupts] }
  let st ← wait_while (fun t => decide (lnot (env.vsync_reg t) &&& vsync_bit ≠ 0))
    CapEvent.read_vsync fuel st
  let width := (width % 65536) / 2
  let st ← repeat_steps (capture_row env fuel hsync_bit width) (height % 65536) st
  some { st with trace := st.trace ++ [CapEvent.enable_interrupts] }

/-- The interrupt and store events of a capture trace. -/
def isIntOrStore : CapEvent → Bool
  | CapEvent.disable_interrupts => true
  | CapEvent.enable_interrupts => true
  | CapEvent.store _ _ => true
  | _ => false

/-- Stores of the values `vals` to consecutive words from offset `d` on. -/
def storesFrom (d : Nat) (vals : List Nat) : List CapEvent :=
  (vals.enumFrom d).map fun p => CapEvent.store p.1 p.2

/-- Every polling loop of a capture with these sync masks ends: from any
time on, each loop condition is false at some later read. -/
def WaitsTerminate (env : CaptureEnv) (vsync_bit hsync_bit : Nat) : Prop :=
  ∀ t,
    (∃ u, t ≤ u ∧ env.vsync_reg u &&& vsync_bit = 0) ∧
    (∃ u, t ≤ u ∧ lnot (env.vsync_reg u) &&& vsync_bit = 0) ∧
    (∃ u, t ≤ u ∧ env.hsync_reg u &&& hsync_bit = 0) ∧
    (∃ u, t ≤ u ∧ lnot (env.hsync_reg u) &&& hsync_bit = 0) ∧
    (∃ u, t ≤ u ∧ env.drdy u = true)

/-! ## Grayscale conversion (`OV7670_Y2RGB565`) -/

/-- The compiler builtin `__builtin_bswap16` on a 16-bit value. -/
def bswap16 (x : Nat) : Nat := ((x <<< 8) ||| (x >>> 8)) % 65536

/-- One iteration of the loop of `OV7670_Y2RGB565` on the word `*ptr`:
`y = *ptr & 0xFF` (a `uint8_t`), `rgb = ((y >> 3) * 0x801) | ((y & 0xFC) << 3)`
(a `uint16_t`), result `__builtin_bswap16(rgb)`. -/
def Y2RGB565_word (w : Nat) : Nat :=
  let y := (w &&& 0xFF) % 256
  let rgb := (((y >>> 3) * 0x801) ||| ((y &&& 0xFC) <<< 3)) % 65536
  bswap16 rgb

/-- The loop `while (len--)` of `OV7670_Y2RGB565` over the words from `ptr`
on; `none` is a store past the end of the buffer. -/
def Y2RGB565_loop : List Nat → Nat → Option (List Nat)
  | buf, 0 => some buf
  | [], _ + 1 => none
  | w :: rest, n + 1 => (Y2RGB565_loop rest n).map fun r => Y2RGB565_word w :: r

/-- `void OV7670_Y2RGB565(uint16_t *ptr, uint32_t len)`. -/
def OV7670_Y2RGB565 (buf : List Nat) (len : Nat) : Option (List Nat) :=
  Y2RGB565_loop buf (len % 2 ^ 32)

/-- Reference conversion of one word, in the words of the specification:
`bswap16((R << 11) | (G << 5) | B)` with `y = w AND 0xFF`, `R = B = y >> 3`,
`G = y >> 2`. -/
def Y2RGB565_reference (w : Nat) : Nat :=
  let y := w &&& 0xFF
  bswap16 ((((y >>> 3) <<< 11) ||| ((y >>> 2) <<< 5)) ||| (y >>> 3))

end OV7670

namespace OV7670

/-! ## Floating-point rounding: exponent and integer rounding -/

theorem log2_fuel_spec : ∀ fuel n : Nat, n ≤ fuel → n ≠ 0 →
    2 ^ log2_fuel fuel n ≤ n ∧ n < 2 ^ (log2_fuel fuel n + 1)
  | 0, n, h, hn => absurd (Nat.le_zero.mp h) hn
  | fuel + 1, n, h, hn => by
    unfold log2_fuel
    split_ifs with h2
    · obtain ⟨a, b⟩ := log2_fuel_spec fuel (n / 2) (by omega) (by omega)
      constructor
      · rw [pow_succ]; omega
      · rw [pow_succ]; omega
    · simp only [pow_zero, zero_add, pow_one]
      omega

theorem log2_bin_spec (n : Nat) : ∀ i lo : Nat, 2 ^ lo ≤ n → n < 2 ^ (lo + 2 ^ i) →
    2 ^ log2_bin n i lo ≤ n ∧ n < 2 ^ (log2_bin n i lo + 1)
  | 0, lo, h1, h2 => by
    unfold log2_bin
    exact ⟨h1, by simpa using h2⟩
  | i + 1, lo, h1, h2 => by
    unfold log2_bin
    split_ifs with h
    · exact log2_bin_spec n i (lo + 2 ^ i) h (by
        have : lo + 2 ^ i + 2 ^ i = lo + 2 ^ (i + 1) := by rw [pow_succ]; omega
        rw [this]; exact h2)
    · exact log2_bin_spec n i lo h1 (not_le.mp h)

theorem nlog2_spec (n : Nat) (hn : n ≠ 0) :
    2 ^ nlog2 n ≤ n ∧ n < 2 ^ (nlog2 n + 1) := by
  unfold nlog2
  split_ifs with h
  · exact log2_bin_spec n 12 0 (by simpa using Nat.pos_of_ne_zero hn)
      (by
      have e : 0 + 2 ^ 12 = 4096 := by norm_num
      rw [e]; exact h)
  · exact log2_fuel_spec n n (le_refl _) hn

theorem ratio_bracket (A D : ℚ) (la ld : ℕ) (hD : 0 < D)
    (A1 : (2 : ℚ) ^ la ≤ A) (A2 : A < (2 : ℚ) ^ (la + 1))
    (D1 : (2 : ℚ) ^ ld ≤ D) (D2 : D < (2 : ℚ) ^ (ld + 1)) :
    (2 : ℚ) ^ ((la : ℤ) - (ld : ℤ) - 1) ≤ A / D ∧
    A / D < (2 : ℚ) ^ ((la : ℤ) - (ld : ℤ) + 1) := by
  have h2 : (2 : ℚ) ≠ 0 := by norm_num
  have hA : 0 < A := lt_of_lt_of_le (by positivity) A1
  constructor
  · have e : ((la : ℤ) - (ld : ℤ) - 1) = ((la : ℕ) : ℤ) - ((ld + 1 : ℕ) : ℤ) := by
      push_cast; ring
    rw [e, zpow_sub₀ h2, zpow_natCast, zpow_natCast, div_le_div_iff₀ (by positivity) hD]
    calc (2 : ℚ) ^ la * D ≤ A * D := mul_le_mul_of_nonneg_right A1 (le_of_lt hD)
      _ ≤ A * 2 ^ (ld + 1) := mul_le_mul_of_nonneg_left (le_of_lt D2) (le_of_lt hA)
  · have e : ((la : ℤ) - (ld : ℤ) + 1) = ((la + 1 : ℕ) : ℤ) - ((ld : ℕ) : ℤ) := by
      push_cast; ring
    rw [e, zpow_sub₀ h2, zpow_natCast, zpow_natCast, div_lt_div_iff₀ hD (by positivity)]
    calc A * 2 ^ ld ≤ A * D := mul_le_mul_of_nonneg_left D1 (le_of_lt hA)
      _ < 2 ^ (la + 1) * D := mul_lt_mul_of_pos_right A2 hD

/-- The binary exponent brackets a positive rational. -/
theorem ilog2_spec (q : ℚ) (hq : 0 < q) :
    (2 : ℚ) ^ ilog2 q ≤ q ∧ q < (2 : ℚ) ^ (ilog2 q + 1) := by
  have hnum : 0 < q.num := Rat.num_pos.mpr hq
  have hden : q.den ≠ 0 := q.den_nz
  have hna : q.num.natAbs ≠ 0 := by omega
  obtain ⟨a1, a2⟩ := nlog2_spec q.num.natAbs hna
  obtain ⟨d1, d2⟩ := nlog2_spec q.den hden
  have hq' : (q.num.natAbs : ℚ) / (q.den : ℚ) = q := by
    have h1 : ((q.num.natAbs : ℤ) : ℚ) = (q.num : ℚ) := by
      rw [Int.natAbs_of_nonneg (le_of_lt hnum)]
    rw [← Int.cast_natCast, h1]
    exact Rat.num_div_den q
  have hdpos : (0 : ℚ) < (q.den : ℚ) := by exact_mod_cast Nat.pos_of_ne_zero hden
  have key := ratio_bracket (q.num.natAbs : ℚ) (q.den : ℚ) (nlog2 q.num.natAbs)
    (nlog2 q.den) hdpos (by exact_mod_cast a1) (by exact_mod_cast a2)
    (by exact_mod_cast d1) (by exact_mod_cast d2)
  rw [hq'] at key
  obtain ⟨hlo, hup⟩ := key
  unfold ilog2
  simp only
  split_ifs with h
  · exact ⟨h, hup⟩
  · refine ⟨hlo, ?_⟩
    rw [sub_add_cancel]
    exact not_le.mp h

/-- The binary exponent is the only integer that brackets a positive
rational. -/
theorem ilog2_eq (q : ℚ) (k : ℤ) (h1 : (2 : ℚ) ^ k ≤ q) (h2 : q < (2 : ℚ) ^ (k + 1)) :
    ilog2 q = k := by
  have hq : 0 < q := lt_of_lt_of_le (zpow_pos (by norm_num) k) h1
  obtain ⟨s1, s2⟩ := ilog2_spec q hq
  have two : (1 : ℚ) < 2 := by norm_num
  have a : ilog2 q < k + 1 := (zpow_lt_zpow_iff_right₀ two).mp (lt_of_le_of_lt s1 h2)
  have b : k < ilog2 q + 1 := (zpow_lt_zpow_iff_right₀ two).mp (lt_of_le_of_lt h1 s2)
  omega

theorem ilog2_mono (x y : ℚ) (hx : 0 < x) (hxy : x ≤ y) : ilog2 x ≤ ilog2 y := by
  obtain ⟨s1, _⟩ := ilog2_spec x hx
  obtain ⟨_, t2⟩ := ilog2_spec y (lt_of_lt_of_le hx hxy)
  have two : (1 : ℚ) < 2 := by norm_num
  have : ilog2 x < ilog2 y + 1 :=
    (zpow_lt_zpow_iff_right₀ two).mp (lt_of_le_of_lt s1 (lt_of_le_of_lt hxy t2))
  omega

theorem round_even_cases (q : ℚ) : round_even q = ⌊q⌋ ∨ round_even q = ⌊q⌋ + 1 := by
  unfold round_even
  split_ifs <;> simp

theorem floor_le_round_even (q : ℚ) : ⌊q⌋ ≤ round_even q := by
  rcases round_even_cases q with h | h <;> omega

theorem round_even_intCast (n : ℤ) : round_even (n : ℚ) = n := by
  unfold round_even
  simp

theorem round_even_mono (x y : ℚ) (h : x ≤ y) : round_even x ≤ round_even y := by
  have hf : ⌊x⌋ ≤ ⌊y⌋ := Int.floor_mono h
  rcases lt_or_eq_of_le hf with hlt | heq
  · have hx : round_even x ≤ ⌊x⌋ + 1 := by
      rcases round_even_cases x with h | h <;> omega
    have hy := floor_le_round_even y
    omega
  · have hxy : x - ⌊x⌋ ≤ y - ⌊y⌋ := by rw [heq]; linarith
    unfold round_even
    rw [heq] at hxy ⊢
    by_cases a1 : x - (⌊y⌋ : ℚ) < 1 / 2
    · rw [if_pos a1]
      split_ifs <;> omega
    · rw [if_neg a1]
      by_cases a2 : (1 : ℚ) / 2 < x - (⌊y⌋ : ℚ)
      · have b1 : ¬ (y - (⌊y⌋ : ℚ) < 1 / 2) := by linarith
        have b2 : (1 : ℚ) / 2 < y - (⌊y⌋ : ℚ) := by linarith
        rw [if_pos a2, if_neg b1, if_pos b2]
      · have b1 : ¬ (y - (⌊y⌋ : ℚ) < 1 / 2) := by linarith
        rw [if_neg a2, if_neg b1]
        split_ifs <;> omega

/-- Rounding to an integer is exact on an integer and moves by at most one
half. -/
theorem round_even_near (q : ℚ) : |(round_even q : ℚ) - q| ≤ 1 / 2 := by
  have h1 : (⌊q⌋ : ℚ) ≤ q := Int.floor_le q
  have h2 : q < (⌊q⌋ : ℚ) + 1 := Int.lt_floor_add_one q
  unfold round_even
  rw [abs_le]
  split_ifs with a b c
  · constructor <;> linarith
  · push_cast; constructor <;> linarith
  · constructor <;> linarith
  · push_cast; constructor <;> linarith

/-! ## Floating-point rounding: order and exactness -/

theorem zpow_two_intCast (n : ℤ) (hn : 0 ≤ n) :
    (2 : ℚ) ^ n = (((2 : ℤ) ^ n.toNat : ℤ) : ℚ) := by
  obtain ⟨m, rfl⟩ := Int.eq_ofNat_of_zero_le hn
  simp

theorem fl_abs_zero (prec : Nat) (emin : ℤ) : fl_abs prec emin 0 = 0 := by
  unfold fl_abs
  simp

theorem fl_abs_nonneg (prec : Nat) (emin : ℤ) (q : ℚ) (hq : 0 ≤ q) :
    0 ≤ fl_abs prec emin q := by
  unfold fl_abs
  split_ifs with h0
  · exact le_refl _
  · simp only
    have hp : (0 : ℚ) < (2 : ℚ) ^ (max (ilog2 q - ((prec : ℤ) - 1)) emin) :=
      zpow_pos (by norm_num) _
    have h1 : (0 : ℤ) ≤ round_even (q / (2 : ℚ) ^ (max (ilog2 q - ((prec : ℤ) - 1)) emin)) :=
      le_trans (Int.floor_nonneg.mpr (div_nonneg hq (le_of_lt hp))) (floor_le_round_even _)
    exact mul_nonneg (by exact_mod_cast h1) (le_of_lt hp)

/-- A power of two at or above the last place is not crossed by the rounding,
from below. -/
theorem fl_abs_le_pow (prec : Nat) (emin : ℤ) (q : ℚ) (k : ℤ) (hq : 0 < q)
    (hk : max (ilog2 q - ((prec : ℤ) - 1)) emin ≤ k) (hle : q ≤ (2 : ℚ) ^ k) :
    fl_abs prec emin q ≤ (2 : ℚ) ^ k := by
  unfold fl_abs
  rw [if_neg (ne_of_gt hq)]
  simp only
  generalize max (ilog2 q - ((prec : ℤ) - 1)) emin = e at hk ⊢
  have hp : (0 : ℚ) < (2 : ℚ) ^ e := zpow_pos (by norm_num) _
  have h2 : (2 : ℚ) ≠ 0 := by norm_num
  have hdiv : q / (2 : ℚ) ^ e ≤ (((2 : ℤ) ^ (k - e).toNat : ℤ) : ℚ) := by
    rw [← zpow_two_intCast _ (by omega), zpow_sub₀ h2]
    exact div_le_div_of_nonneg_right hle (le_of_lt hp)
  have hr := round_even_mono _ _ hdiv
  rw [round_even_intCast] at hr
  have hr' : (round_even (q / (2 : ℚ) ^ e) : ℚ) ≤ (2 : ℚ) ^ (k - e) := by
    rw [zpow_two_intCast (k - e) (by omega)]
    exact_mod_cast hr
  calc (round_even (q / (2 : ℚ) ^ e) : ℚ) * (2 : ℚ) ^ e
      ≤ (2 : ℚ) ^ (k - e) * (2 : ℚ) ^ e := mul_le_mul_of_nonneg_right hr' (le_of_lt hp)
    _ = (2 : ℚ) ^ k := by rw [← zpow_add₀ h2]; congr 1; ring

/-- A power of two at or above the last place is not crossed by the rounding,
from above. -/
theorem fl_abs_ge_pow (prec : Nat) (emin : ℤ) (q : ℚ) (k : ℤ) (hq : 0 < q)
    (hk : max (ilog2 q - ((prec : ℤ) - 1)) emin ≤ k) (hle : (2 : ℚ) ^ k ≤ q) :
    (2 : ℚ) ^ k ≤ fl_abs prec emin q := by
  unfold fl_abs
  rw [if_neg (ne_of_gt hq)]
  simp only
  generalize max (ilog2 q - ((prec : ℤ) - 1)) emin = e at hk ⊢
  have hp : (0 : ℚ) < (2 : ℚ) ^ e := zpow_pos (by norm_num) _
  have h2 : (2 : ℚ) ≠ 0 := by norm_num
  have hdiv : (((2 : ℤ) ^ (k - e).toNat : ℤ) : ℚ) ≤ q / (2 : ℚ) ^ e := by
    rw [← zpow_two_intCast _ (by omega), zpow_sub₀ h2]
    exact div_le_div_of_nonneg_right hle (le_of_lt hp)
  have hr := round_even_mono _ _ hdiv
  rw [round_even_intCast] at hr
  have hr' : (2 : ℚ) ^ (k - e) ≤ (round_even (q / (2 : ℚ) ^ e) : ℚ) := by
    rw [zpow_two_intCast (k - e) (by omega)]
    exact_mod_cast hr
  calc (2 : ℚ) ^ k = (2 : ℚ) ^ (k - e) * (2 : ℚ) ^ e := by
        rw [← zpow_add₀ h2]; congr 1; ring
    _ ≤ (round_even (q / (2 : ℚ) ^ e) : ℚ) * (2 : ℚ) ^ e :=
        mul_le_mul_of_nonneg_right hr' (le_of_lt hp)

/-- Rounding of non-negative values preserves the order. -/
theorem fl_abs_mono (prec : Nat) (emin : ℤ) (hprec : 1 ≤ prec) (x y : ℚ)
    (hx : 0 ≤ x) (hxy : x ≤ y) : fl_abs prec emin x ≤ fl_abs prec emin y := by
  rcases eq_or_lt_of_le hx with h0 | hpos
  · rw [← h0, fl_abs_zero]
    exact fl_abs_nonneg prec emin y (le_trans hx hxy)
  · have hy : 0 < y := lt_of_lt_of_le hpos hxy
    have hlog := ilog2_mono x y hpos hxy
    have he : max (ilog2 x - ((prec : ℤ) - 1)) emin ≤ max (ilog2 y - ((prec : ℤ) - 1)) emin :=
      max_le_max (by omega) (le_refl _)
    have hp1 : (1 : ℤ) ≤ (prec : ℤ) := by exact_mod_cast hprec
    rcases eq_or_lt_of_le he with heq | hlt
    · unfold fl_abs
      rw [if_neg (ne_of_gt hpos), if_neg (ne_of_gt hy)]
      simp only
      rw [heq]
      have hp : (0 : ℚ) < (2 : ℚ) ^ (max (ilog2 y - ((prec : ℤ) - 1)) emin) :=
        zpow_pos (by norm_num) _
      have hr := round_even_mono _ _ (div_le_div_of_nonneg_right hxy (le_of_lt hp))
      exact mul_le_mul_of_nonneg_right (by exact_mod_cast hr) (le_of_lt hp)
    · obtain ⟨_, sx⟩ := ilog2_spec x hpos
      obtain ⟨sy, _⟩ := ilog2_spec y hy
      have hex : ilog2 x - ((prec : ℤ) - 1) ≤ max (ilog2 x - ((prec : ℤ) - 1)) emin :=
        le_max_left _ _
      have hmin : emin ≤ max (ilog2 x - ((prec : ℤ) - 1)) emin := le_max_right _ _
      have hey : max (ilog2 y - ((prec : ℤ) - 1)) emin = ilog2 y - ((prec : ℤ) - 1) := by
        rcases max_cases (ilog2 y - ((prec : ℤ) - 1)) emin with ⟨h, _⟩ | ⟨h, _⟩
        · exact h
        · omega
      have hxk : x ≤ (2 : ℚ) ^ ilog2 y :=
        le_trans (le_of_lt sx) (zpow_le_zpow_right₀ (by norm_num) (by omega))
      exact le_trans (fl_abs_le_pow prec emin x (ilog2 y) hpos (by omega) hxk)
        (fl_abs_ge_pow prec emin y (ilog2 y) hy (by omega) sy)

/-- A value with a significand of at most `prec` bits at an exponent of at
least `emin` is not changed by the rounding. -/
theorem fl_abs_exact (prec : Nat) (emin : ℤ) (m : ℕ) (e : ℤ) (hm : m < 2 ^ prec)
    (he : emin ≤ e) : fl_abs prec emin ((m : ℚ) * (2 : ℚ) ^ e) = (m : ℚ) * (2 : ℚ) ^ e := by
  rcases Nat.eq_zero_or_pos m with h0 | hpos
  · rw [h0]; simp [fl_abs_zero]
  · have h2 : (2 : ℚ) ≠ 0 := by norm_num
    have hpe : (0 : ℚ) < (2 : ℚ) ^ e := zpow_pos (by norm_num) _
    have hq : (0 : ℚ) < (m : ℚ) * (2 : ℚ) ^ e :=
      mul_pos (by exact_mod_cast hpos) hpe
    obtain ⟨s1, _⟩ := ilog2_spec _ hq
    have hlt : (m : ℚ) * (2 : ℚ) ^ e < (2 : ℚ) ^ ((prec : ℤ) + e) := by
      rw [zpow_add₀ h2, zpow_natCast]
      exact mul_lt_mul_of_pos_right (by exact_mod_cast hm) hpe
    have hlog : ilog2 ((m : ℚ) * (2 : ℚ) ^ e) < (prec : ℤ) + e :=
      (zpow_lt_zpow_iff_right₀ (by norm_num : (1 : ℚ) < 2)).mp (lt_of_le_of_lt s1 hlt)
    unfold fl_abs
    rw [if_neg (ne_of_gt hq)]
    simp only
    have hee : max (ilog2 ((m : ℚ) * (2 : ℚ) ^ e) - ((prec : ℤ) - 1)) emin ≤ e :=
      max_le (by omega) he
    generalize max (ilog2 ((m : ℚ) * (2 : ℚ) ^ e) - ((prec : ℤ) - 1)) emin = e1 at hee ⊢
    have hdiv : (m : ℚ) * (2 : ℚ) ^ e / (2 : ℚ) ^ e1 =
        (((m : ℤ) * (2 : ℤ) ^ (e - e1).toNat : ℤ) : ℚ) := by
      push_cast
      have := zpow_two_intCast (e - e1) (by omega)
      push_cast at this
      rw [← this, zpow_sub₀ h2]
      ring
    rw [hdiv, round_even_intCast]
    rw [← hdiv]
    field_simp

theorem fl_round_neg (prec : Nat) (emin : ℤ) (q : ℚ) :
    fl_round prec emin (-q) = -fl_round prec emin q := by
  unfold fl_round
  rcases lt_trichotomy q 0 with h | h | h
  · rw [if_pos (by linarith), if_neg (by linarith)]
    simp
  · rw [h]; simp [fl_abs_zero]
  · rw [if_neg (by linarith), if_pos (by linarith)]
    simp

/-- Rounding preserves the order. -/
theorem fl_round_mono (prec : Nat) (emin : ℤ) (hprec : 1 ≤ prec) (x y : ℚ)
    (hxy : x ≤ y) : fl_round prec emin x ≤ fl_round prec emin y := by
  unfold fl_round
  by_cases hx : 0 ≤ x
  · rw [if_pos hx, if_pos (le_trans hx hxy)]
    exact fl_abs_mono prec emin hprec x y hx hxy
  · rw [if_neg hx]
    by_cases hy : 0 ≤ y
    · rw [if_pos hy]
      have h1 := fl_abs_nonneg prec emin (-x) (by linarith)
      have h2 := fl_abs_nonneg prec emin y hy
      linarith
    · rw [if_neg hy]
      have := fl_abs_mono prec emin hprec (-y) (-x) (by linarith) (by linarith)
      linarith

/-! ## Floating-point rounding: the executable rounding is the rounding -/

theorem round_even_div_eq (N D : Nat) (hD : 0 < D) :
    ((round_even_div N D : ℕ) : ℤ) = round_even ((N : ℚ) / (D : ℚ)) := by
  have hDq : (0 : ℚ) < (D : ℚ) := by exact_mod_cast hD
  have hfloor : ⌊(N : ℚ) / (D : ℚ)⌋ = ((N / D : ℕ) : ℤ) := by
    rw [Int.floor_eq_iff]
    constructor
    · rw [le_div_iff₀ hDq]
      have : N / D * D ≤ N := Nat.div_mul_le_self N D
      exact_mod_cast this
    · rw [div_lt_iff₀ hDq]
      have : N < (N / D + 1) * D := by
        have := Nat.div_add_mod N D
        have := Nat.mod_lt N hD
        nlinarith
      exact_mod_cast this
  have hfrac : (N : ℚ) / (D : ℚ) - ((N / D : ℕ) : ℚ) = ((N % D : ℕ) : ℚ) / (D : ℚ) := by
    have h := Nat.div_add_mod N D
    have hq : (N : ℚ) = (D : ℚ) * ((N / D : ℕ) : ℚ) + ((N % D : ℕ) : ℚ) := by
      exact_mod_cast h.symm
    field_simp
    linarith
  unfold round_even round_even_div
  rw [hfloor]
  have hcast : (((N / D : ℕ) : ℤ) : ℚ) = ((N / D : ℕ) : ℚ) := by norm_cast
  rw [hcast, hfrac]
  have c1 : ((N % D : ℕ) : ℚ) / (D : ℚ) < 1 / 2 ↔ 2 * (N % D) < D := by
    rw [div_lt_iff₀ hDq]
    constructor
    · intro h
      have : (2 : ℚ) * ((N % D : ℕ) : ℚ) < (D : ℚ) := by linarith
      exact_mod_cast this
    · intro h
      have : (2 : ℚ) * ((N % D : ℕ) : ℚ) < (D : ℚ) := by exact_mod_cast h
      linarith
  have c2 : (1 : ℚ) / 2 < ((N % D : ℕ) : ℚ) / (D : ℚ) ↔ D < 2 * (N % D) := by
    rw [lt_div_iff₀ hDq]
    constructor
    · intro h
      have : (D : ℚ) < (2 : ℚ) * ((N % D : ℕ) : ℚ) := by linarith
      exact_mod_cast this
    · intro h
      have : (D : ℚ) < (2 : ℚ) * ((N % D : ℕ) : ℚ) := by exact_mod_cast h
      linarith
  have c3 : ((N / D : ℕ) : ℤ) % 2 = 0 ↔ (N / D) % 2 = 0 := by omega
  simp only [c1, c2, c3]
  split_ifs <;> simp

theorem zpow_two_neg_natCast (k : ℕ) : (2 : ℚ) ^ (-(k : ℤ)) = 1 / (2 : ℚ) ^ k := by
  rw [zpow_neg, zpow_natCast, one_div]

/-- The exponent computed on numerator and denominator is the binary
exponent. -/
theorem ilog2_nat_eq (q : ℚ) (hq : 0 < q) : ilog2_nat q.num.natAbs q.den = ilog2 q := by
  have hnum : 0 < q.num := Rat.num_pos.mpr hq
  have hdpos : (0 : ℚ) < (q.den : ℚ) := by exact_mod_cast q.den_pos
  have hq' : q = (q.num.natAbs : ℚ) / (q.den : ℚ) := by
    have h1 : ((q.num.natAbs : ℤ) : ℚ) = (q.num : ℚ) := by
      rw [Int.natAbs_of_nonneg (le_of_lt hnum)]
    rw [← Int.cast_natCast, h1]
    exact (Rat.num_div_den q).symm
  unfold ilog2_nat ilog2
  simp only
  generalize nlog2 q.num.natAbs = la
  generalize nlog2 q.den = ld
  by_cases hle : ld ≤ la
  · rw [if_pos hle]
    have hk : ((la : ℤ) - (ld : ℤ)) = ((la - ld : ℕ) : ℤ) := by omega
    rw [hk]
    have hiff : ((2 : ℚ) ^ ((la - ld : ℕ) : ℤ) ≤ q) ↔ q.den * 2 ^ (la - ld) ≤ q.num.natAbs := by
      rw [zpow_natCast]
      constructor
      · intro h
        rw [hq', le_div_iff₀ hdpos] at h
        have : ((q.den * 2 ^ (la - ld) : ℕ) : ℚ) ≤ (q.num.natAbs : ℚ) := by
          push_cast; linarith
        exact_mod_cast this
      · intro h
        have : ((q.den * 2 ^ (la - ld) : ℕ) : ℚ) ≤ (q.num.natAbs : ℚ) := by exact_mod_cast h
        push_cast at this
        rw [hq', le_div_iff₀ hdpos]
        linarith
    by_cases ht : q.den * 2 ^ (la - ld) ≤ q.num.natAbs
    · rw [if_pos ht, if_pos (hiff.mpr ht)]
    · rw [if_neg ht, if_neg (fun h => ht (hiff.mp h))]
  · rw [if_neg hle]
    have hk : ((la : ℤ) - (ld : ℤ)) = -((ld - la : ℕ) : ℤ) := by omega
    rw [hk]
    have hp : (0 : ℚ) < (2 : ℚ) ^ (ld - la) := by positivity
    have hiff : ((2 : ℚ) ^ (-((ld - la : ℕ) : ℤ)) ≤ q) ↔
        q.den ≤ q.num.natAbs * 2 ^ (ld - la) := by
      rw [zpow_two_neg_natCast, div_le_iff₀ hp]
      constructor
      · intro h
        rw [hq', div_mul_eq_mul_div, le_div_iff₀ hdpos] at h
        have : ((q.den : ℕ) : ℚ) ≤ ((q.num.natAbs * 2 ^ (ld - la) : ℕ) : ℚ) := by
          push_cast; linarith
        exact_mod_cast this
      · intro h
        have : ((q.den : ℕ) : ℚ) ≤ ((q.num.natAbs * 2 ^ (ld - la) : ℕ) : ℚ) := by
          exact_mod_cast h
        push_cast at this
        rw [hq', div_mul_eq_mul_div, le_div_iff₀ hdpos]
        linarith
    by_cases ht : q.den ≤ q.num.natAbs * 2 ^ (ld - la)
    · rw [if_pos ht, if_pos (hiff.mpr ht)]
    · rw [if_neg ht, if_neg (fun h => ht (hiff.mp h))]

/-- Rounding a quotient to a multiple of `2 ^ e`. -/
theorem fl_scale_eq (a d : Nat) (hd : 0 < d) (e : ℤ) :
    fl_scale a d e =
      (round_even ((a : ℚ) / (d : ℚ) / (2 : ℚ) ^ e) : ℚ) * (2 : ℚ) ^ e := by
  have hdq : (d : ℚ) ≠ 0 := by exact_mod_cast (Nat.pos_iff_ne_zero.mp hd)
  cases e with
  | ofNat k =>
    unfold fl_scale
    have h1 : (a : ℚ) / (d : ℚ) / (2 : ℚ) ^ (Int.ofNat k) =
        ((a : ℕ) : ℚ) / ((d * 2 ^ k : ℕ) : ℚ) := by
      rw [Int.ofNat_eq_coe, zpow_natCast]
      push_cast
      rw [div_div]
    rw [h1, ← round_even_div_eq a (d * 2 ^ k) (by positivity)]
    rw [Int.ofNat_eq_coe, zpow_natCast]
    push_cast
    rfl
  | negSucc k =>
    have hz : (2 : ℚ) ^ (Int.negSucc k) = 1 / (2 : ℚ) ^ (k + 1) := by
      rw [Int.negSucc_eq]
      have := zpow_two_neg_natCast (k + 1)
      push_cast at this
      exact this
    have h1 : (a : ℚ) / (d : ℚ) / (2 : ℚ) ^ (Int.negSucc k) =
        ((a * 2 ^ (k + 1) : ℕ) : ℚ) / ((d : ℕ) : ℚ) := by
      rw [hz]
      push_cast
      field_simp
    rw [h1, ← round_even_div_eq (a * 2 ^ (k + 1)) d hd, hz]
    show mkRat ((round_even_div (a * 2 ^ (k + 1)) d : ℕ) : ℤ) (2 ^ (k + 1)) = _
    rw [Rat.mkRat_eq_div]
    push_cast
    ring

/-- The rounding computed on numerator and denominator is the rounding. -/
theorem fl_nat_eq (prec : Nat) (emin : ℤ) (q : ℚ) (hq : 0 < q) :
    fl_nat prec emin q.num.natAbs q.den = fl_abs prec emin q := by
  have hnum : 0 < q.num := Rat.num_pos.mpr hq
  have hq' : (q.num.natAbs : ℚ) / (q.den : ℚ) = q := by
    have h1 : ((q.num.natAbs : ℤ) : ℚ) = (q.num : ℚ) := by
      rw [Int.natAbs_of_nonneg (le_of_lt hnum)]
    rw [← Int.cast_natCast, h1]
    exact Rat.num_div_den q
  have hlog := ilog2_nat_eq q hq
  obtain ⟨a, ha⟩ : ∃ a, q.num.natAbs = a + 1 := ⟨q.num.natAbs - 1, by omega⟩
  rw [ha] at hlog hq' ⊢
  show fl_scale (a + 1) q.den (max (ilog2_nat (a + 1) q.den - ((prec : ℤ) - 1)) emin) = _
  unfold fl_abs
  rw [if_neg (ne_of_gt hq), hlog, fl_scale_eq _ _ q.den_pos, hq']

theorem fl_exec_eq (prec : Nat) (emin : ℤ) (q : ℚ) :
    fl_exec prec emin q = fl_round prec emin q := by
  rcases lt_trichotomy q 0 with hneg | h0 | hpos
  · have hnum : q.num < 0 := Rat.num_neg.mpr hneg
    have key := fl_nat_eq prec emin (-q) (by linarith)
    rw [Rat.neg_num, Rat.neg_den, Int.natAbs_neg] at key
    unfold fl_round
    rw [if_neg (not_le.mpr hneg), ← key]
    obtain ⟨n, d, hd, hc⟩ := q
    cases n with
    | ofNat k => exact absurd hnum (by simp)
    | negSucc k => rfl
  · subst h0
    unfold fl_round
    rw [if_pos (le_refl _), fl_abs_zero]
    rfl
  · have hnum : 0 < q.num := Rat.num_pos.mpr hpos
    have key := fl_nat_eq prec emin q hpos
    unfold fl_round
    rw [if_pos (le_of_lt hpos), ← key]
    obtain ⟨n, d, hd, hc⟩ := q
    cases n with
    | ofNat k => rfl
    | negSucc k => exact absurd hnum (by simp)

theorem f32_eq (q : ℚ) :
    f32 q = max (-(2 ^ 128)) (min (2 ^ 128) (fl_round 24 (-149) q)) := by
  unfold f32
  rw [fl_exec_eq]
  norm_cast

theorem f64_eq (q : ℚ) :
    f64 q = max (-(2 ^ 1024)) (min (2 ^ 1024) (fl_round 53 (-1074) q)) := by
  unfold f64
  rw [fl_exec_eq]
  norm_cast

theorem f32_mono (x y : ℚ) (hxy : x ≤ y) : f32 x ≤ f32 y := by
  rw [f32_eq, f32_eq]
  exact max_le_max (le_refl _) (min_le_min (le_refl _)
    (fl_round_mono 24 (-149) (by norm_num) x y hxy))

theorem f64_mono (x y : ℚ) (hxy : x ≤ y) : f64 x ≤ f64 y := by
  rw [f64_eq, f64_eq]
  exact max_le_max (le_refl _) (min_le_min (le_refl _)
    (fl_round_mono 53 (-1074) (by norm_num) x y hxy))

/-! ## Floating-point rounding: representable values -/

theorem f32_zero : f32 0 = 0 := by
  rw [f32_eq]
  unfold fl_round
  rw [if_pos (le_refl _), fl_abs_zero]
  norm_num

theorem f32_neg (q : ℚ) : f32 (-q) = -f32 q := by
  rw [f32_eq, f32_eq]
  rw [fl_round_neg]
  have hB : (0 : ℚ) < 2 ^ 128 := by positivity
  generalize fl_round 24 (-149) q = F
  generalize (2 : ℚ) ^ 128 = B at hB ⊢
  simp only [max_def, min_def]
  split_ifs <;> linarith

/-- A non-negative value with a significand of at most 24 bits at an exponent
of at least -149, and of magnitude at most `2 ^ 128`, is a `float`. -/
theorem f32_exact (m : ℕ) (e : ℤ) (hm : m < 2 ^ 24) (he : -149 ≤ e)
    (hb : (m : ℚ) * (2 : ℚ) ^ e ≤ 2 ^ 128) : f32 ((m : ℚ) * (2 : ℚ) ^ e) = (m : ℚ) * (2 : ℚ) ^ e := by
  have hnn : (0 : ℚ) ≤ (m : ℚ) * (2 : ℚ) ^ e :=
    mul_nonneg (Nat.cast_nonneg _) (le_of_lt (zpow_pos (by norm_num) _))
  rw [f32_eq]
  unfold fl_round
  rw [if_pos hnn, fl_abs_exact 24 (-149) m e hm he, min_eq_right hb]
  exact max_eq_right (le_trans (by norm_num) hnn)

/-- The rounding of a positive value has a significand of at most `2 ^ prec`
at an exponent of at least `emin`. -/
theorem fl_abs_repr (prec : Nat) (emin : ℤ) (q : ℚ) (hq : 0 < q) :
    ∃ (m : ℕ) (e : ℤ), m ≤ 2 ^ prec ∧ emin ≤ e ∧ fl_abs prec emin q = (m : ℚ) * (2 : ℚ) ^ e := by
  obtain ⟨_, s2⟩ := ilog2_spec q hq
  unfold fl_abs
  rw [if_neg (ne_of_gt hq)]
  simp only
  have hemin : emin ≤ max (ilog2 q - ((prec : ℤ) - 1)) emin := le_max_right _ _
  have hel : ilog2 q - ((prec : ℤ) - 1) ≤ max (ilog2 q - ((prec : ℤ) - 1)) emin :=
    le_max_left _ _
  generalize max (ilog2 q - ((prec : ℤ) - 1)) emin = e at hemin hel ⊢
  have hp : (0 : ℚ) < (2 : ℚ) ^ e := zpow_pos (by norm_num) _
  have h2 : (2 : ℚ) ≠ 0 := by norm_num
  have h0 : (0 : ℤ) ≤ round_even (q / (2 : ℚ) ^ e) :=
    le_trans (Int.floor_nonneg.mpr (le_of_lt (div_pos hq hp))) (floor_le_round_even _)
  have hup : round_even (q / (2 : ℚ) ^ e) ≤ (2 : ℤ) ^ prec := by
    have hdiv : q / (2 : ℚ) ^ e ≤ (((2 : ℤ) ^ prec : ℤ) : ℚ) := by
      rw [div_le_iff₀ hp]
      push_cast
      rw [← zpow_natCast, ← zpow_add₀ h2]
      exact le_trans (le_of_lt s2) (zpow_le_zpow_right₀ (by norm_num) (by omega))
    have := round_even_mono _ _ hdiv
    rwa [round_even_intCast] at this
  refine ⟨(round_even (q / (2 : ℚ) ^ e)).toNat, e, ?_, hemin, ?_⟩
  · have : ((round_even (q / (2 : ℚ) ^ e)).toNat : ℤ) ≤ ((2 ^ prec : ℕ) : ℤ) := by
      rw [Int.toNat_of_nonneg h0]
      exact_mod_cast hup
    exact_mod_cast this
  · congr 1
    have : (((round_even (q / (2 : ℚ) ^ e)).toNat : ℤ) : ℚ) =
        (round_even (q / (2 : ℚ) ^ e) : ℚ) := by
      rw [Int.toNat_of_nonneg h0]
    rw [← this]
    norm_cast

/-- A positive `float` has a significand below `2 ^ 24` at an exponent of at
least -149. -/
theorem f32_repr (x : ℚ) (hpos : 0 < x) (hx : f32 x = x) :
    ∃ (m : ℕ) (e : ℤ), m < 2 ^ 24 ∧ -149 ≤ e ∧ x = (m : ℚ) * (2 : ℚ) ^ e := by
  have hfl : fl_round 24 (-149) x = fl_abs 24 (-149) x := by
    unfold fl_round
    rw [if_pos (le_of_lt hpos)]
  have hnn := fl_abs_nonneg 24 (-149) x (le_of_lt hpos)
  rw [f32_eq] at hx
  rw [hfl] at hx
  rcases le_total (fl_abs 24 (-149) x) (2 ^ 128) with h | h
  · rw [min_eq_right h, max_eq_right (le_trans (by norm_num) hnn)] at hx
    obtain ⟨m, e, hm, he, heq⟩ := fl_abs_repr 24 (-149) x hpos
    rw [hx] at heq
    rcases Nat.lt_or_ge m (2 ^ 24) with hlt | hge
    · exact ⟨m, e, hlt, he, heq⟩
    · have hm' : m = 2 ^ 24 := le_antisymm hm hge
      refine ⟨2 ^ 23, e + 1, by norm_num, by omega, ?_⟩
      rw [heq, hm', zpow_add₀ (by norm_num : (2 : ℚ) ≠ 0)]
      norm_num
      ring
  · rw [min_eq_left h] at hx
    refine ⟨1, 128, by norm_num, by norm_num, ?_⟩
    rw [← hx]
    norm_num

/-- The result of a rounding to `float` is a `float`. -/
theorem f32_idem (q : ℚ) : f32 (f32 q) = f32 q := by
  have key : ∀ x : ℚ, 0 < x → f32 (f32 x) = f32 x := by
    intro x hpos
    have hfl : fl_round 24 (-149) x = fl_abs 24 (-149) x := by
      unfold fl_round
      rw [if_pos (le_of_lt hpos)]
    have hnn := fl_abs_nonneg 24 (-149) x (le_of_lt hpos)
    have hval : f32 x = min (2 ^ 128) (fl_abs 24 (-149) x) := by
      rw [f32_eq, hfl]
      exact max_eq_right (le_trans (by norm_num) (le_min (by norm_num) hnn))
    rw [hval]
    rcases le_total (fl_abs 24 (-149) x) (2 ^ 128) with h | h
    · rw [min_eq_right h]
      obtain ⟨m, e, hm, he, heq⟩ := fl_abs_repr 24 (-149) x hpos
      rcases Nat.lt_or_ge m (2 ^ 24) with hlt | hge
      · rw [heq]
        exact f32_exact m e hlt he (by rw [← heq]; exact h)
      · have hm' : m = 2 ^ 24 := le_antisymm hm hge
        have heq' : fl_abs 24 (-149) x = ((2 ^ 23 : ℕ) : ℚ) * (2 : ℚ) ^ (e + 1) := by
          rw [heq, hm', zpow_add₀ (by norm_num : (2 : ℚ) ≠ 0)]
          norm_num
          ring
        rw [heq']
        exact f32_exact (2 ^ 23) (e + 1) (by norm_num) (by omega) (by rw [← heq']; exact h)
    · rw [min_eq_left h]
      have := f32_exact 1 128 (by norm_num) (by norm_num) (by norm_num)
      rw [Nat.cast_one, one_mul, zpow_ofNat] at this
      exact this
  rcases lt_trichotomy q 0 with h | h | h
  · have := key (-q) (by linarith)
    rw [f32_neg, f32_neg] at this
    linarith
  · rw [h, f32_zero, f32_zero]
  · exact key q h
set_option maxRecDepth 10000 in
/-- A value on the grid of an exponent of at least -149, with at most 24
significant bits and of magnitude at most `2 ^ 128`, is a `float`. -/
theorem f32_grid (d : ℚ) (K : ℤ) (e : ℤ) (hd : d = (K : ℚ) * (2 : ℚ) ^ e)
    (hK : |K| < 2 ^ 24) (he : -149 ≤ e) (hb : |d| ≤ 2 ^ 128) : f32 d = d := by
  have hp : (0 : ℚ) < (2 : ℚ) ^ e := zpow_pos (by norm_num) _
  rcases le_or_lt 0 K with h0 | h0
  · have hcast : (K : ℚ) = ((K.toNat : ℕ) : ℚ) := by
      have : ((K.toNat : ℤ) : ℚ) = (K : ℚ) := by rw [Int.toNat_of_nonneg h0]
      rw [← this]; norm_cast
    have hlt : K.toNat < 2 ^ 24 := by
      have : |K| = K := abs_of_nonneg h0
      omega
    rw [hd, hcast]
    apply f32_exact _ _ hlt he
    rw [← hcast, ← hd]
    exact le_trans (le_abs_self d) hb
  · have hcast : ((-K : ℤ) : ℚ) = (((-K).toNat : ℕ) : ℚ) := by
      have : (((-K).toNat : ℤ) : ℚ) = ((-K : ℤ) : ℚ) := by
        rw [Int.toNat_of_nonneg (by omega)]
      rw [← this]; norm_cast
    have hlt : (-K).toNat < 2 ^ 24 := by
      have : |K| = -K := abs_of_neg h0
      omega
    have hneg : d = -((((-K).toNat : ℕ) : ℚ) * (2 : ℚ) ^ e) := by
      rw [← hcast, hd]; push_cast; ring
    rw [hneg, f32_neg]
    congr 1
    apply f32_exact _ _ hlt he
    rw [← neg_eq_iff_eq_neg.mpr hneg]
    exact le_trans (neg_le_abs d) hb

/-- Half of a `float` of at least `2 ^ (-125)` is a `float`. -/
theorem f32_half (x : ℚ) (hx : f32 x = x) (hlo : (2 : ℚ) ^ (-125 : ℤ) ≤ x)
    (hhi : x ≤ 2 ^ 128) : f32 (x / 2) = x / 2 := by
  have h2 : (2 : ℚ) ≠ 0 := by norm_num
  have hpos : 0 < x := lt_of_lt_of_le (zpow_pos (by norm_num) _) hlo
  obtain ⟨m, e, hm, he, heq⟩ := f32_repr x hpos hx
  have he1 : -149 < e := by
    by_contra hcon
    have he2 : e = -149 := by omega
    have hlt : x < (2 : ℚ) ^ (-125 : ℤ) := by
      rw [heq, he2]
      have e3 : (2 : ℚ) ^ (-125 : ℤ) = ((2 ^ 24 : ℕ) : ℚ) * (2 : ℚ) ^ (-149 : ℤ) := by
        rw [show (-125 : ℤ) = 24 + (-149) by norm_num, zpow_add₀ h2]
        norm_num
      rw [e3]
      exact mul_lt_mul_of_pos_right (by exact_mod_cast hm) (zpow_pos (by norm_num) _)
    linarith
  have hval : x / 2 = (m : ℚ) * (2 : ℚ) ^ (e - 1) := by
    rw [heq, zpow_sub₀ h2, zpow_one]; ring
  rw [hval]
  apply f32_exact m (e - 1) hm (by omega)
  rw [← hval]
  linarith

/-- Twice a non-negative `float` is a `float` (overflow apart). -/
theorem f32_double (x : ℚ) (hx : f32 x = x) (hnn : 0 ≤ x) (hhi : 2 * x ≤ 2 ^ 128) :
    f32 (2 * x) = 2 * x := by
  have h2 : (2 : ℚ) ≠ 0 := by norm_num
  rcases eq_or_lt_of_le hnn with h0 | hpos
  · rw [← h0]; simp [f32_zero]
  · obtain ⟨m, e, hm, he, heq⟩ := f32_repr x hpos hx
    have hval : 2 * x = (m : ℚ) * (2 : ℚ) ^ (e + 1) := by
      rw [heq, zpow_add₀ h2, zpow_one]; ring
    rw [hval]
    apply f32_exact m (e + 1) hm (by omega)
    rw [← hval]
    exact hhi

set_option maxRecDepth 10000 in
/-- The difference of two `float`s within a factor of two of each other is a
`float`: the subtraction is exact. -/
theorem f32_sub_exact (x y : ℚ) (hx : f32 x = x) (hy : f32 y = y) (h1 : y / 2 ≤ x)
    (h2 : x ≤ 2 * y) (hb : y ≤ 2 ^ 128) : f32 (y - x) = y - x := by
  have two : (2 : ℚ) ≠ 0 := by norm_num
  have hy0 : 0 ≤ y := by linarith
  rcases eq_or_lt_of_le hy0 with h0 | hpos
  · have hx0 : x = 0 := by linarith
    rw [hx0, ← h0]; simp [f32_zero]
  · have hxpos : 0 < x := by linarith
    obtain ⟨m1, e1, hm1, he1, hxe⟩ := f32_repr x hxpos hx
    obtain ⟨m2, e2, hm2, he2, hye⟩ := f32_repr y hpos hy
    have hdx : |y - x| ≤ x := by rw [abs_le]; constructor <;> linarith
    have hdy : |y - x| ≤ y := by rw [abs_le]; constructor <;> linarith
    rcases le_total e1 e2 with hle | hle
    · -- the grid of x is the finer one
      have hp : (0 : ℚ) < (2 : ℚ) ^ e1 := zpow_pos (by norm_num) _
      have hsplit : (2 : ℚ) ^ e2 = (((2 : ℤ) ^ (e2 - e1).toNat : ℤ) : ℚ) * (2 : ℚ) ^ e1 := by
        rw [← zpow_two_intCast (e2 - e1) (by omega), ← zpow_add₀ two]
        congr 1; ring
      have hd : y - x = (((m2 : ℤ) * (2 : ℤ) ^ (e2 - e1).toNat - (m1 : ℤ) : ℤ) : ℚ) *
          (2 : ℚ) ^ e1 := by
        rw [hye, hxe, hsplit]; push_cast; ring
      apply f32_grid _ _ e1 hd _ he1 (le_trans hdy hb)
      have hK : |((((m2 : ℤ) * (2 : ℤ) ^ (e2 - e1).toNat - (m1 : ℤ) : ℤ) : ℚ))| ≤ (m1 : ℚ) := by
        have := hdx
        rw [hd, abs_mul, abs_of_pos hp] at this
        rw [hxe] at this
        exact le_of_mul_le_mul_right this hp
      have hK' : |((m2 : ℤ) * (2 : ℤ) ^ (e2 - e1).toNat - (m1 : ℤ))| ≤ (m1 : ℤ) := by
        have : ((|((m2 : ℤ) * (2 : ℤ) ^ (e2 - e1).toNat - (m1 : ℤ))| : ℤ) : ℚ) ≤
            (((m1 : ℤ)) : ℚ) := by
          rw [Int.cast_abs]; exact_mod_cast hK
        exact_mod_cast this
      have : (m1 : ℤ) < 2 ^ 24 := by exact_mod_cast hm1
      omega
    · -- the grid of y is the finer one
      have hp : (0 : ℚ) < (2 : ℚ) ^ e2 := zpow_pos (by norm_num) _
      have hsplit : (2 : ℚ) ^ e1 = (((2 : ℤ) ^ (e1 - e2).toNat : ℤ) : ℚ) * (2 : ℚ) ^ e2 := by
        rw [← zpow_two_intCast (e1 - e2) (by omega), ← zpow_add₀ two]
        congr 1; ring
      have hd : y - x = (((m2 : ℤ) - (m1 : ℤ) * (2 : ℤ) ^ (e1 - e2).toNat : ℤ) : ℚ) *
          (2 : ℚ) ^ e2 := by
        rw [hye, hxe, hsplit]; push_cast; ring
      apply f32_grid _ _ e2 hd _ he2 (le_trans hdy hb)
      have hK : |((((m2 : ℤ) - (m1 : ℤ) * (2 : ℤ) ^ (e1 - e2).toNat : ℤ) : ℚ))| ≤ (m2 : ℚ) := by
        have := hdy
        rw [hd, abs_mul, abs_of_pos hp] at this
        rw [hye] at this
        exact le_of_mul_le_mul_right this hp
      have hK' : |((m2 : ℤ) - (m1 : ℤ) * (2 : ℤ) ^ (e1 - e2).toNat)| ≤ (m2 : ℤ) := by
        have : ((|((m2 : ℤ) - (m1 : ℤ) * (2 : ℤ) ^ (e1 - e2).toNat)| : ℤ) : ℚ) ≤
            (((m2 : ℤ)) : ℚ) := by
          rw [Int.cast_abs]; exact_mod_cast hK
        exact_mod_cast this
      have : (m2 : ℤ) < 2 ^ 24 := by exact_mod_cast hm2
      omega

/-! ## The search of `OV7670_set_fps` -/

theorem set_fps_div_body_spec (fps tgt : ℚ) (p x : Nat) (b : Best) (d : Nat) :
    (set_fps_div_body fps tgt p x b d).best_delta ≤ b.best_delta ∧
    (set_fps_div_body fps tgt p x b d = b ∨
      (f32 ((x / d : Nat) : ℚ) ≤ tgt ∧
        set_fps_div_body fps tgt p x b d = ⟨p, d, delta_of fps (x / d)⟩)) ∧
    ((f32 ((x / d : Nat) : ℚ) ≤ tgt) →
      (set_fps_div_body fps tgt p x b d).best_delta ≤ delta_of fps (x / d)) := by
  unfold set_fps_div_body delta_of fps_result_of
  by_cases h1 : f32 ((x / d : Nat) : ℚ) > tgt
  · simp only [h1, if_true]
    exact ⟨le_refl _, Or.inl trivial, fun h => absurd h1 (not_lt.mpr h)⟩
  · simp only [h1, if_false]
    by_cases h2 : f32 (fps - f32 (f64 (f64 (f32 ((x / d : Nat) : ℚ) * 5) / 4000000))) < b.best_delta
    · simp only [h2, if_true]
      exact ⟨le_of_lt h2, Or.inr ⟨not_lt.mp h1, trivial⟩, fun _ => le_refl _⟩
    · simp only [h2, if_false]
      exact ⟨le_refl _, Or.inl trivial, fun _ => not_lt.mp h2⟩

theorem set_fps_div_fold_spec (fps tgt : ℚ) (p x : Nat) (l : List Nat) :
    ∀ b : Best,
    (l.foldl (set_fps_div_body fps tgt p x) b).best_delta ≤ b.best_delta ∧
    (l.foldl (set_fps_div_body fps tgt p x) b = b ∨
      ∃ d ∈ l, f32 ((x / d : Nat) : ℚ) ≤ tgt ∧
        l.foldl (set_fps_div_body fps tgt p x) b = ⟨p, d, delta_of fps (x / d)⟩) ∧
    (∀ d ∈ l, f32 ((x / d : Nat) : ℚ) ≤ tgt →
      (l.foldl (set_fps_div_body fps tgt p x) b).best_delta ≤ delta_of fps (x / d)) := by
  induction l with
  | nil => intro b; simp
  | cons d l ih =>
    intro b
    obtain ⟨s1, s2, s3⟩ := set_fps_div_body_spec fps tgt p x b d
    obtain ⟨i1, i2, i3⟩ := ih (set_fps_div_body fps tgt p x b d)
    simp only [List.foldl_cons]
    refine ⟨le_trans i1 s1, ?_, ?_⟩
    · rcases i2 with i2 | ⟨e, he, hle, heq⟩
      · rcases s2 with s2 | ⟨hle, heq⟩
        · left; rw [i2, s2]
        · right; exact ⟨d, List.mem_cons_self _ _, hle, by rw [i2, heq]⟩
      · right; exact ⟨e, List.mem_cons_of_mem _ he, hle, heq⟩
    · intro e he hle
      rcases List.mem_cons.mp he with rfl | he
      · exact le_trans i1 (s3 hle)
      · exact i3 e he hle

theorem set_fps_pll_fold_spec (xclk : Nat) (fps tgt : ℚ) (l : List Nat) :
    ∀ b : Best,
    (l.foldl (set_fps_pll_body xclk fps tgt) b).best_delta ≤ b.best_delta ∧
    (l.foldl (set_fps_pll_body xclk fps tgt) b = b ∨
      ∃ p ∈ l, ∃ d, (if p ≠ 0 then 2 else 1) ≤ d ∧ d ≤ 32 ∧
        f32 (pclk_of xclk p d : ℚ) ≤ tgt ∧
        l.foldl (set_fps_pll_body xclk fps tgt) b =
          ⟨p, d, delta_of fps (pclk_of xclk p d)⟩) ∧
    (∀ p ∈ l, ∀ d, (if p ≠ 0 then 2 else 1) ≤ d → d ≤ 32 →
      f32 (pclk_of xclk p d : ℚ) ≤ tgt →
      (l.foldl (set_fps_pll_body xclk fps tgt) b).best_delta ≤
        delta_of fps (pclk_of xclk p d)) := by
  induction l with
  | nil => intro b; simp
  | cons p l ih =>
    intro b
    have hmem : ∀ d, d ∈ List.range' (if p ≠ 0 then 2 else 1)
        (33 - (if p ≠ 0 then 2 else 1)) ↔ (if p ≠ 0 then 2 else 1) ≤ d ∧ d ≤ 32 := by
      intro d
      rw [List.mem_range'_1]
      split_ifs <;> omega
    obtain ⟨s1, s2, s3⟩ := set_fps_div_fold_spec fps tgt p
      ((xclk * pll_ratio.getD p 0) % 2 ^ 32)
      (List.range' (if p ≠ 0 then 2 else 1) (33 - (if p ≠ 0 then 2 else 1))) b
    obtain ⟨i1, i2, i3⟩ := ih (set_fps_pll_body xclk fps tgt b p)
    simp only [List.foldl_cons]
    refine ⟨le_trans i1 s1, ?_, ?_⟩
    · rcases i2 with i2 | ⟨q, hq, e, h1, h2, hle, heq⟩
      · rcases s2 with s2 | ⟨d, hd, hle, heq⟩
        · left; rw [i2]; exact s2
        · right
          exact ⟨p, List.mem_cons_self _ _, d, ((hmem d).mp hd).1, ((hmem d).mp hd).2,
            hle, by rw [i2]; exact heq⟩
      · right; exact ⟨q, List.mem_cons_of_mem _ hq, e, h1, h2, hle, heq⟩
    · intro q hq e h1 h2 hle
      rcases List.mem_cons.mp hq with rfl | hq
      · exact le_trans i1 (s3 e ((hmem e).mpr ⟨h1, h2⟩) hle)
      · exact i3 q hq e h1 h2 hle

/-- What the search returns: the initial triple, or a visited pair that does
not exceed the target; in either case no visited pair below the target is
closer to the request. -/
theorem set_fps_search_spec (xclk : Nat) (fps tgt : ℚ) :
    (set_fps_search xclk fps tgt).best_delta ≤ 30 ∧
    (set_fps_search xclk fps tgt = ⟨0, 1, 30⟩ ∨
      ∃ p d, Visited p d ∧ f32 (pclk_of xclk p d : ℚ) ≤ tgt ∧
        set_fps_search xclk fps tgt = ⟨p, d, delta_of fps (pclk_of xclk p d)⟩) ∧
    (∀ p d, Visited p d → f32 (pclk_of xclk p d : ℚ) ≤ tgt →
      (set_fps_search xclk fps tgt).best_delta ≤ delta_of fps (pclk_of xclk p d)) := by
  obtain ⟨s1, s2, s3⟩ := set_fps_pll_fold_spec xclk fps tgt (List.range num_plls)
    ⟨0, 1, 30⟩
  have hn : num_plls = 4 := rfl
  refine ⟨s1, ?_, ?_⟩
  · rcases s2 with s2 | ⟨p, hp, d, h1, h2, hle, heq⟩
    · exact Or.inl s2
    · exact Or.inr ⟨p, d, ⟨by simpa [hn] using hp, h1, h2⟩, hle, heq⟩
  · intro p d ⟨hp, h1, h2⟩ hle
    exact s3 p (by simpa [hn] using hp) d h1 h2 hle

theorem clamp_fps_eq_min (r : ℚ) : clamp_fps r = min r 30 := by
  unfold clamp_fps
  split_ifs with h
  · exact (min_eq_right (le_of_lt h)).symm
  · exact (min_eq_left (not_lt.mp h)).symm

/-- One test of the inner loop either leaves the best triple alone (then the
pair, if it passes the target test, is not strictly better) or replaces it by
a strictly better pair. -/
theorem set_fps_div_body_cases (fps tgt : ℚ) (p x : Nat) (b : Best) (d : Nat) :
    (set_fps_div_body fps tgt p x b d = b ∧
      ((f32 ((x / d : Nat) : ℚ) ≤ tgt) → b.best_delta ≤ delta_of fps (x / d))) ∨
    ((f32 ((x / d : Nat) : ℚ) ≤ tgt) ∧ delta_of fps (x / d) < b.best_delta ∧
      set_fps_div_body fps tgt p x b d = ⟨p, d, delta_of fps (x / d)⟩) := by
  unfold set_fps_div_body delta_of fps_result_of
  by_cases h1 : f32 ((x / d : Nat) : ℚ) > tgt
  · left
    refine ⟨?_, fun h => absurd h1 (not_lt.mpr h)⟩
    simp only [h1, if_true]
  · by_cases h2 : f32 (fps - f32 (f64 (f64 (f32 ((x / d : Nat) : ℚ) * 5) / 4000000))) < b.best_delta
    · right
      refine ⟨not_lt.mp h1, h2, ?_⟩
      simp only [h1, h2, if_true, if_false]
    · left
      refine ⟨?_, fun _ => not_lt.mp h2⟩
      simp only [h1, h2, if_false]

theorem set_fps_div_fold_first (fps tgt : ℚ) (p x : Nat) (l : List Nat)
    (hl : l.Pairwise (· < ·)) :
    ∀ b : Best, (∀ d ∈ l, b.best_pll < p ∨ (b.best_pll = p ∧ b.best_div ≤ d)) →
    (l.foldl (set_fps_div_body fps tgt p x) b = b ∨
      ∃ d ∈ l, delta_of fps (x / d) < b.best_delta ∧
        l.foldl (set_fps_div_body fps tgt p x) b = ⟨p, d, delta_of fps (x / d)⟩) ∧
    (∀ d ∈ l, f32 ((x / d : Nat) : ℚ) ≤ tgt →
      (l.foldl (set_fps_div_body fps tgt p x) b).best_delta ≤ delta_of fps (x / d) ∧
      (delta_of fps (x / d) = (l.foldl (set_fps_div_body fps tgt p x) b).best_delta →
        (l.foldl (set_fps_div_body fps tgt p x) b).best_pll < p ∨
        ((l.foldl (set_fps_div_body fps tgt p x) b).best_pll = p ∧
          (l.foldl (set_fps_div_body fps tgt p x) b).best_div ≤ d))) := by
  induction l with
  | nil => intro b _; simp
  | cons d l ih =>
    intro b hb
    obtain ⟨hd, hl'⟩ := List.pairwise_cons.mp hl
    simp only [List.foldl_cons]
    rcases set_fps_div_body_cases fps tgt p x b d with ⟨hkeep, hge⟩ | ⟨helig, hlt, hnew⟩
    · -- the head pair does not replace the best triple
      rw [hkeep]
      obtain ⟨i1, i2⟩ := ih hl' b (fun e he => hb e (List.mem_cons_of_mem _ he))
      refine ⟨?_, ?_⟩
      · rcases i1 with i1 | ⟨e, he, hlt, heq⟩
        · exact Or.inl i1
        · exact Or.inr ⟨e, List.mem_cons_of_mem _ he, hlt, heq⟩
      · intro e he hle
        rcases List.mem_cons.mp he with rfl | he
        · rcases i1 with i1 | ⟨e', _, hlt, heq⟩
          · rw [i1]
            exact ⟨hge hle, fun _ => hb e (List.mem_cons_self _ _)⟩
          · rw [heq]
            have := hge hle
            exact ⟨by simp only; linarith, fun h => absurd h (by simp only; linarith)⟩
        · exact i2 e he hle
    · -- the head pair becomes the best triple
      rw [hnew]
      obtain ⟨i1, i2⟩ := ih hl' ⟨p, d, delta_of fps (x / d)⟩
        (fun e he => Or.inr ⟨rfl, le_of_lt (hd e he)⟩)
      refine ⟨?_, ?_⟩
      · right
        rcases i1 with i1 | ⟨e, he, hlt', heq⟩
        · exact ⟨d, List.mem_cons_self _ _, hlt, i1⟩
        · exact ⟨e, List.mem_cons_of_mem _ he, lt_trans hlt' hlt, heq⟩
      · intro e he hle
        rcases List.mem_cons.mp he with rfl | he
        · rcases i1 with i1 | ⟨e', _, hlt', heq⟩
          · rw [i1]
            exact ⟨le_refl _, fun _ => Or.inr ⟨rfl, le_refl _⟩⟩
          · rw [heq]
            simp only at hlt'
            exact ⟨by simp only; linarith, fun h => absurd h (by simp only; linarith)⟩
        · exact i2 e he hle

theorem set_fps_pll_fold_first (xclk : Nat) (fps tgt : ℚ) (l : List Nat)
    (hl : l.Pairwise (· < ·)) :
    ∀ b : Best,
    (∀ p ∈ l, ∀ d, (if p ≠ 0 then 2 else 1) ≤ d →
      b.best_pll < p ∨ (b.best_pll = p ∧ b.best_div ≤ d)) →
    (l.foldl (set_fps_pll_body xclk fps tgt) b = b ∨
      ∃ p ∈ l, ∃ d, delta_of fps (pclk_of xclk p d) < b.best_delta ∧
        l.foldl (set_fps_pll_body xclk fps tgt) b =
          ⟨p, d, delta_of fps (pclk_of xclk p d)⟩) ∧
    (∀ p ∈ l, ∀ d, (if p ≠ 0 then 2 else 1) ≤ d → d ≤ 32 →
      f32 (pclk_of xclk p d : ℚ) ≤ tgt →
      (l.foldl (set_fps_pll_body xclk fps tgt) b).best_delta ≤
        delta_of fps (pclk_of xclk p d) ∧
      (delta_of fps (pclk_of xclk p d) =
          (l.foldl (set_fps_pll_body xclk fps tgt) b).best_delta →
        (l.foldl (set_fps_pll_body xclk fps tgt) b).best_pll < p ∨
        ((l.foldl (set_fps_pll_body xclk fps tgt) b).best_pll = p ∧
          (l.foldl (set_fps_pll_body xclk fps tgt) b).best_div ≤ d))) := by
  induction l with
  | nil => intro b _; simp
  | cons p l ih =>
    intro b hb
    obtain ⟨hp, hl'⟩ := List.pairwise_cons.mp hl
    have hmem : ∀ d, d ∈ List.range' (if p ≠ 0 then 2 else 1)
        (33 - (if p ≠ 0 then 2 else 1)) ↔ (if p ≠ 0 then 2 else 1) ≤ d ∧ d ≤ 32 := by
      intro d
      rw [List.mem_range'_1]
      split_ifs <;> omega
    obtain ⟨s1, s2⟩ := set_fps_div_fold_first fps tgt p
      ((xclk * pll_ratio.getD p 0) % 2 ^ 32)
      (List.range' (if p ≠ 0 then 2 else 1) (33 - (if p ≠ 0 then 2 else 1)))
      (List.pairwise_lt_range' _ _) b
      (fun d hd => hb p (List.mem_cons_self _ _) d ((hmem d).mp hd).1)
    have hbody : set_fps_pll_body xclk fps tgt b p =
        (List.range' (if p ≠ 0 then 2 else 1) (33 - (if p ≠ 0 then 2 else 1))).foldl
          (set_fps_div_body fps tgt p ((xclk * pll_ratio.getD p 0) % 2 ^ 32)) b := rfl
    rw [← hbody] at s1 s2
    simp only [List.foldl_cons]
    have hnext : ∀ q ∈ l, ∀ d, (if q ≠ 0 then 2 else 1) ≤ d →
        (set_fps_pll_body xclk fps tgt b p).best_pll < q ∨
        ((set_fps_pll_body xclk fps tgt b p).best_pll = q ∧
          (set_fps_pll_body xclk fps tgt b p).best_div ≤ d) := by
      intro q hq d hd
      rcases s1 with s1 | ⟨e, _, _, heq⟩
      · rw [s1]; exact hb q (List.mem_cons_of_mem _ hq) d hd
      · rw [heq]; exact Or.inl (hp q hq)
    obtain ⟨i1, i2⟩ := ih hl' (set_fps_pll_body xclk fps tgt b p) hnext
    have hmono : (set_fps_pll_body xclk fps tgt b p).best_delta ≤ b.best_delta := by
      rcases s1 with s1 | ⟨e, _, hlt, heq⟩
      · rw [s1]
      · rw [heq]; exact le_of_lt hlt
    refine ⟨?_, ?_⟩
    · rcases i1 with i1 | ⟨q, hq, e, hlt, heq⟩
      · rcases s1 with s1 | ⟨e, _, hlt, heq⟩
        · left; rw [i1, s1]
        · right; exact ⟨p, List.mem_cons_self _ _, e, hlt, by rw [i1, heq]; rfl⟩
      · right
        exact ⟨q, List.mem_cons_of_mem _ hq, e, lt_of_lt_of_le hlt hmono, heq⟩
    · intro q hq d h1 h2 hle
      rcases List.mem_cons.mp hq with rfl | hq
      · have h3 := s2 d ((hmem d).mpr ⟨h1, h2⟩) hle
        rcases i1 with i1 | ⟨q', hq', e, hlt, heq⟩
        · rw [i1]; exact h3
        · rw [heq]
          have h4 : (set_fps_pll_body xclk fps tgt b q).best_delta ≤
              delta_of fps (pclk_of xclk q d) := h3.1
          exact ⟨by simp only; linarith, fun h => absurd h (by simp only; linarith)⟩
      · exact i2 q hq d h1 h2 hle

/-- Among the visited pairs that pass the target test, none is closer to the
request than the selected one, and every pair exactly as close comes at or
after it in search order. -/
theorem set_fps_search_first (xclk : Nat) (fps tgt : ℚ) (p d : Nat) (hv : Visited p d)
    (hle : f32 (pclk_of xclk p d : ℚ) ≤ tgt)
    (htie : delta_of fps (pclk_of xclk p d) = (set_fps_search xclk fps tgt).best_delta) :
    (set_fps_search xclk fps tgt).best_pll < p ∨
    ((set_fps_search xclk fps tgt).best_pll = p ∧
      (set_fps_search xclk fps tgt).best_div ≤ d) := by
  obtain ⟨hp, h1, h2⟩ := hv
  have hinit : ∀ q ∈ List.range num_plls, ∀ e, (if q ≠ 0 then 2 else 1) ≤ e →
      (Best.mk 0 1 30).best_pll < q ∨
      ((Best.mk 0 1 30).best_pll = q ∧ (Best.mk 0 1 30).best_div ≤ e) := by
    intro q _ e he
    by_cases hq : q = 0
    · subst hq; right; exact ⟨rfl, by simpa using he⟩
    · left; exact Nat.pos_of_ne_zero hq
  obtain ⟨_, s2⟩ := set_fps_pll_fold_first xclk fps tgt (List.range num_plls)
    (List.pairwise_lt_range _) ⟨0, 1, 30⟩ hinit
  exact (s2 p (List.mem_range.mpr hp) d h1 h2 hle).2 htie

theorem set_fps_search_branch (H : Header) (platform : Nat) (r : ℚ) (s : Sensor)
    (h : ¬ (pclk_target_of (clamp_fps r) <
      f32 (((H.OV7670_XCLK_HZ / 32) % 2 ^ 32 : Nat) : ℚ))) :
    (OV7670_set_fps H platform r s).1 =
      f32 (clamp_fps r - (set_fps_search H.OV7670_XCLK_HZ (clamp_fps r)
        (pclk_target_of (clamp_fps r))).best_delta) := by
  unfold clamp_fps pclk_target_of at h ⊢
  unfold OV7670_set_fps
  simp only [h, if_false]

/-- The two register writes of the search branch with a non-NULL platform. -/
theorem set_fps_search_trace (H : Header) (platform : Nat) (r : ℚ) (s : Sensor)
    (h : ¬ (pclk_target_of (clamp_fps r) <
      f32 (((H.OV7670_XCLK_HZ / 32) % 2 ^ 32 : Nat) : ℚ)))
    (hp : platform ≠ 0) :
    (OV7670_set_fps H platform r s).2.trace =
      s.trace ++
        (if pll_ratio.getD (set_fps_search H.OV7670_XCLK_HZ (clamp_fps r)
              (pclk_target_of (clamp_fps r))).best_pll 0 =
            (set_fps_search H.OV7670_XCLK_HZ (clamp_fps r)
              (pclk_target_of (clamp_fps r))).best_div then
          [Event.write platform H.OV7670_REG_DBLV 0,
           Event.write platform H.OV7670_REG_CLKRC 0x40]
        else
          [Event.write platform H.OV7670_REG_DBLV
            (((set_fps_search H.OV7670_XCLK_HZ (clamp_fps r)
              (pclk_target_of (clamp_fps r))).best_pll <<< 6) % 256),
           Event.write platform H.OV7670_REG_CLKRC
            (((set_fps_search H.OV7670_XCLK_HZ (clamp_fps r)
              (pclk_target_of (clamp_fps r))).best_div - 1) % 256)]) := by
  unfold clamp_fps pclk_target_of at h ⊢
  unfold OV7670_set_fps
  simp only [h, if_false, hp, ne_eq, not_false_eq_true, if_true]
  split_ifs <;>
    simp only [OV7670_write_register, List.append_assoc, List.singleton_append]

/-- Below the floor and with a non-NULL platform the only register writes of
`OV7670_set_fps` are `DBLV <- 0` then `CLKRC <- 31`. -/
theorem set_fps_below_floor_trace (H : Header) (platform : Nat) (r : ℚ) (s : Sensor)
    (hr : pclk_target_of (clamp_fps r) < f32 (((H.OV7670_XCLK_HZ / 32) % 2 ^ 32 : Nat) : ℚ))
    (hp : platform ≠ 0) :
    (OV7670_set_fps H platform r s).2.trace =
      s.trace ++ [Event.write platform H.OV7670_REG_DBLV 0,
        Event.write platform H.OV7670_REG_CLKRC 31] := by
  unfold clamp_fps pclk_target_of at hr
  unfold OV7670_set_fps
  simp only [hr, if_true, hp, ne_eq, not_false_eq_true, OV7670_write_register,
    List.append_assoc, List.singleton_append]

/-- Below the floor and with a non-NULL platform `OV7670_set_fps` leaves the
sensor after the writes `DBLV <- 0` and `CLKRC <- 31`. -/
theorem set_fps_below_floor_state (H : Header) (platform : Nat) (r : ℚ) (s : Sensor)
    (hr : pclk_target_of (clamp_fps r) < f32 (((H.OV7670_XCLK_HZ / 32) % 2 ^ 32 : Nat) : ℚ))
    (hp : platform ≠ 0) :
    (OV7670_set_fps H platform r s).2 =
      OV7670_write_register platform H.OV7670_REG_CLKRC 31
        (OV7670_write_register platform H.OV7670_REG_DBLV 0 s) := by
  unfold clamp_fps pclk_target_of at hr
  unfold OV7670_set_fps
  simp only [hr, if_true, hp, ne_eq, not_false_eq_true]

/-- The transport calls of `OV7670_set_fps` do not depend on the register
file: none with a NULL platform, else one write of DBLV then one of CLKRC. -/
theorem set_fps_trace_appends (H : Header) (platform : Nat) (fps : ℚ) :
    ∃ w : List Event,
      (∀ s : Sensor, (OV7670_set_fps H platform fps s).2.trace = s.trace ++ w) ∧
      (platform ≠ 0 → ∃ x y, w = [Event.write platform H.OV7670_REG_DBLV x,
        Event.write platform H.OV7670_REG_CLKRC y]) ∧
      Event.arch_begin ∉ w := by
  by_cases hp : platform = 0
  · refine ⟨[], ?_, fun h => absurd hp h, List.not_mem_nil _⟩
    intro s
    unfold OV7670_set_fps
    simp only [hp, ne_eq, not_true_eq_false, if_false, List.append_nil]
    split_ifs <;> rfl
  · unfold OV7670_set_fps
    simp only [hp, ne_eq, not_false_eq_true, if_true, OV7670_write_register,
      List.append_assoc, List.singleton_append]
    split_ifs <;> exact ⟨_, fun _ => rfl, fun _ => ⟨_, _, rfl⟩, by simp⟩

theorem visited_of_searchSpace (xclk m d : Nat) (hx : 8 * xclk < 2 ^ 32)
    (h : SearchSpace m d) :
    ∃ p, Visited p d ∧ pclk_of xclk p d = xclk * m / d := by
  obtain ⟨hm, h1, h32, h2⟩ := h
  have hcases : m = 1 ∨ m = 4 ∨ m = 6 ∨ m = 8 := by simpa using hm
  rcases hcases with rfl | rfl | rfl | rfl
  · refine ⟨0, ⟨by norm_num, by simpa using h1, h32⟩, ?_⟩
    simp only [pclk_of, pll_ratio, List.getD_cons_zero]
    rw [Nat.mod_eq_of_lt (by omega)]
  · refine ⟨1, ⟨by norm_num, by simpa using h2 (by norm_num), h32⟩, ?_⟩
    simp only [pclk_of, pll_ratio, List.getD_cons_succ, List.getD_cons_zero]
    rw [Nat.mod_eq_of_lt (by omega)]
  · refine ⟨2, ⟨by norm_num, by simpa using h2 (by norm_num), h32⟩, ?_⟩
    simp only [pclk_of, pll_ratio, List.getD_cons_succ, List.getD_cons_zero]
    rw [Nat.mod_eq_of_lt (by omega)]
  · refine ⟨3, ⟨by norm_num, by simpa using h2 (by norm_num), h32⟩, ?_⟩
    simp only [pclk_of, pll_ratio, List.getD_cons_succ, List.getD_cons_zero]
    rw [Nat.mod_eq_of_lt (by omega)]

theorem searchSpace_of_visited (xclk p d : Nat) (hx : 8 * xclk < 2 ^ 32)
    (h : Visited p d) :
    ∃ m, SearchSpace m d ∧ pclk_of xclk p d = xclk * m / d := by
  obtain ⟨hp, h1, h32⟩ := h
  have hcases : p = 0 ∨ p = 1 ∨ p = 2 ∨ p = 3 := by omega
  rcases hcases with rfl | rfl | rfl | rfl
  · refine ⟨1, ⟨by simp, by simpa using h1, h32, by simp⟩, ?_⟩
    simp only [pclk_of, pll_ratio, List.getD_cons_zero]
    rw [Nat.mod_eq_of_lt (by omega)]
  · refine ⟨4, ⟨by simp, by simp at h1; omega, h32, fun _ => by simpa using h1⟩, ?_⟩
    simp only [pclk_of, pll_ratio, List.getD_cons_succ, List.getD_cons_zero]
    rw [Nat.mod_eq_of_lt (by omega)]
  · refine ⟨6, ⟨by simp, by simp at h1; omega, h32, fun _ => by simpa using h1⟩, ?_⟩
    simp only [pclk_of, pll_ratio, List.getD_cons_succ, List.getD_cons_zero]
    rw [Nat.mod_eq_of_lt (by omega)]
  · refine ⟨8, ⟨by simp, by simp at h1; omega, h32, fun _ => by simpa using h1⟩, ?_⟩
    simp only [pclk_of, pll_ratio, List.getD_cons_succ, List.getD_cons_zero]
    rw [Nat.mod_eq_of_lt (by omega)]

/-- Without wrap-around the pixel clock of a visited pair is the one of the
specification, for the multiplier `pll_ratio[p]`. -/
theorem visited_pclk (xclk p d : Nat) (hx : 8 * xclk < 2 ^ 32) (h : Visited p d) :
    SearchSpace (pll_ratio.getD p 0) d ∧
    pclk_of xclk p d = xclk * pll_ratio.getD p 0 / d := by
  obtain ⟨hp, h1, h32⟩ := h
  have hcases : p = 0 ∨ p = 1 ∨ p = 2 ∨ p = 3 := by omega
  rcases hcases with rfl | rfl | rfl | rfl
  · refine ⟨⟨by simp [pll_ratio], by simpa using h1, h32, by simp [pll_ratio]⟩, ?_⟩
    simp only [pclk_of, pll_ratio, List.getD_cons_zero]
    rw [Nat.mod_eq_of_lt (by omega)]
  · refine ⟨⟨by simp [pll_ratio], by simp at h1; omega, h32,
      fun _ => by simpa using h1⟩, ?_⟩
    simp only [pclk_of, pll_ratio, List.getD_cons_succ, List.getD_cons_zero]
    rw [Nat.mod_eq_of_lt (by omega)]
  · refine ⟨⟨by simp [pll_ratio], by simp at h1; omega, h32,
      fun _ => by simpa using h1⟩, ?_⟩
    simp only [pclk_of, pll_ratio, List.getD_cons_succ, List.getD_cons_zero]
    rw [Nat.mod_eq_of_lt (by omega)]
  · refine ⟨⟨by simp [pll_ratio], by simp at h1; omega, h32,
      fun _ => by simpa using h1⟩, ?_⟩
    simp only [pclk_of, pll_ratio, List.getD_cons_succ, List.getD_cons_zero]
    rw [Nat.mod_eq_of_lt (by omega)]

/-- The returned rate depends neither on the platform handle nor on the
sensor state. -/
theorem set_fps_rate_eq (H : Header) (platform : Nat) (r : ℚ) (s : Sensor) :
    (OV7670_set_fps H platform r s).1 = (OV7670_set_fps H 0 r Sensor.blank).1 := by
  unfold OV7670_set_fps
  simp only
  split_ifs <;> rfl

/-- The value returned by the floor branch. -/
theorem set_fps_below_floor_result (H : Header) (platform : Nat) (r : ℚ) (s : Sensor)
    (hr : pclk_target_of (clamp_fps r) < f32 (((H.OV7670_XCLK_HZ / 32) % 2 ^ 32 : Nat) : ℚ)) :
    (OV7670_set_fps H platform r s).1 =
      f32 ((((H.OV7670_XCLK_HZ / 32) % 2 ^ 32 * 5 % 2 ^ 32 / 4000000 : Nat) : ℚ)) := by
  unfold clamp_fps pclk_target_of at hr
  unfold OV7670_set_fps
  simp only [hr, if_true]

/-- The pair held by the search at its end is a pair of the two loops. -/
theorem set_fps_search_visited (xclk : Nat) (fps tgt : ℚ) :
    Visited (set_fps_search xclk fps tgt).best_pll (set_fps_search xclk fps tgt).best_div := by
  obtain ⟨_, s2, _⟩ := set_fps_search_spec xclk fps tgt
  rcases s2 with s2 | ⟨p, d, hv, _, heq⟩
  · rw [s2]
    exact ⟨by norm_num, by norm_num, by norm_num⟩
  · rw [heq]
    exact hv

theorem fps_result_of_mono (a b : Nat) (h : a ≤ b) : fps_result_of a ≤ fps_result_of b := by
  unfold fps_result_of
  apply f32_mono
  apply f64_mono
  apply div_le_div_of_nonneg_right _ (by norm_num)
  apply f64_mono
  apply mul_le_mul_of_nonneg_right _ (by norm_num)
  apply f32_mono
  exact_mod_cast h

theorem delta_of_anti (fps : ℚ) (a b : Nat) (h : a ≤ b) : delta_of fps b ≤ delta_of fps a := by
  unfold delta_of
  apply f32_mono
  have := fps_result_of_mono a b h
  linarith

set_option maxRecDepth 100000 in
/-- A pixel clock of at least 1 Hz is strictly closer than the initial
`best_delta = 30.0` to any request of at most 30. -/
theorem delta_of_lt_30 (fps : ℚ) (hfps : fps ≤ 30) (pclk : Nat) (h1 : 1 ≤ pclk) :
    delta_of fps pclk < 30 := by
  have h30 : f32 (30 - fps_result_of 1) < 30 := by decide!
  have hm := fps_result_of_mono 1 pclk h1
  have : delta_of fps pclk ≤ f32 (30 - fps_result_of 1) := by
    unfold delta_of
    apply f32_mono
    linarith
  linarith

/-- In the search branch, with an input clock of at least 32 Hz whose
multiples do not wrap, the search selects a visited pair that passes the
target test, and the best delta is that pair's. -/
theorem set_fps_search_selected (xclk : Nat) (fps : ℚ) (hfps : fps ≤ 30)
    (h32 : 32 ≤ xclk) (hx : xclk < 2 ^ 32)
    (hfloor : ¬ (pclk_target_of fps < f32 (((xclk / 32) % 2 ^ 32 : Nat) : ℚ))) :
    Visited (set_fps_search xclk fps (pclk_target_of fps)).best_pll
      (set_fps_search xclk fps (pclk_target_of fps)).best_div ∧
    f32 (pclk_of xclk (set_fps_search xclk fps (pclk_target_of fps)).best_pll
      (set_fps_search xclk fps (pclk_target_of fps)).best_div : ℚ) ≤ pclk_target_of fps ∧
    (set_fps_search xclk fps (pclk_target_of fps)).best_delta =
      delta_of fps (pclk_of xclk (set_fps_search xclk fps (pclk_target_of fps)).best_pll
        (set_fps_search xclk fps (pclk_target_of fps)).best_div) := by
  obtain ⟨_, s2, s3⟩ := set_fps_search_spec xclk fps (pclk_target_of fps)
  rcases s2 with s2 | ⟨p, d, hv, hle, heq⟩
  · exfalso
    have hv32 : Visited 0 32 := ⟨by norm_num, by norm_num, le_refl _⟩
    have hp32 : pclk_of xclk 0 32 = (xclk / 32) % 2 ^ 32 := by
      simp only [pclk_of, pll_ratio, List.getD_cons_zero, Nat.mul_one]
      omega
    have hadm : f32 (pclk_of xclk 0 32 : ℚ) ≤ pclk_target_of fps := by
      rw [hp32]; exact not_lt.mp hfloor
    have h3 := s3 0 32 hv32 hadm
    rw [s2] at h3
    have h4 := delta_of_lt_30 fps hfps (pclk_of xclk 0 32) (by rw [hp32]; omega)
    simp only at h3
    linarith
  · rw [heq]
    exact ⟨hv, hle, rfl⟩

/-- The result and the register writes of the search branch, from the triple
the search ends with. -/
theorem set_fps_search_result (H : Header) (platform : Nat) (r : ℚ) (s : Sensor) (b : Best)
    (hsearch : ¬ (pclk_target_of (clamp_fps r) <
      f32 (((H.OV7670_XCLK_HZ / 32) % 2 ^ 32 : Nat) : ℚ)))
    (hb : set_fps_search H.OV7670_XCLK_HZ (clamp_fps r) (pclk_target_of (clamp_fps r)) = b)
    (hp : platform ≠ 0) :
    (OV7670_set_fps H platform r s).1 = f32 (clamp_fps r - b.best_delta) ∧
    (OV7670_set_fps H platform r s).2.trace =
      s.trace ++
        (if pll_ratio.getD b.best_pll 0 = b.best_div then
          [Event.write platform H.OV7670_REG_DBLV 0,
           Event.write platform H.OV7670_REG_CLKRC 0x40]
        else
          [Event.write platform H.OV7670_REG_DBLV ((b.best_pll <<< 6) % 256),
           Event.write platform H.OV7670_REG_CLKRC ((b.best_div - 1) % 256)]) := by
  subst hb
  exact ⟨set_fps_search_branch H platform r s hsearch,
    set_fps_search_trace H platform r s hsearch hp⟩

set_option maxRecDepth 100000 in
/-- The search at 24 MHz for a request of 7 fps ends with PLL index 2 (x6),
divider 26, and the float distance 161321 / 2^21. -/
theorem set_fps_search_24MHz_7fps :
    set_fps_search datasheet.OV7670_XCLK_HZ (clamp_fps 7) (pclk_target_of (clamp_fps 7)) =
      ⟨2, 26, 161321 / 2097152⟩ := by
  decide!

/-- No pair of the search space has the rate 14518743 / 2^21 at 24 MHz: a rate
is a multiple of 1 / 800000. -/
theorem no_rate_24MHz_7fps (m d : Nat) : rate 24000000 m d ≠ 14518743 / 2097152 := by
  intro h
  unfold rate at h
  have h1 : ((24000000 * m / d : Nat) : ℚ) * 2097152 = 14518743 * 800000 := by linarith
  have h2 : (24000000 * m / d) * 2097152 = 14518743 * 800000 := by exact_mod_cast h1
  omega

set_option maxRecDepth 100000 in
/-- At 24 MHz and 30 fps the first pair visited, PLL 1:1 with divider 1, hits
the target exactly and is kept to the end. -/
theorem set_fps_search_24MHz_30fps :
    set_fps_search 24000000 (clamp_fps 30) (pclk_target_of (clamp_fps 30)) = ⟨0, 1, 0⟩ := by
  decide!

theorem pclk_target_of_mono (a b : ℚ) (h : a ≤ b) : pclk_target_of a ≤ pclk_target_of b := by
  unfold pclk_target_of
  apply f32_mono
  apply f64_mono
  apply div_le_div_of_nonneg_right _ (by norm_num)
  apply f64_mono
  linarith

theorem clamp_fps_mono (a b : ℚ) (h : a ≤ b) : clamp_fps a ≤ clamp_fps b := by
  rw [clamp_fps_eq_min, clamp_fps_eq_min]
  exact min_le_min_right _ h

set_option maxRecDepth 100000 in
theorem clamp_fps_f32 (r : ℚ) (h : f32 r = r) : f32 (clamp_fps r) = clamp_fps r := by
  unfold clamp_fps
  split_ifs
  · decide!
  · exact h

theorem fps_result_of_f32 (pclk : Nat) : f32 (fps_result_of pclk) = fps_result_of pclk := by
  unfold fps_result_of
  exact f32_idem _

set_option maxRecDepth 100000 in
theorem fps_result_of_nonneg (pclk : Nat) : 0 ≤ fps_result_of pclk := by
  have h0 : fps_result_of 0 = 0 := by decide!
  have := fps_result_of_mono 0 pclk (Nat.zero_le _)
  linarith

set_option maxRecDepth 100000 in
/-- In the search branch with an input clock of at least 32 Hz the clamped
request is at least `2 ^ (-20)`. -/
theorem search_branch_fps_lower (xclk : Nat) (f : ℚ) (h32 : 32 ≤ xclk) (hx : xclk < 2 ^ 32)
    (hs : ¬ (pclk_target_of f < f32 (((xclk / 32) % 2 ^ 32 : Nat) : ℚ))) :
    (2 : ℚ) ^ (-20 : ℤ) ≤ f := by
  by_contra hcon
  have hlt : f ≤ (2 : ℚ) ^ (-20 : ℤ) := le_of_lt (not_le.mp hcon)
  have h1 := pclk_target_of_mono _ _ hlt
  have h2 : pclk_target_of ((2 : ℚ) ^ (-20 : ℤ)) < 1 := by decide!
  have h3 : f32 ((1 : Nat) : ℚ) = 1 := by decide!
  have h4 : f32 ((1 : Nat) : ℚ) ≤ f32 (((xclk / 32) % 2 ^ 32 : Nat) : ℚ) :=
    f32_mono _ _ (by
      have : 1 ≤ (xclk / 32) % 2 ^ 32 := by omega
      exact_mod_cast this)
  rw [h3] at h4
  apply hs
  linarith

/-- When the value `fl(f - best_delta)` that the search branch returns lies
strictly between half and twice the clamped request `f`, it is the float rate
of the selected pair, and the subtractions were exact. -/
theorem search_exact (xclk : Nat) (f tgt : ℚ) (hf : f32 f = f)
    (hlo : (2 : ℚ) ^ (-125 : ℤ) ≤ f) (hhi : f ≤ 30)
    (h1 : f / 2 < f32 (f - (set_fps_search xclk f tgt).best_delta))
    (h2 : f32 (f - (set_fps_search xclk f tgt).best_delta) < 2 * f) :
    ∃ p d, Visited p d ∧ f32 (pclk_of xclk p d : ℚ) ≤ tgt ∧
      (set_fps_search xclk f tgt).best_delta = f - fps_result_of (pclk_of xclk p d) ∧
      f32 (f - (set_fps_search xclk f tgt).best_delta) = fps_result_of (pclk_of xclk p d) ∧
      f / 2 ≤ fps_result_of (pclk_of xclk p d) ∧ fps_result_of (pclk_of xclk p d) ≤ 2 * f := by
  have hfpos : 0 < f := lt_of_lt_of_le (zpow_pos (by norm_num) _) hlo
  have hbig : (30 : ℚ) ≤ 2 ^ 128 := by norm_num
  have hhalf : f32 (f / 2) = f / 2 := f32_half f hf hlo (by linarith)
  have hdbl : f32 (2 * f) = 2 * f := f32_double f hf (le_of_lt hfpos) (by linarith)
  have hnegf : f32 (-f) = -f := by rw [f32_neg, hf]
  obtain ⟨_, s2, _⟩ := set_fps_search_spec xclk f tgt
  rcases s2 with s2 | ⟨p, d, hv, hle, heq⟩
  · exfalso
    rw [s2] at h1
    simp only at h1
    have := f32_mono (f - 30) 0 (by linarith)
    rw [f32_zero] at this
    linarith
  · have hbd : (set_fps_search xclk f tgt).best_delta =
        f32 (f - fps_result_of (pclk_of xclk p d)) := by rw [heq]; rfl
    have hxf := fps_result_of_f32 (pclk_of xclk p d)
    have hx0 := fps_result_of_nonneg (pclk_of xclk p d)
    rw [hbd] at h1 h2
    refine ⟨p, d, hv, hle, ?_⟩
    rw [hbd]
    generalize fps_result_of (pclk_of xclk p d) = x at h1 h2 hxf hx0 ⊢
    have hlow : f / 2 ≤ x := by
      by_contra hcon
      have hxlt : x < f / 2 := not_le.mp hcon
      have a1 : f32 (f / 2) ≤ f32 (f - x) := f32_mono _ _ (by linarith)
      rw [hhalf] at a1
      have a2 : f32 (f - f32 (f - x)) ≤ f32 (f / 2) := f32_mono _ _ (by linarith)
      rw [hhalf] at a2
      linarith
    have hup : x ≤ 2 * f := by
      by_contra hcon
      have hxgt : 2 * f < x := not_le.mp hcon
      have b1 : f32 (f - x) ≤ f32 (-f) := f32_mono _ _ (by linarith)
      rw [hnegf] at b1
      have b2 : f32 (2 * f) ≤ f32 (f - f32 (f - x)) := f32_mono _ _ (by linarith)
      rw [hdbl] at b2
      linarith
    have hex : f32 (f - x) = f - x := f32_sub_exact x f hxf hf hlow hup (by linarith)
    refine ⟨hex, ?_, hlow, hup⟩
    rw [hex, sub_sub_cancel, hxf]

/-! ## Claims on `OV7670_set_fps` -/

set_option maxRecDepth 100000 in
/-- Claim C1, the code at a failing input: with a 24 MHz input clock and the
`float` request 11983725 / 2^20 (about 11.4285707), which is above the floor,
the float pixel-clock target rounds up to 9142857, the pair (PLL x8, divider
21) passes the target test, and `OV7670_set_fps` returns 5991863 / 2^19, the
next `float` above the request; the configuration it writes (DBLV <- 0xC0,
CLKRC <- 20) has the frame rate 9142857 * 5 / 4000000, above the request as
well. -/
theorem set_fps_exceeds_request :
    f32 (11983725 / 1048576) = 11983725 / 1048576 ∧
    8 * datasheet.OV7670_XCLK_HZ < 2 ^ 32 ∧
    ((datasheet.OV7670_XCLK_HZ / 32 : Nat) : ℚ) ≤ (11983725 / 1048576) * 800000 ∧
    pclk_target_of (clamp_fps (11983725 / 1048576)) = 9142857 ∧
    (OV7670_set_fps datasheet 1 (11983725 / 1048576) Sensor.blank).1 = 5991863 / 524288 ∧
    (11983725 / 1048576 : ℚ) < 5991863 / 524288 ∧
    (OV7670_set_fps datasheet 1 (11983725 / 1048576) Sensor.blank).2.trace =
      [Event.write 1 datasheet.OV7670_REG_DBLV 0xC0,
       Event.write 1 datasheet.OV7670_REG_CLKRC 20] ∧
    rate datasheet.OV7670_XCLK_HZ 8 21 = 9142857 * 5 / 4000000 ∧
    (11983725 / 1048576 : ℚ) < rate datasheet.OV7670_XCLK_HZ 8 21 := by
  have hs : ¬ (pclk_target_of (clamp_fps (11983725 / 1048576)) <
      f32 (((datasheet.OV7670_XCLK_HZ / 32) % 2 ^ 32 : Nat) : ℚ)) := by decide!
  have hb : set_fps_search datasheet.OV7670_XCLK_HZ (clamp_fps (11983725 / 1048576))
      (pclk_target_of (clamp_fps (11983725 / 1048576))) = ⟨3, 21, -1 / 1048576⟩ := by
    decide!
  obtain ⟨h1, h2⟩ := set_fps_search_result datasheet 1 (11983725 / 1048576) Sensor.blank _
    hs hb (by decide)
  refine ⟨by decide!, by decide, by decide!, by decide!, ?_, by norm_num, ?_, by decide!,
    by decide!⟩
  · rw [h1]; decide!
  · rw [h2]; decide!

set_option maxRecDepth 100000 in
/-- Claim C2, the code at a failing input: with a 24 MHz input clock a request
of 1/2 fps is below the floor, and `OV7670_set_fps` returns 0, the integer
quotient `750000 * 5 / 4000000`; that is neither the floor rate 15/16 nor
greater than the request. -/
theorem set_fps_floor_truncates (platform : Nat) (s : Sensor) :
    ((1 / 2 : ℚ) * 800000 < ((datasheet.OV7670_XCLK_HZ / 32 : Nat) : ℚ)) ∧
    (OV7670_set_fps datasheet platform (1 / 2) s).1 = 0 ∧
    ((datasheet.OV7670_XCLK_HZ / 32 : Nat) : ℚ) * 5 / 4000000 = 15 / 16 := by
  refine ⟨by norm_num [datasheet], ?_, by norm_num [datasheet]⟩
  rw [set_fps_rate_eq]
  decide!

set_option maxRecDepth 100000 in
/-- Claim C3 as stated fails, in two ways.  With a 24 MHz input clock and a
request of 7 fps the search selects the pair (PLL x6, divider 26) of rate
5538461 / 800000, and the value returned is the `float` computed from it,
14518743 / 2^21, which is the rate of no pair of the search space.  With an
800 MHz input clock a request of 40 fps is at or above the floor in the sense
of the claim, yet the clamped target of 30 fps is below the slowest pixel
clock, so the floor branch returns 31. -/
theorem set_fps_not_greatest_rate :
    (32 ≤ datasheet.OV7670_XCLK_HZ ∧
      ((datasheet.OV7670_XCLK_HZ / 32 : Nat) : ℚ) ≤ 7 * 800000 ∧
      (OV7670_set_fps datasheet 0 7 Sensor.blank).1 = 14518743 / 2097152 ∧
      ¬ IsGreatest (AchievableRates datasheet.OV7670_XCLK_HZ 7)
        (OV7670_set_fps datasheet 0 7 Sensor.blank).1) ∧
    (32 ≤ 800000000 ∧ (((800000000 / 32 : Nat) : ℚ) ≤ 40 * 800000) ∧
      (OV7670_set_fps { datasheet with OV7670_XCLK_HZ := 800000000 } 0 40
        Sensor.blank).1 = 31 ∧
      ¬ IsGreatest (AchievableRates 800000000 40)
        (OV7670_set_fps { datasheet with OV7670_XCLK_HZ := 800000000 } 0 40
          Sensor.blank).1) := by
  have hs : ¬ (pclk_target_of (clamp_fps 7) <
      f32 (((datasheet.OV7670_XCLK_HZ / 32) % 2 ^ 32 : Nat) : ℚ)) := by decide!
  have h7 : (OV7670_set_fps datasheet 0 7 Sensor.blank).1 = 14518743 / 2097152 := by
    rw [set_fps_search_branch datasheet 0 7 Sensor.blank hs, set_fps_search_24MHz_7fps]
    decide!
  have h40 : (OV7670_set_fps { datasheet with OV7670_XCLK_HZ := 800000000 } 0 40
      Sensor.blank).1 = 31 := by
    decide!
  refine ⟨⟨by decide, by norm_num [datasheet], h7, ?_⟩, ⟨by norm_num, by norm_num, h40, ?_⟩⟩
  · rw [h7]
    rintro ⟨⟨m, d, _, hq, _⟩, _⟩
    exact no_rate_24MHz_7fps m d hq.symm
  · rw [h40]
    rintro ⟨⟨m, d, _, _, hq⟩, _⟩
    norm_num at hq

/-- Claim C3, amended to the `float` arithmetic of the code and to input
clocks with `8 * XCLK < 2 ^ 32`: in the search branch (the float target is not
below `(float)(XCLK / 32)`) the value returned is `fl(fps - delta)`, where
`fps` is the clamped request and `delta = fl(fps - fl_rate)` is the float
distance of a pair (m, d) of the search space whose pixel clock passes the
float target test; and no pair of the search space that passes the test has a
smaller float distance. -/
theorem set_fps_optimal (H : Header) (platform : Nat) (r : ℚ) (s : Sensor)
    (h32 : 32 ≤ H.OV7670_XCLK_HZ) (hx : 8 * H.OV7670_XCLK_HZ < 2 ^ 32)
    (hsearch : ¬ (pclk_target_of (clamp_fps r) <
      f32 (((H.OV7670_XCLK_HZ / 32) % 2 ^ 32 : Nat) : ℚ))) :
    ∃ m d, SearchSpace m d ∧
      f32 ((H.OV7670_XCLK_HZ * m / d : Nat) : ℚ) ≤ pclk_target_of (clamp_fps r) ∧
      (OV7670_set_fps H platform r s).1 =
        f32 (clamp_fps r - delta_of (clamp_fps r) (H.OV7670_XCLK_HZ * m / d)) ∧
      ∀ m1 d1, SearchSpace m1 d1 →
        f32 ((H.OV7670_XCLK_HZ * m1 / d1 : Nat) : ℚ) ≤ pclk_target_of (clamp_fps r) →
        delta_of (clamp_fps r) (H.OV7670_XCLK_HZ * m / d) ≤
          delta_of (clamp_fps r) (H.OV7670_XCLK_HZ * m1 / d1) := by
  have hc30 : clamp_fps r ≤ 30 := by rw [clamp_fps_eq_min]; exact min_le_right _ _
  obtain ⟨hv, hle, hdelta⟩ := set_fps_search_selected H.OV7670_XCLK_HZ (clamp_fps r) hc30
    h32 (by omega) hsearch
  obtain ⟨_, _, s3⟩ := set_fps_search_spec H.OV7670_XCLK_HZ (clamp_fps r)
    (pclk_target_of (clamp_fps r))
  obtain ⟨hss, hpclk⟩ := visited_pclk H.OV7670_XCLK_HZ _ _ hx hv
  rw [hpclk] at hle hdelta
  refine ⟨_, _, hss, hle, ?_, ?_⟩
  · rw [set_fps_search_branch H platform r s hsearch, hdelta]
  · intro m1 d1 hs1 hadm
    obtain ⟨p, hv1, hp1⟩ := visited_of_searchSpace H.OV7670_XCLK_HZ m1 d1 hx hs1
    rw [← hp1] at hadm ⊢
    rw [← hdelta]
    exact s3 p d1 hv1 hadm

set_option maxRecDepth 100000 in
/-- Instance of the amended C3 at the 24 MHz data-sheet header, request 30. -/
theorem set_fps_optimal_witness :
    32 ≤ datasheet.OV7670_XCLK_HZ ∧ 8 * datasheet.OV7670_XCLK_HZ < 2 ^ 32 ∧
    ¬ (pclk_target_of (clamp_fps 30) <
      f32 (((datasheet.OV7670_XCLK_HZ / 32) % 2 ^ 32 : Nat) : ℚ)) ∧
    ∃ m d, SearchSpace m d ∧
      (OV7670_set_fps datasheet 1 30 Sensor.blank).1 =
        f32 (clamp_fps 30 - delta_of (clamp_fps 30) (datasheet.OV7670_XCLK_HZ * m / d)) :=
  have h : ¬ (pclk_target_of (clamp_fps 30) <
      f32 (((datasheet.OV7670_XCLK_HZ / 32) % 2 ^ 32 : Nat) : ℚ)) := by decide!
  ⟨by decide, by decide, h,
    (set_fps_optimal datasheet 1 30 Sensor.blank (by decide) (by decide) h).imp fun _ hm =>
      hm.imp fun _ hd => ⟨hd.1, hd.2.2.1⟩⟩

set_option maxRecDepth 100000 in
/-- Claim C4 as stated fails: with an input clock of 1000003 Hz the `float`
requests 3962415 / 2^18 (about 15.1154) and 15849661 / 2^20 (about 15.1154,
one unit in the last place above) are both above the floor and select the same
pair (PLL x8, divider 2), of float rate 10485791 / 2^21; the two roundings of
`fps - best_delta` return 327681 / 2^16 for the smaller request and the
smaller value 5242895 / 2^20 for the larger one. -/
theorem set_fps_not_monotone :
    f32 (3962415 / 262144) = 3962415 / 262144 ∧
    f32 (15849661 / 1048576) = 15849661 / 1048576 ∧
    (3962415 / 262144 : ℚ) ≤ 15849661 / 1048576 ∧
    ((1000003 / 32 : Nat) : ℚ) ≤ (3962415 / 262144) * 800000 ∧
    ((1000003 / 32 : Nat) : ℚ) ≤ (15849661 / 1048576) * 800000 ∧
    (OV7670_set_fps { datasheet with OV7670_XCLK_HZ := 1000003 } 0 (3962415 / 262144)
      Sensor.blank).1 = 327681 / 65536 ∧
    (OV7670_set_fps { datasheet with OV7670_XCLK_HZ := 1000003 } 0 (15849661 / 1048576)
      Sensor.blank).1 = 5242895 / 1048576 ∧
    (5242895 / 1048576 : ℚ) < 327681 / 65536 ∧
    fps_result_of (pclk_of 1000003 3 2) = 10485791 / 2097152 := by
  refine ⟨by decide!, by decide!, by norm_num, by norm_num, by norm_num, by decide!,
    by decide!, by norm_num, by decide!⟩

/-- Claim C4, amended to the `float` arithmetic of the code: for a 32-bit
input clock of at least 32 Hz and `float` requests `r1 ≤ r2` for which the
search runs, the rate returned for `r1` is at most the rate returned for `r2`
whenever each returned rate lies strictly between half and twice its clamped
request (the subtractions `fps - fps_result` and `fps - best_delta` are then
exact). -/
theorem set_fps_monotone (H : Header) (platform : Nat) (r1 r2 : ℚ) (s : Sensor)
    (h32 : 32 ≤ H.OV7670_XCLK_HZ) (hx : H.OV7670_XCLK_HZ < 2 ^ 32)
    (hf1 : f32 r1 = r1) (hf2 : f32 r2 = r2) (h12 : r1 ≤ r2)
    (hs1 : ¬ (pclk_target_of (clamp_fps r1) <
      f32 (((H.OV7670_XCLK_HZ / 32) % 2 ^ 32 : Nat) : ℚ)))
    (hw1 : clamp_fps r1 / 2 < (OV7670_set_fps H platform r1 s).1 ∧
      (OV7670_set_fps H platform r1 s).1 < 2 * clamp_fps r1)
    (hw2 : clamp_fps r2 / 2 < (OV7670_set_fps H platform r2 s).1 ∧
      (OV7670_set_fps H platform r2 s).1 < 2 * clamp_fps r2) :
    (OV7670_set_fps H platform r1 s).1 ≤ (OV7670_set_fps H platform r2 s).1 := by
  have hc12 := clamp_fps_mono r1 r2 h12
  have ht12 := pclk_target_of_mono _ _ hc12
  have hs2 : ¬ (pclk_target_of (clamp_fps r2) <
      f32 (((H.OV7670_XCLK_HZ / 32) % 2 ^ 32 : Nat) : ℚ)) := by
    intro h; exact hs1 (lt_of_le_of_lt ht12 h)
  have hret1 := set_fps_search_branch H platform r1 s hs1
  have hret2 := set_fps_search_branch H platform r2 s hs2
  rw [hret1] at hw1 ⊢
  rw [hret2] at hw2 ⊢
  have hlo : ∀ r, ¬ (pclk_target_of (clamp_fps r) <
      f32 (((H.OV7670_XCLK_HZ / 32) % 2 ^ 32 : Nat) : ℚ)) →
      (2 : ℚ) ^ (-125 : ℤ) ≤ clamp_fps r := by
    intro r hs
    have := search_branch_fps_lower H.OV7670_XCLK_HZ (clamp_fps r) h32 hx hs
    exact le_trans (zpow_le_zpow_right₀ (by norm_num) (by norm_num)) this
  have hc30 : ∀ r, clamp_fps r ≤ 30 := by
    intro r; rw [clamp_fps_eq_min]; exact min_le_right _ _
  obtain ⟨p1, d1, hv1, ha1, _, he1, hl1, hu1⟩ := search_exact H.OV7670_XCLK_HZ (clamp_fps r1)
    (pclk_target_of (clamp_fps r1)) (clamp_fps_f32 r1 hf1) (hlo r1 hs1) (hc30 r1) hw1.1 hw1.2
  obtain ⟨p2, d2, hv2, ha2, hb2, he2, hl2, hu2⟩ := search_exact H.OV7670_XCLK_HZ
    (clamp_fps r2) (pclk_target_of (clamp_fps r2)) (clamp_fps_f32 r2 hf2) (hlo r2 hs2)
    (hc30 r2) hw2.1 hw2.2
  rw [he1, he2]
  -- the pair selected for r1 passes the target test of r2
  obtain ⟨_, _, s3⟩ := set_fps_search_spec H.OV7670_XCLK_HZ (clamp_fps r2)
    (pclk_target_of (clamp_fps r2))
  have h3 := s3 p1 d1 hv1 (le_trans ha1 ht12)
  rw [hb2] at h3
  unfold delta_of at h3
  by_contra hcon
  have hgt : fps_result_of (pclk_of H.OV7670_XCLK_HZ p2 d2) <
      fps_result_of (pclk_of H.OV7670_XCLK_HZ p1 d1) := not_le.mp hcon
  have hex : f32 (clamp_fps r2 - fps_result_of (pclk_of H.OV7670_XCLK_HZ p1 d1)) =
      clamp_fps r2 - fps_result_of (pclk_of H.OV7670_XCLK_HZ p1 d1) :=
    f32_sub_exact _ _ (fps_result_of_f32 _) (clamp_fps_f32 r2 hf2) (by linarith)
      (by linarith) (le_trans (hc30 r2) (by norm_num))
  rw [hex] at h3
  linarith

set_option maxRecDepth 100000 in
/-- Instance of the amended C4 at the 24 MHz data-sheet header, requests 7
and 30. -/
theorem set_fps_monotone_witness :
    32 ≤ datasheet.OV7670_XCLK_HZ ∧ datasheet.OV7670_XCLK_HZ < 2 ^ 32 ∧
    f32 7 = 7 ∧ f32 30 = 30 ∧ (7 : ℚ) ≤ 30 ∧
    ¬ (pclk_target_of (clamp_fps 7) <
      f32 (((datasheet.OV7670_XCLK_HZ / 32) % 2 ^ 32 : Nat) : ℚ)) ∧
    (clamp_fps 7 / 2 < (OV7670_set_fps datasheet 0 7 Sensor.blank).1 ∧
      (OV7670_set_fps datasheet 0 7 Sensor.blank).1 < 2 * clamp_fps 7) ∧
    (clamp_fps 30 / 2 < (OV7670_set_fps datasheet 0 30 Sensor.blank).1 ∧
      (OV7670_set_fps datasheet 0 30 Sensor.blank).1 < 2 * clamp_fps 30) ∧
    (OV7670_set_fps datasheet 0 7 Sensor.blank).1 ≤
      (OV7670_set_fps datasheet 0 30 Sensor.blank).1 :=
  have hs : ¬ (pclk_target_of (clamp_fps 7) <
      f32 (((datasheet.OV7670_XCLK_HZ / 32) % 2 ^ 32 : Nat) : ℚ)) := by decide!
  have hs30 : ¬ (pclk_target_of (clamp_fps 30) <
      f32 (((datasheet.OV7670_XCLK_HZ / 32) % 2 ^ 32 : Nat) : ℚ)) := by decide!
  have h7 : (OV7670_set_fps datasheet 0 7 Sensor.blank).1 = 14518743 / 2097152 := by
    rw [set_fps_search_branch datasheet 0 7 Sensor.blank hs, set_fps_search_24MHz_7fps]
    decide!
  have h30 : (OV7670_set_fps datasheet 0 30 Sensor.blank).1 = 30 := by
    have hb : set_fps_search datasheet.OV7670_XCLK_HZ (clamp_fps 30)
        (pclk_target_of (clamp_fps 30)) = ⟨0, 1, 0⟩ := set_fps_search_24MHz_30fps
    rw [set_fps_search_branch datasheet 0 30 Sensor.blank hs30, hb]
    decide!
  have hw1 : clamp_fps 7 / 2 < (OV7670_set_fps datasheet 0 7 Sensor.blank).1 ∧
      (OV7670_set_fps datasheet 0 7 Sensor.blank).1 < 2 * clamp_fps 7 := by
    rw [h7]; norm_num [clamp_fps]
  have hw2 : clamp_fps 30 / 2 < (OV7670_set_fps datasheet 0 30 Sensor.blank).1 ∧
      (OV7670_set_fps datasheet 0 30 Sensor.blank).1 < 2 * clamp_fps 30 := by
    rw [h30]; norm_num [clamp_fps]
  ⟨by decide, by decide, by decide!, by decide!, by norm_num, hs, hw1, hw2,
    set_fps_monotone datasheet 0 7 30 Sensor.blank (by decide) (by decide) (by decide!)
      (by decide!) (by norm_num) hs hw1 hw2⟩

/-- Claim C5: the rate returned by `OV7670_set_fps` with a NULL platform
equals the rate returned with any other platform handle. -/
theorem set_fps_rate_platform_independent (H : Header) (platform : Nat) (r : ℚ)
    (s : Sensor) :
    (OV7670_set_fps H 0 r s).1 = (OV7670_set_fps H platform r s).1 := by
  unfold OV7670_set_fps
  simp only
  split_ifs <;> rfl

/-- Claim C6: with a NULL platform `OV7670_set_fps` leaves the sensor as it
was, register file and trace alike, for every request: no register is
written in the below-floor branch nor in the search branch. -/
theorem set_fps_null_platform_no_write (H : Header) (r : ℚ) (s : Sensor) :
    (OV7670_set_fps H 0 r s).2 = s := by
  unfold OV7670_set_fps
  simp only
  split_ifs <;> first | rfl | (exfalso; omega)

/-! ## Claims on the frame geometry -/

theorem shl_or_eq_add (a b i : Nat) (h : b < 2 ^ i) : a <<< i ||| b = a * 2 ^ i + b := by
  rw [Nat.shiftLeft_eq, Nat.mul_comm a, ← Nat.mul_add_lt_is_or h]

theorem and_seven (x : Nat) : x &&& 7 = x % 8 := Nat.and_pow_two_sub_one_eq_mod x 3

theorem and_three (x : Nat) : x &&& 3 = x % 4 := Nat.and_pow_two_sub_one_eq_mod x 2

theorem href_value (e a b : Nat) (ha : a < 8) (hb : b < 8) :
    ((e <<< 6) ||| (a <<< 3)) ||| b = e * 64 + a * 8 + b := by
  have h1 : (e <<< 6) ||| (a <<< 3) = (e * 8 + a) <<< 3 := by
    rw [shl_or_eq_add e (a <<< 3) 6 (by rw [Nat.shiftLeft_eq]; omega)]
    simp only [Nat.shiftLeft_eq]; omega
  rw [h1, shl_or_eq_add _ b 3 (by omega)]; omega

theorem vref_value (c d : Nat) (hd : d < 4) : (c <<< 2) ||| d = c * 4 + d := by
  rw [shl_or_eq_add c d 2 (by omega)]; omega

theorem href_low (e a b : Nat) (hb : b < 8) :
    (e * 64 + a * 8 + b) % 256 % 8 = b := by omega

theorem href_mid (e a b : Nat) (ha : a < 8) (hb : b < 8) :
    (e * 64 + a * 8 + b) % 256 / 2 ^ 3 % 8 = a := by omega

theorem vref_low (c d : Nat) (hd : d < 4) : (c * 4 + d) % 256 % 4 = d := by omega

theorem vref_mid (c d : Nat) (hc : c < 4) (hd : d < 4) :
    (c * 4 + d) % 256 / 2 ^ 2 % 4 = c := by omega

/-- Claim C7: for `vstart < 256` and `hstart < 2048` the last seven writes of
`OV7670_frame_control` are HSTART, HSTOP, HREF, VSTART, VSTOP, VREF and
SCALING_PCLK_DELAY, and the 8-bit values written recombine to the window:
`HSTART << 3 | HREF[2:0] = hstart`, `HSTOP << 3 | HREF[5:3] = (hstart + 640)
% 784`, `VSTART << 2 | VREF[1:0] = vstart`, `VSTOP << 2 | VREF[3:2] =
vstart + 480`. -/
theorem frame_control_window_roundtrip (H : Header)
    (platform size vstart hstart edge_offset pclk_delay : Nat) (s : Sensor)
    (hv : vstart < 256) (hh : hstart < 2048) :
    ∃ hs hp hr vs vp vr pd,
      (OV7670_frame_control H platform size vstart hstart edge_offset pclk_delay
          s).trace.drop (s.trace.length + 8) =
        [Event.write platform H.OV7670_REG_HSTART hs,
         Event.write platform H.OV7670_REG_HSTOP hp,
         Event.write platform H.OV7670_REG_HREF hr,
         Event.write platform H.OV7670_REG_VSTART vs,
         Event.write platform H.OV7670_REG_VSTOP vp,
         Event.write platform H.OV7670_REG_VREF vr,
         Event.write platform H.OV7670_REG_SCALING_PCLK_DELAY pd] ∧
      (hs <<< 3 ||| (hr &&& 7)) = hstart ∧
      (hp <<< 3 ||| ((hr >>> 3) &&& 7)) = (hstart + 640) % 784 ∧
      (vs <<< 2 ||| (vr &&& 3)) = vstart ∧
      (vp <<< 2 ||| ((vr >>> 2) &&& 3)) = vstart + 480 := by
  have e1 : vstart % 256 = vstart := Nat.mod_eq_of_lt hv
  have e2 : hstart % 65536 = hstart := Nat.mod_eq_of_lt (by omega)
  have e3 : (vstart + 480) % 65536 = vstart + 480 := Nat.mod_eq_of_lt (by omega)
  have e4 : (hstart + 640) % 784 % 65536 = (hstart + 640) % 784 :=
    Nat.mod_eq_of_lt (by omega)
  refine ⟨(hstart >>> 3) % 256, (((hstart + 640) % 784) >>> 3) % 256,
    ((((edge_offset % 256) <<< 6) ||| ((((hstart + 640) % 784) &&& 7) <<< 3)) |||
      (hstart &&& 7)) % 256,
    (vstart >>> 2) % 256, ((vstart + 480) >>> 2) % 256,
    ((((vstart + 480) &&& 3) <<< 2) ||| (vstart &&& 3)) % 256, pclk_delay % 256,
    ?_, ?_, ?_, ?_, ?_⟩
  · simp [OV7670_frame_control, OV7670_write_register, OV7670_read_register,
      e1, e2, e3, e4]
  · simp only [and_seven, and_three, Nat.shiftRight_eq_div_pow]
    rw [href_value _ _ _ (Nat.mod_lt _ (by norm_num)) (Nat.mod_lt _ (by norm_num)),
      href_low _ _ _ (Nat.mod_lt _ (by norm_num)), shl_or_eq_add _ _ 3 (by omega)]
    omega
  · simp only [and_seven, and_three, Nat.shiftRight_eq_div_pow]
    rw [href_value _ _ _ (Nat.mod_lt _ (by norm_num)) (Nat.mod_lt _ (by norm_num)),
      href_mid _ _ _ (Nat.mod_lt _ (by norm_num)) (Nat.mod_lt _ (by norm_num)),
      shl_or_eq_add _ _ 3 (by omega)]
    omega
  · simp only [and_seven, and_three, Nat.shiftRight_eq_div_pow]
    rw [vref_value ((vstart + 480) % 4) (vstart % 4) (Nat.mod_lt _ (by norm_num)),
      vref_low _ _ (Nat.mod_lt _ (by norm_num)), shl_or_eq_add _ _ 2 (by omega)]
    omega
  · simp only [and_seven, and_three, Nat.shiftRight_eq_div_pow]
    rw [vref_value ((vstart + 480) % 4) (vstart % 4) (Nat.mod_lt _ (by norm_num)),
      vref_mid _ _ (Nat.mod_lt _ (by norm_num)) (Nat.mod_lt _ (by norm_num)),
      shl_or_eq_add _ _ 2 (by omega)]
    omega

/-- Instance of C7 at the window of size 0 (`vstart = 9`, `hstart = 162`). -/
theorem frame_control_window_roundtrip_witness :
    9 < 256 ∧ 162 < 2048 ∧
    ∃ hs hp hr vs vp vr pd,
      (OV7670_frame_control datasheet 1 0 9 162 2 2 Sensor.blank).trace.drop
          (Sensor.blank.trace.length + 8) =
        [Event.write 1 datasheet.OV7670_REG_HSTART hs,
         Event.write 1 datasheet.OV7670_REG_HSTOP hp,
         Event.write 1 datasheet.OV7670_REG_HREF hr,
         Event.write 1 datasheet.OV7670_REG_VSTART vs,
         Event.write 1 datasheet.OV7670_REG_VSTOP vp,
         Event.write 1 datasheet.OV7670_REG_VREF vr,
         Event.write 1 datasheet.OV7670_REG_SCALING_PCLK_DELAY pd] ∧
      (hs <<< 3 ||| (hr &&& 7)) = 162 ∧
      (hp <<< 3 ||| ((hr >>> 3) &&& 7)) = (162 + 640) % 784 ∧
      (vs <<< 2 ||| (vr &&& 3)) = 9 ∧
      (vp <<< 2 ||| ((vr >>> 2) &&& 3)) = 9 + 480 :=
  ⟨by decide, by decide,
    frame_control_window_roundtrip datasheet 1 0 9 162 2 2 Sensor.blank
      (by decide) (by decide)⟩

/-- Claim C8: for each size 0..4 the table lookup of `OV7670_set_size`
succeeds and the call is `OV7670_frame_control` on the same platform and size
with the tuple (9,162,2,2), (10,174,4,2), (11,186,2,2), (12,210,0,2),
(15,252,3,2) respectively: same resulting register file, same trace. -/
theorem set_size_forwards_to_frame_control (H : Header) (platform : Nat) (s : Sensor) :
    OV7670_set_size H platform 0 s =
      some (OV7670_frame_control H platform 0 9 162 2 2 s) ∧
    OV7670_set_size H platform 1 s =
      some (OV7670_frame_control H platform 1 10 174 4 2 s) ∧
    OV7670_set_size H platform 2 s =
      some (OV7670_frame_control H platform 2 11 186 2 2 s) ∧
    OV7670_set_size H platform 3 s =
      some (OV7670_frame_control H platform 3 12 210 0 2 s) ∧
    OV7670_set_size H platform 4 s =
      some (OV7670_frame_control H platform 4 15 252 3 2 s) :=
  ⟨rfl, rfl, rfl, rfl, rfl⟩

/-! ## Claims on the auxiliary controls -/

theorem and_31 (x : Nat) : x &&& 31 = x % 32 := Nat.and_pow_two_sub_one_eq_mod x 5

theorem night_or_value (x b : Nat) (hb : b < 8) :
    ((x % 256 &&& 31) % 256 ||| (b <<< 5)) % 256 % 256 = (x &&& 31) ||| (b <<< 5) ∧
    ((x &&& 31) ||| (b <<< 5)) &&& 31 = x &&& 31 := by
  simp only [and_31]
  have h1 : x % 256 % 32 % 256 = x % 32 := by omega
  rw [h1, Nat.lor_comm, shl_or_eq_add b (x % 32) 5 (by omega)]
  constructor <;> omega

theorem night_eq (H : Header) (platform mode bits : Nat) (s : Sensor)
    (hbits : night_bits[mode]? = some bits) :
    OV7670_night H platform mode s =
      some (OV7670_write_register platform H.OV7670_REG_COM11
        (((s.regs H.OV7670_REG_COM11 % 256 &&& 31) % 256 ||| bits) % 256)
        (OV7670_read_register platform H.OV7670_REG_COM11 s).2) := by
  simp only [OV7670_night, hbits, OV7670_read_register]

theorem night_spec (H : Header) (platform mode b : Nat) (s : Sensor) (hb : b < 8)
    (hbits : night_bits[mode]? = some (b <<< 5)) :
    ∃ s1, OV7670_night H platform mode s = some s1 ∧
      s1.regs H.OV7670_REG_COM11 = (s.regs H.OV7670_REG_COM11 &&& 0x1F) ||| (b <<< 5) ∧
      s1.regs H.OV7670_REG_COM11 &&& 0x1F = s.regs H.OV7670_REG_COM11 &&& 0x1F ∧
      (∀ r, r ≠ H.OV7670_REG_COM11 → s1.regs r = s.regs r) ∧
      s1.trace = s.trace ++ [Event.read platform H.OV7670_REG_COM11,
        Event.write platform H.OV7670_REG_COM11 (s1.regs H.OV7670_REG_COM11)] := by
  obtain ⟨v1, v2⟩ := night_or_value (s.regs H.OV7670_REG_COM11) b hb
  refine ⟨_, night_eq H platform mode _ s hbits, ?_, ?_, ?_, ?_⟩
  · simp only [OV7670_write_register, OV7670_read_register, if_true]
    exact v1
  · simp only [OV7670_write_register, OV7670_read_register, if_true]
    rw [v1]; exact v2
  · intro r hr
    simp only [OV7670_write_register, OV7670_read_register, hr, if_false]
  · simp only [OV7670_write_register, OV7670_read_register, if_true,
      List.append_assoc, List.singleton_append]

/-- Claim C9: for every register file and mode 0..3, `OV7670_night` succeeds,
leaves COM11 equal to `(old COM11 AND 0x1F) OR night_bits[mode]` with
`night_bits = [0x00, 0xA0, 0xC0, 0xE0]`, so bits 4:0 are kept, changes no
other register, and its trace is one read and one write of COM11. -/
theorem night_preserves_other_bits (H : Header) (platform mode : Nat) (s : Sensor)
    (hm : mode ≤ 3) :
    ∃ s1, OV7670_night H platform mode s = some s1 ∧
      s1.regs H.OV7670_REG_COM11 =
        (s.regs H.OV7670_REG_COM11 &&& 0x1F) ||| [0x00, 0xA0, 0xC0, 0xE0].getD mode 0 ∧
      s1.regs H.OV7670_REG_COM11 &&& 0x1F = s.regs H.OV7670_REG_COM11 &&& 0x1F ∧
      (∀ r, r ≠ H.OV7670_REG_COM11 → s1.regs r = s.regs r) ∧
      s1.trace = s.trace ++ [Event.read platform H.OV7670_REG_COM11,
        Event.write platform H.OV7670_REG_COM11 (s1.regs H.OV7670_REG_COM11)] := by
  have hcases : mode = 0 ∨ mode = 1 ∨ mode = 2 ∨ mode = 3 := by omega
  rcases hcases with rfl | rfl | rfl | rfl
  · exact night_spec H platform 0 0 s (by norm_num) rfl
  · exact night_spec H platform 1 5 s (by norm_num) rfl
  · exact night_spec H platform 2 6 s (by norm_num) rfl
  · exact night_spec H platform 3 7 s (by norm_num) rfl

/-- Instance of C9 at the data-sheet header, mode 2, on a blank sensor. -/
theorem night_preserves_other_bits_witness :
    2 ≤ 3 ∧
    ∃ s1, OV7670_night datasheet 1 2 Sensor.blank = some s1 ∧
      s1.regs datasheet.OV7670_REG_COM11 =
        (Sensor.blank.regs datasheet.OV7670_REG_COM11 &&& 0x1F) |||
          [0x00, 0xA0, 0xC0, 0xE0].getD 2 0 ∧
      s1.regs datasheet.OV7670_REG_COM11 &&& 0x1F =
        Sensor.blank.regs datasheet.OV7670_REG_COM11 &&& 0x1F ∧
      (∀ r, r ≠ datasheet.OV7670_REG_COM11 → s1.regs r = Sensor.blank.regs r) ∧
      s1.trace = Sensor.blank.trace ++ [Event.read 1 datasheet.OV7670_REG_COM11,
        Event.write 1 datasheet.OV7670_REG_COM11 (s1.regs datasheet.OV7670_REG_COM11)] :=
  ⟨by decide, night_preserves_other_bits datasheet 1 2 Sensor.blank (by decide)⟩

theorem testBit_mod_256 (x k : Nat) :
    (x % 256).testBit k = (decide (k < 8) && x.testBit k) := by
  rw [show (256 : Nat) = 2 ^ 8 from rfl, Nat.testBit_mod_two_pow]

theorem testBit_and_not8 (x i k : Nat) :
    (and_not8 x (2 ^ i)).testBit k =
      (decide (k < 8) && (x.testBit k && !decide (i = k))) := by
  unfold and_not8
  rw [show (256 : Nat) = 2 ^ 8 from rfl, show (0xFF : Nat) = 2 ^ 8 - 1 from rfl,
    Nat.testBit_mod_two_pow, Nat.testBit_and, Nat.testBit_xor, Nat.testBit_mod_two_pow,
    Nat.testBit_two_pow_sub_one, Nat.testBit_two_pow]
  by_cases h8 : k < 8 <;> by_cases hik : i = k <;> simp [h8, hik]

/-- Claim C10: with MIRROR and VFLIP two distinct single-bit masks of the
8-bit register (`2 ^ i` and `2 ^ j`, `i ≠ j`, both below 8), `OV7670_flip`
reads MVFP once and writes it once, changes no other register, and the value
written agrees with the value read on every bit other than `i` and `j`, has
bit `i` set iff `flip_x` and bit `j` set iff `flip_y`. -/
theorem flip_preserves_other_bits (H : Header) (platform : Nat) (flip_x flip_y : Bool)
    (s : Sensor) (i j : Nat) (hi : i < 8) (hj : j < 8) (hij : i ≠ j)
    (hM : H.OV7670_MVFP_MIRROR = 2 ^ i) (hV : H.OV7670_MVFP_VFLIP = 2 ^ j) :
    (OV7670_flip H platform flip_x flip_y s).trace =
      s.trace ++ [Event.read platform H.OV7670_REG_MVFP,
        Event.write platform H.OV7670_REG_MVFP
          ((OV7670_flip H platform flip_x flip_y s).regs H.OV7670_REG_MVFP)] ∧
    (∀ r, r ≠ H.OV7670_REG_MVFP →
      (OV7670_flip H platform flip_x flip_y s).regs r = s.regs r) ∧
    (∀ k, k ≠ i → k ≠ j →
      ((OV7670_flip H platform flip_x flip_y s).regs H.OV7670_REG_MVFP).testBit k =
        (s.regs H.OV7670_REG_MVFP % 256).testBit k) ∧
    ((OV7670_flip H platform flip_x flip_y s).regs H.OV7670_REG_MVFP).testBit i = flip_x ∧
    ((OV7670_flip H platform flip_x flip_y s).regs H.OV7670_REG_MVFP).testBit j = flip_y := by
  have hw : (OV7670_flip H platform flip_x flip_y s).regs H.OV7670_REG_MVFP =
      (if flip_y then
        ((if flip_x then (s.regs H.OV7670_REG_MVFP % 256 ||| 2 ^ i) % 256
          else and_not8 (s.regs H.OV7670_REG_MVFP % 256) (2 ^ i)) ||| 2 ^ j) % 256
      else and_not8 (if flip_x then (s.regs H.OV7670_REG_MVFP % 256 ||| 2 ^ i) % 256
          else and_not8 (s.regs H.OV7670_REG_MVFP % 256) (2 ^ i)) (2 ^ j)) % 256 := by
    simp only [OV7670_flip, OV7670_write_register, OV7670_read_register, if_true, hM, hV]
  refine ⟨?_, ?_, ?_, ?_, ?_⟩
  · simp only [OV7670_flip, OV7670_write_register, OV7670_read_register,
      List.append_assoc, List.singleton_append, if_true]
  · intro r hr
    simp only [OV7670_flip, OV7670_write_register, OV7670_read_register, hr, if_false]
  · intro k hki hkj
    have h1 : decide (i = k) = false := by simpa using fun h => hki h.symm
    have h2 : decide (j = k) = false := by simpa using fun h => hkj h.symm
    rw [hw]
    cases flip_x <;> cases flip_y <;>
      simp [testBit_mod_256, testBit_and_not8, Nat.testBit_two_pow, h1, h2]
  · have h2 : decide (j = i) = false := by simpa using fun h => hij h.symm
    rw [hw]
    cases flip_x <;> cases flip_y <;>
      simp [testBit_mod_256, testBit_and_not8, Nat.testBit_two_pow, h2, hi]
  · have h1 : decide (i = j) = false := by simpa using hij
    rw [hw]
    cases flip_x <;> cases flip_y <;>
      simp [testBit_mod_256, testBit_and_not8, Nat.testBit_two_pow, h1, hj]

/-- Instance of C10 at the data-sheet masks MIRROR = 0x20, VFLIP = 0x10. -/
theorem flip_preserves_other_bits_witness :
    5 < 8 ∧ 4 < 8 ∧ (5 : Nat) ≠ 4 ∧
    datasheet.OV7670_MVFP_MIRROR = 2 ^ 5 ∧ datasheet.OV7670_MVFP_VFLIP = 2 ^ 4 ∧
    ((OV7670_flip datasheet 1 true false Sensor.blank).regs
      datasheet.OV7670_REG_MVFP).testBit 5 = true ∧
    ((OV7670_flip datasheet 1 true false Sensor.blank).regs
      datasheet.OV7670_REG_MVFP).testBit 4 = false :=
  ⟨by decide, by decide, by decide, by decide, by decide,
    (flip_preserves_other_bits datasheet 1 true false Sensor.blank 5 4 (by decide)
      (by decide) (by decide) (by decide) (by decide)).2.2.2⟩

/-! ## Claims on `OV7670_test_pattern` and the shared zoom registers -/

set_option maxRecDepth 20000 in
theorem or_80_value : ∀ x, x < 256 → (x ||| 0x80) % 256 = x % 128 + 128 := by
  decide

set_option maxRecDepth 20000 in
theorem and_not_80_value : ∀ x, x < 256 → and_not8 x 0x80 = x % 128 := by
  decide

theorem and_7F (x : Nat) : x &&& 0x7F = x % 128 := Nat.and_pow_two_sub_one_eq_mod x 7

theorem testBit_7 (x : Nat) : x.testBit 7 = decide (x / 128 % 2 = 1) :=
  Nat.testBit_to_div_mod

/-- Value `OV7670_test_pattern` computes for a zoom register holding `old`
when the pattern bit is `b`. -/
theorem test_pattern_value (old : Nat) (b : Bool) :
    (if b then (old % 256 ||| 0x80) % 256 else and_not8 (old % 256) 0x80) =
      old % 128 + (if b then 128 else 0) := by
  have h : old % 256 < 256 := Nat.mod_lt _ (by norm_num)
  cases b
  · simp only [Bool.false_eq_true, if_false]
    rw [and_not_80_value _ h]; omega
  · simp only [if_true]
    rw [or_80_value _ h]; omega

theorem test_pattern_regs (H : Header) (platform pattern : Nat) (s : Sensor)
    (hxy : H.OV7670_REG_SCALING_XSC ≠ H.OV7670_REG_SCALING_YSC) :
    (OV7670_test_pattern H platform pattern s).regs H.OV7670_REG_SCALING_XSC =
      s.regs H.OV7670_REG_SCALING_XSC % 128 +
        (if decide (pattern &&& 1 ≠ 0) then 128 else 0) ∧
    (OV7670_test_pattern H platform pattern s).regs H.OV7670_REG_SCALING_YSC =
      s.regs H.OV7670_REG_SCALING_YSC % 128 +
        (if decide (pattern &&& 2 ≠ 0) then 128 else 0) := by
  have hx := test_pattern_value (s.regs H.OV7670_REG_SCALING_XSC) (decide (pattern &&& 1 ≠ 0))
  have hy := test_pattern_value (s.regs H.OV7670_REG_SCALING_YSC) (decide (pattern &&& 2 ≠ 0))
  simp only [decide_eq_true_eq] at hx hy
  constructor
  · simp only [OV7670_test_pattern, OV7670_write_register, OV7670_read_register,
      if_neg hxy, if_true, hx, decide_eq_true_eq]
    split_ifs <;> omega
  · simp only [OV7670_test_pattern, OV7670_write_register, OV7670_read_register,
      if_true, hy, decide_eq_true_eq]
    split_ifs <;> omega

theorem pattern_bits (pattern : Nat) (hp : pattern ≤ 3) :
    decide (pattern &&& 1 ≠ 0) = pattern.testBit 0 ∧
    decide (pattern &&& 2 ≠ 0) = pattern.testBit 1 := by
  have hcases : pattern = 0 ∨ pattern = 1 ∨ pattern = 2 ∨ pattern = 3 := by omega
  rcases hcases with rfl | rfl | rfl | rfl <;> decide

theorem bits_of_low_plus_bit7 (low : Nat) (b : Bool) (h : low < 128) :
    (low + (if b then 128 else 0)).testBit 7 = b ∧
    (low + (if b then 128 else 0)) &&& 0x7F = low := by
  rw [testBit_7, and_7F]
  cases b
  · simp only [Bool.false_eq_true, if_false, decide_eq_false_iff_not]
    constructor <;> omega
  · simp only [if_true, decide_eq_true_eq]
    constructor <;> omega

set_option maxRecDepth 20000 in
theorem zoom_value : ∀ x, x < 256 →
    ((x &&& 0x80) ||| 0x20) % 256 = x / 128 * 128 + 32 ∧
    ((x &&& 0x80) ||| 0x40) % 256 = x / 128 * 128 + 64 := by
  decide

theorem frame_control_zoom_regs (H : Header)
    (platform size vstart hstart edge_offset pclk_delay : Nat) (s : Sensor)
    (hd : ScalingRegsDistinct H) (hs : size ≤ 4) :
    (OV7670_frame_control H platform size vstart hstart edge_offset pclk_delay
        s).regs H.OV7670_REG_SCALING_XSC =
      s.regs H.OV7670_REG_SCALING_XSC % 256 / 128 * 128 +
        (if size = 4 then 0x40 else 0x20) ∧
    (OV7670_frame_control H platform size vstart hstart edge_offset pclk_delay
        s).regs H.OV7670_REG_SCALING_YSC =
      s.regs H.OV7670_REG_SCALING_YSC % 256 / 128 * 128 +
        (if size = 4 then 0x40 else 0x20) := by
  obtain ⟨hxy, hall⟩ := hd
  have hyx : H.OV7670_REG_SCALING_YSC ≠ H.OV7670_REG_SCALING_XSC := fun h => hxy h.symm
  have x1 := (hall H.OV7670_REG_COM3 (by simp)).1
  have x2 := (hall H.OV7670_REG_COM14 (by simp)).1
  have x3 := (hall H.OV7670_REG_SCALING_DCWCTR (by simp)).1
  have x4 := (hall H.OV7670_REG_SCALING_PCLK_DIV (by simp)).1
  have x5 := (hall H.OV7670_REG_HSTART (by simp)).1
  have x6 := (hall H.OV7670_REG_HSTOP (by simp)).1
  have x7 := (hall H.OV7670_REG_HREF (by simp)).1
  have x8 := (hall H.OV7670_REG_VSTART (by simp)).1
  have x9 := (hall H.OV7670_REG_VSTOP (by simp)).1
  have x10 := (hall H.OV7670_REG_VREF (by simp)).1
  have x11 := (hall H.OV7670_REG_SCALING_PCLK_DELAY (by simp)).1
  have y1 := (hall H.OV7670_REG_COM3 (by simp)).2
  have y2 := (hall H.OV7670_REG_COM14 (by simp)).2
  have y3 := (hall H.OV7670_REG_SCALING_DCWCTR (by simp)).2
  have y4 := (hall H.OV7670_REG_SCALING_PCLK_DIV (by simp)).2
  have y5 := (hall H.OV7670_REG_HSTART (by simp)).2
  have y6 := (hall H.OV7670_REG_HSTOP (by simp)).2
  have y7 := (hall H.OV7670_REG_HREF (by simp)).2
  have y8 := (hall H.OV7670_REG_VSTART (by simp)).2
  have y9 := (hall H.OV7670_REG_VSTOP (by simp)).2
  have y10 := (hall H.OV7670_REG_VREF (by simp)).2
  have y11 := (hall H.OV7670_REG_SCALING_PCLK_DELAY (by simp)).2
  have hsz : size % 256 = size := Nat.mod_eq_of_lt (by omega)
  have zx := zoom_value (s.regs H.OV7670_REG_SCALING_XSC % 256) (Nat.mod_lt _ (by norm_num))
  have zy := zoom_value (s.regs H.OV7670_REG_SCALING_YSC % 256) (Nat.mod_lt _ (by norm_num))
  constructor
  · simp only [OV7670_frame_control, OV7670_write_register, OV7670_read_register,
      OV7670_SIZE_DIV16, hsz, if_neg x1, if_neg x2, if_neg x3, if_neg x4, if_neg x5,
      if_neg x6, if_neg x7, if_neg x8, if_neg x9, if_neg x10, if_neg x11, if_neg hxy,
      if_true]
    split_ifs
    · rw [show (64 : Nat) % 256 = 64 from rfl, zx.2]; omega
    · rw [show (32 : Nat) % 256 = 32 from rfl, zx.1]; omega
  · simp only [OV7670_frame_control, OV7670_write_register, OV7670_read_register,
      OV7670_SIZE_DIV16, hsz, if_neg y1, if_neg y2, if_neg y3, if_neg y4, if_neg y5,
      if_neg y6, if_neg y7, if_neg y8, if_neg y9, if_neg y10, if_neg y11, if_neg hyx,
      if_true]
    split_ifs
    · rw [show (64 : Nat) % 256 = 64 from rfl, zy.2]; omega
    · rw [show (32 : Nat) % 256 = 32 from rfl, zy.1]; omega

/-- Claim C11: for distinct registers SCALING_XSC and SCALING_YSC, every
initial content and every pattern 0..3, `OV7670_test_pattern` reads both
registers and then writes both, keeps bits 6:0 of each, sets bit 7 of XSC to
pattern bit 0 and bit 7 of YSC to pattern bit 1, and changes no other
register. -/
theorem test_pattern_preserves_scaling_bits (H : Header) (platform pattern : Nat)
    (s : Sensor) (hxy : H.OV7670_REG_SCALING_XSC ≠ H.OV7670_REG_SCALING_YSC)
    (hp : pattern ≤ 3) :
    (OV7670_test_pattern H platform pattern s).trace =
      s.trace ++
        [Event.read platform H.OV7670_REG_SCALING_XSC,
         Event.read platform H.OV7670_REG_SCALING_YSC,
         Event.write platform H.OV7670_REG_SCALING_XSC
           ((OV7670_test_pattern H platform pattern s).regs H.OV7670_REG_SCALING_XSC),
         Event.write platform H.OV7670_REG_SCALING_YSC
           ((OV7670_test_pattern H platform pattern s).regs H.OV7670_REG_SCALING_YSC)] ∧
    (OV7670_test_pattern H platform pattern s).regs H.OV7670_REG_SCALING_XSC &&& 0x7F =
      s.regs H.OV7670_REG_SCALING_XSC &&& 0x7F ∧
    (OV7670_test_pattern H platform pattern s).regs H.OV7670_REG_SCALING_YSC &&& 0x7F =
      s.regs H.OV7670_REG_SCALING_YSC &&& 0x7F ∧
    ((OV7670_test_pattern H platform pattern s).regs H.OV7670_REG_SCALING_XSC).testBit 7 =
      pattern.testBit 0 ∧
    ((OV7670_test_pattern H platform pattern s).regs H.OV7670_REG_SCALING_YSC).testBit 7 =
      pattern.testBit 1 ∧
    (∀ r, r ≠ H.OV7670_REG_SCALING_XSC → r ≠ H.OV7670_REG_SCALING_YSC →
      (OV7670_test_pattern H platform pattern s).regs r = s.regs r) := by
  obtain ⟨rx, ry⟩ := test_pattern_regs H platform pattern s hxy
  obtain ⟨p0, p1⟩ := pattern_bits pattern hp
  have bx := bits_of_low_plus_bit7 (s.regs H.OV7670_REG_SCALING_XSC % 128)
    (decide (pattern &&& 1 ≠ 0)) (Nat.mod_lt _ (by norm_num))
  have by1 := bits_of_low_plus_bit7 (s.regs H.OV7670_REG_SCALING_YSC % 128)
    (decide (pattern &&& 2 ≠ 0)) (Nat.mod_lt _ (by norm_num))
  refine ⟨?_, ?_, ?_, ?_, ?_, ?_⟩
  · simp only [OV7670_test_pattern, OV7670_write_register, OV7670_read_register,
      List.append_assoc, List.singleton_append, List.cons_append, List.nil_append,
      if_neg hxy, if_true]
  · rw [rx, bx.2, and_7F]
  · rw [ry, by1.2, and_7F]
  · rw [rx, bx.1, p0]
  · rw [ry, by1.1, p1]
  · intro r h1 h2
    simp only [OV7670_test_pattern, OV7670_write_register, OV7670_read_register,
      if_neg h1, if_neg h2]

/-- Instance of C11 at the data-sheet header, pattern 2, on a blank sensor. -/
theorem test_pattern_preserves_scaling_bits_witness :
    datasheet.OV7670_REG_SCALING_XSC ≠ datasheet.OV7670_REG_SCALING_YSC ∧ 2 ≤ 3 ∧
    ((OV7670_test_pattern datasheet 1 2 Sensor.blank).regs
      datasheet.OV7670_REG_SCALING_XSC).testBit 7 = Nat.testBit 2 0 ∧
    ((OV7670_test_pattern datasheet 1 2 Sensor.blank).regs
      datasheet.OV7670_REG_SCALING_YSC).testBit 7 = Nat.testBit 2 1 :=
  ⟨by decide, by decide,
    (test_pattern_preserves_scaling_bits datasheet 1 2 Sensor.blank (by decide)
      (by decide)).2.2.2.1,
    (test_pattern_preserves_scaling_bits datasheet 1 2 Sensor.blank (by decide)
      (by decide)).2.2.2.2.1⟩

/-- Claim C12: with the zoom registers distinct from each other and from the
other registers `OV7670_frame_control` writes, for every register file, size
0..4 and pattern 0..3, `OV7670_frame_control` followed by
`OV7670_test_pattern` leaves SCALING_XSC and SCALING_YSC with the same
contents as the opposite order: pattern bit 0 (resp. 1) in bit 7 and the zoom
value (0x40 at size 4, else 0x20) in bits 6:0. -/
theorem geometry_and_test_pattern_commute (H : Header)
    (platform size pattern vstart hstart edge_offset pclk_delay : Nat) (s : Sensor)
    (hd : ScalingRegsDistinct H) (hs : size ≤ 4) (hp : pattern ≤ 3) :
    (OV7670_test_pattern H platform pattern
        (OV7670_frame_control H platform size vstart hstart edge_offset pclk_delay
          s)).regs H.OV7670_REG_SCALING_XSC =
      (OV7670_frame_control H platform size vstart hstart edge_offset pclk_delay
        (OV7670_test_pattern H platform pattern s)).regs H.OV7670_REG_SCALING_XSC ∧
    (OV7670_test_pattern H platform pattern
        (OV7670_frame_control H platform size vstart hstart edge_offset pclk_delay
          s)).regs H.OV7670_REG_SCALING_YSC =
      (OV7670_frame_control H platform size vstart hstart edge_offset pclk_delay
        (OV7670_test_pattern H platform pattern s)).regs H.OV7670_REG_SCALING_YSC ∧
    ((OV7670_test_pattern H platform pattern
        (OV7670_frame_control H platform size vstart hstart edge_offset pclk_delay
          s)).regs H.OV7670_REG_SCALING_XSC).testBit 7 = pattern.testBit 0 ∧
    ((OV7670_test_pattern H platform pattern
        (OV7670_frame_control H platform size vstart hstart edge_offset pclk_delay
          s)).regs H.OV7670_REG_SCALING_YSC).testBit 7 = pattern.testBit 1 ∧
    (OV7670_test_pattern H platform pattern
        (OV7670_frame_control H platform size vstart hstart edge_offset pclk_delay
          s)).regs H.OV7670_REG_SCALING_XSC &&& 0x7F =
      (if size = 4 then 0x40 else 0x20) ∧
    (OV7670_test_pattern H platform pattern
        (OV7670_frame_control H platform size vstart hstart edge_offset pclk_delay
          s)).regs H.OV7670_REG_SCALING_YSC &&& 0x7F =
      (if size = 4 then 0x40 else 0x20) := by
  obtain ⟨p0, p1⟩ := pattern_bits pattern hp
  obtain ⟨fx, fy⟩ := frame_control_zoom_regs H platform size vstart hstart edge_offset
    pclk_delay s hd hs
  obtain ⟨tx, ty⟩ := test_pattern_regs H platform pattern s hd.1
  obtain ⟨ftx, fty⟩ := test_pattern_regs H platform pattern
    (OV7670_frame_control H platform size vstart hstart edge_offset pclk_delay s) hd.1
  obtain ⟨tfx, tfy⟩ := frame_control_zoom_regs H platform size vstart hstart edge_offset
    pclk_delay (OV7670_test_pattern H platform pattern s) hd hs
  have hz : (if size = 4 then 0x40 else 0x20 : Nat) < 128 := by split_ifs <;> norm_num
  have lowx : (OV7670_frame_control H platform size vstart hstart edge_offset pclk_delay
      s).regs H.OV7670_REG_SCALING_XSC % 128 = (if size = 4 then 0x40 else 0x20) := by
    rw [fx]; omega
  have lowy : (OV7670_frame_control H platform size vstart hstart edge_offset pclk_delay
      s).regs H.OV7670_REG_SCALING_YSC % 128 = (if size = 4 then 0x40 else 0x20) := by
    rw [fy]; omega
  have bx := bits_of_low_plus_bit7 (if size = 4 then 0x40 else 0x20)
    (decide (pattern &&& 1 ≠ 0)) hz
  have by1 := bits_of_low_plus_bit7 (if size = 4 then 0x40 else 0x20)
    (decide (pattern &&& 2 ≠ 0)) hz
  rw [lowx] at ftx
  rw [lowy] at fty
  refine ⟨?_, ?_, ?_, ?_, ?_, ?_⟩
  · rw [ftx, tfx, tx]
    split_ifs <;> omega
  · rw [fty, tfy, ty]
    split_ifs <;> omega
  · rw [ftx, bx.1, p0]
  · rw [fty, by1.1, p1]
  · rw [ftx, bx.2]
  · rw [fty, by1.2]

/-- Instance of C12 at the data-sheet header, size 4, pattern 1. -/
theorem geometry_and_test_pattern_commute_witness :
    ScalingRegsDistinct datasheet ∧ 4 ≤ 4 ∧ 1 ≤ 3 ∧
    (OV7670_test_pattern datasheet 1 1
        (OV7670_frame_control datasheet 1 4 15 252 3 2
          Sensor.blank)).regs datasheet.OV7670_REG_SCALING_XSC =
      (OV7670_frame_control datasheet 1 4 15 252 3 2
        (OV7670_test_pattern datasheet 1 1 Sensor.blank)).regs
          datasheet.OV7670_REG_SCALING_XSC :=
  ⟨by decide, by decide, by decide,
    (geometry_and_test_pattern_commute datasheet 1 4 1 15 252 3 2 Sensor.blank
      (by decide) (by decide) (by decide)).1⟩

/-! ## Claims on the command list player -/

/-- Events of playing one command: the write, then the 1 ms delay. -/
theorem play_step_trace (platform : Nat) (c : OV7670_command) (s : Sensor) :
    (OV7670_delay_ms 1 (OV7670_write_register platform c.reg c.value s)).trace =
      s.trace ++ [Event.write platform c.reg (c.value % 256), Event.delay 1] := by
  simp only [OV7670_delay_ms, OV7670_write_register, List.append_assoc,
    List.singleton_append]

theorem play_fold_trace (platform : Nat) (l : List OV7670_command) :
    ∀ s : Sensor,
    (l.foldl (fun s c =>
        OV7670_delay_ms 1 (OV7670_write_register platform c.reg c.value s)) s).trace =
      s.trace ++ l.flatMap (fun c =>
        [Event.write platform c.reg (c.value % 256), Event.delay 1]) := by
  induction l with
  | nil => intro s; simp
  | cons c l ih =>
    intro s
    rw [List.foldl_cons, ih, play_step_trace, List.flatMap_cons, List.append_assoc]

theorem write_list_len_fold (platform : Nat) (cmd : List OV7670_command) (s : Sensor) :
    ∀ n, n ≤ cmd.length →
    (List.range n).foldlM (write_list_len_body platform cmd) s =
      some ((cmd.take n).foldl (fun s c =>
        OV7670_delay_ms 1 (OV7670_write_register platform c.reg c.value s)) s) := by
  intro n
  induction n with
  | zero => intro _; rfl
  | succ n ih =>
    intro hn
    have hlt : n < cmd.length := hn
    rw [List.range_succ, List.foldlM_append, ih (Nat.le_of_lt hlt)]
    simp only [Option.bind_eq_bind, Option.some_bind, List.foldlM_cons, List.foldlM_nil,
      write_list_len_body, List.getElem?_eq_getElem hlt, Option.bind_some,
      List.take_succ, List.foldl_append, Option.toList, List.foldl_cons, List.foldl_nil]
    rfl

/-- Claim C13: when the array holds at least `len` commands,
`OV7670_write_list_len` returns, and its trace is the trace before followed,
for each of the first `len` commands in order, by the write of (reg, value)
and a 1 ms delay, and nothing else; for `len ≤ 0` the sensor is untouched. -/
theorem write_list_len_trace (platform : Nat) (cmd : List OV7670_command)
    (len : Int) (s : Sensor) (h : len.toNat ≤ cmd.length) :
    ∃ s1, OV7670_write_list_len platform cmd len s = some s1 ∧
      s1.trace = s.trace ++ (cmd.take len.toNat).flatMap (fun c =>
        [Event.write platform c.reg (c.value % 256), Event.delay 1]) ∧
      (len ≤ 0 → s1 = s) := by
  refine ⟨_, write_list_len_fold platform cmd s len.toNat h, play_fold_trace _ _ _, ?_⟩
  intro hle
  rw [Int.toNat_eq_zero.mpr hle]
  rfl

/-- Instance of C13: two commands played out of a three-element array. -/
theorem write_list_len_trace_witness :
    (2 : Int).toNat ≤ [OV7670_command.mk 0x12 0x80, ⟨0x2C, 0xFF⟩, ⟨0x11, 0x01⟩].length ∧
    ∃ s1, OV7670_write_list_len 1 [⟨0x12, 0x80⟩, ⟨0x2C, 0xFF⟩, ⟨0x11, 0x01⟩] 2
        Sensor.blank = some s1 ∧
      s1.trace = Sensor.blank.trace ++
        ([OV7670_command.mk 0x12 0x80, ⟨0x2C, 0xFF⟩, ⟨0x11, 0x01⟩].take
          (2 : Int).toNat).flatMap (fun c =>
            [Event.write 1 c.reg (c.value % 256), Event.delay 1]) ∧
      ((2 : Int) ≤ 0 → s1 = Sensor.blank) :=
  ⟨by decide,
    write_list_len_trace 1 [⟨0x12, 0x80⟩, ⟨0x2C, 0xFF⟩, ⟨0x11, 0x01⟩] 2 Sensor.blank
      (by decide)⟩

/-- Claim C14, the code at a failing input: on the dual-0xFF-terminated list
`{0x12,0x80}, {0x2C,0xFF}, {0x2E,0xDF}, {0xFF,0xFF}` the loop of
`OV7670_write_list` stops at `{0x2C,0xFF}`, whose value alone is 0xFF: only
the first pair is written, not the three pairs before the terminator. -/
theorem write_list_stops_at_single_FF :
    (OV7670_write_list 1
        [⟨0x12, 0x80⟩, ⟨0x2C, 0xFF⟩, ⟨0x2E, 0xDF⟩, ⟨0xFF, 0xFF⟩] Sensor.blank).map
      Sensor.trace = some [Event.write 1 0x12 0x80, Event.delay 1] := by
  rfl

/-! ## Claims on `OV7670_begin` -/

/-- A list holding the `{0xFF, 0xFF}` end marker is played to an end: the loop
of `OV7670_write_list` stops inside the array. -/
theorem write_list_returns (platform : Nat) (cmd : List OV7670_command)
    (h : OV7670_command.mk 0xFF 0xFF ∈ cmd) :
    ∀ s : Sensor, ∃ s1, OV7670_write_list platform cmd s = some s1 := by
  induction cmd with
  | nil => exact absurd h (List.not_mem_nil _)
  | cons c rest ih =>
    intro s
    unfold OV7670_write_list
    split_ifs with hc
    · rcases List.mem_cons.mp h with heq | hmem
      · exact absurd (congrArg OV7670_command.reg heq).symm hc.1
      · exact ih hmem _
    · exact ⟨s, rfl⟩

/-- Claim C15: when `OV7670_arch_begin` returns a status other than
`OV7670_STATUS_OK`, `OV7670_begin` returns that status and the trace holds
nothing after the bring-up call: no delay, pin operation or register write.
When it returns `OV7670_STATUS_OK` (the command tables carrying their end
marker and the size being one of the five), `OV7670_begin` returns
`OV7670_STATUS_OK`. -/
theorem begin_propagates_arch_status (H : Header) (T : Tables)
    (arch_begin : OV7670_host → Nat) (host : OV7670_host) (colorspace size : Nat)
    (fps : ℚ) (s : Sensor) :
    (arch_begin host ≠ H.OV7670_STATUS_OK →
      OV7670_begin H T arch_begin host colorspace size fps s =
        some (arch_begin host, { s with trace := s.trace ++ [Event.arch_begin] })) ∧
    (arch_begin host = H.OV7670_STATUS_OK →
      OV7670_command.mk 0xFF 0xFF ∈ T.OV7670_rgb →
      OV7670_command.mk 0xFF 0xFF ∈ T.OV7670_yuv →
      OV7670_command.mk 0xFF 0xFF ∈ T.OV7670_init →
      size ≤ 4 →
      ∃ s1, OV7670_begin H T arch_begin host colorspace size fps s =
        some (H.OV7670_STATUS_OK, s1)) := by
  constructor
  · intro hne
    unfold OV7670_begin
    simp only [hne, ne_eq, not_false_eq_true, if_true]
  · intro hok hrgb hyuv hinit hsize
    have hcs : OV7670_command.mk 0xFF 0xFF ∈
        (if colorspace = H.OV7670_COLOR_RGB then T.OV7670_rgb else T.OV7670_yuv) := by
      split_ifs
      · exact hrgb
      · exact hyuv
    unfold OV7670_begin
    simp only [hok, ne_eq, not_true_eq_false, if_false]
    generalize (OV7670_set_fps H host.platform fps _).2 = st
    obtain ⟨s1, h1⟩ := write_list_returns host.platform _ hcs st
    obtain ⟨s2, h2⟩ := write_list_returns host.platform _ hinit s1
    have h3 : ∃ s3, OV7670_set_size H host.platform size s2 = some s3 := by
      have hcases : size = 0 ∨ size = 1 ∨ size = 2 ∨ size = 3 ∨ size = 4 := by omega
      rcases hcases with rfl | rfl | rfl | rfl | rfl <;> exact ⟨_, rfl⟩
    obtain ⟨s3, h3⟩ := h3
    refine ⟨OV7670_delay_ms 300 s3, ?_⟩
    simp only [h1, h2, h3, Option.bind_eq_bind, Option.some_bind, Option.bind_some]

/-- Instance of C15: a bring-up returning status 1 on the data-sheet header
(where `OV7670_STATUS_OK` is 0), and one returning `OV7670_STATUS_OK` with
tables that hold only the end marker. -/
theorem begin_propagates_arch_status_witness :
    OV7670_begin datasheet ⟨[⟨0xFF, 0xFF⟩], [⟨0xFF, 0xFF⟩], [⟨0xFF, 0xFF⟩]⟩ (fun _ => 1)
        ⟨⟨-1, -1, 0, 1, 2, 3, [4, 5, 6, 7, 8, 9, 10, 11]⟩, 1⟩ 0 0 30 Sensor.blank =
      some (1, { Sensor.blank with trace := Sensor.blank.trace ++ [Event.arch_begin] }) ∧
    ∃ s1, OV7670_begin datasheet ⟨[⟨0xFF, 0xFF⟩], [⟨0xFF, 0xFF⟩], [⟨0xFF, 0xFF⟩]⟩
        (fun _ => 0) ⟨⟨-1, -1, 0, 1, 2, 3, [4, 5, 6, 7, 8, 9, 10, 11]⟩, 1⟩ 0 0 30
        Sensor.blank = some (datasheet.OV7670_STATUS_OK, s1) :=
  ⟨(begin_propagates_arch_status datasheet ⟨[⟨0xFF, 0xFF⟩], [⟨0xFF, 0xFF⟩], [⟨0xFF, 0xFF⟩]⟩
      (fun _ => 1) ⟨⟨-1, -1, 0, 1, 2, 3, [4, 5, 6, 7, 8, 9, 10, 11]⟩, 1⟩ 0 0 30
      Sensor.blank).1 (by decide),
    (begin_propagates_arch_status datasheet ⟨[⟨0xFF, 0xFF⟩], [⟨0xFF, 0xFF⟩], [⟨0xFF, 0xFF⟩]⟩
      (fun _ => 0) ⟨⟨-1, -1, 0, 1, 2, 3, [4, 5, 6, 7, 8, 9, 10, 11]⟩, 1⟩ 0 0 30
      Sensor.blank).2 rfl (by decide) (by decide) (by decide) (by decide)⟩

/-! ## Claims on `OV7670_capture` -/

theorem wait_while_mono (cond : Nat → Bool) (ev : CapEvent) :
    ∀ (n : Nat) (st st1 : CapState), wait_while cond ev n st = some st1 →
      ∀ m, n ≤ m → wait_while cond ev m st = some st1 := by
  intro n
  induction n with
  | zero => intro st st1 h; simp [wait_while] at h
  | succ n ih =>
    intro st st1 h m hm
    obtain ⟨k, rfl⟩ : ∃ k, m = k + 1 := ⟨m - 1, by omega⟩
    simp only [wait_while] at h ⊢
    split_ifs at h ⊢ with hc
    · exact ih _ _ h k (by omega)
    · exact h

/-- A polling loop whose condition is false at some read from now on exits,
having made `k ≥ 1` reads and nothing else. -/
theorem wait_while_exits (cond : Nat → Bool) (ev : CapEvent) :
    ∀ (d : Nat) (st : CapState), cond (st.t + d) = false →
      ∃ k n, 1 ≤ k ∧ ∀ fuel, n ≤ fuel → wait_while cond ev fuel st =
        some { t := st.t + k, dest := st.dest, trace := st.trace ++ List.replicate k ev } := by
  intro d
  induction d with
  | zero =>
    intro st h
    refine ⟨1, 1, le_refl _, fun fuel hf => ?_⟩
    apply wait_while_mono cond ev 1 _ _ _ fuel hf
    simp only [Nat.add_zero] at h
    simp [wait_while, h]
  | succ d ih =>
    intro st h
    by_cases hc : cond st.t = true
    · obtain ⟨k, n, hk, hrun⟩ := ih { st with t := st.t + 1, trace := st.trace ++ [ev] }
        (by simpa [Nat.add_assoc, Nat.add_comm 1 d] using h)
      refine ⟨k + 1, n + 1, by omega, fun fuel hf => ?_⟩
      apply wait_while_mono cond ev (n + 1) _ _ _ fuel hf
      simp only [wait_while, hc, if_true]
      rw [hrun n (le_refl _)]
      simp [List.replicate_succ, Nat.add_assoc, Nat.add_comm 1 k]
    · refine ⟨1, 1, le_refl _, fun fuel hf => ?_⟩
      apply wait_while_mono cond ev 1 _ _ _ fuel hf
      simp [wait_while, hc]

theorem filter_replicate_read (k : Nat) (ev : CapEvent) (h : isIntOrStore ev = false) :
    (List.replicate k ev).filter isIntOrStore = [] := by
  rw [List.filter_eq_nil_iff]
  intro a ha
  rw [List.eq_of_mem_replicate ha, h]
  exact Bool.false_ne_true

/-- One pixel pair: some reads of the data-ready flag, then one store to the
current destination word. -/
theorem capture_pixel_runs (env : CaptureEnv)
    (hdr : ∀ t, ∃ u, t ≤ u ∧ env.drdy u = true) (st : CapState) :
    ∃ n st1 v seg, (∀ fuel, n ≤ fuel → capture_pixel env fuel st = some st1) ∧
      st1.trace = st.trace ++ seg ∧ st1.dest = st.dest + 1 ∧
      seg.filter isIntOrStore = [CapEvent.store st.dest v] ∧
      CapEvent.read_vsync ∉ seg := by
  obtain ⟨u, hu, hd⟩ := hdr st.t
  obtain ⟨k, n, _, hrun⟩ := wait_while_exits (fun t => !env.drdy t) CapEvent.read_drdy
    (u - st.t) st (by simp [Nat.add_sub_cancel' hu, hd])
  refine ⟨n,
    { t := st.t + k + 1, dest := st.dest + 1,
      trace := st.trace ++ List.replicate k CapEvent.read_drdy ++
        [CapEvent.store st.dest (env.rhr (st.t + k) % 65536)] },
    env.rhr (st.t + k) % 65536,
    List.replicate k CapEvent.read_drdy ++
      [CapEvent.store st.dest (env.rhr (st.t + k) % 65536)],
    fun fuel hf => by simp only [capture_pixel, hrun fuel hf, Option.map_some'], ?_, rfl,
    ?_, ?_⟩
  · simp only [List.append_assoc]
  · rw [List.filter_append, filter_replicate_read k CapEvent.read_drdy rfl]
    rfl
  · simp only [List.mem_append, List.mem_replicate, List.mem_singleton, not_or]
    exact ⟨fun h => by simp at h, fun h => by simp at h⟩

theorem storesFrom_cons (d v : Nat) (vals : List Nat) :
    storesFrom d (v :: vals) = CapEvent.store d v :: storesFrom (d + 1) vals := by
  simp [storesFrom, List.enumFrom_cons]

theorem storesFrom_append (d : Nat) (a b : List Nat) :
    storesFrom d (a ++ b) = storesFrom d a ++ storesFrom (d + a.length) b := by
  simp [storesFrom, List.enumFrom_append]

theorem capture_pixels_run (env : CaptureEnv)
    (hdr : ∀ t, ∃ u, t ≤ u ∧ env.drdy u = true) :
    ∀ (w : Nat) (st : CapState),
    ∃ n st1 vals seg,
      (∀ fuel, n ≤ fuel → repeat_steps (capture_pixel env fuel) w st = some st1) ∧
      st1.trace = st.trace ++ seg ∧ st1.dest = st.dest + w ∧ vals.length = w ∧
      seg.filter isIntOrStore = storesFrom st.dest vals ∧
      CapEvent.read_vsync ∉ seg := by
  intro w
  induction w with
  | zero =>
    intro st
    exact ⟨0, st, [], [], fun _ _ => rfl, by simp, rfl, rfl, rfl, List.not_mem_nil _⟩
  | succ w ih =>
    intro st
    obtain ⟨n1, st1, v, seg1, r1, t1, d1, f1, nv1⟩ := capture_pixel_runs env hdr st
    obtain ⟨n2, st2, vals, seg2, r2, t2, d2, l2, f2, nv2⟩ := ih st1
    refine ⟨max n1 n2, st2, v :: vals, seg1 ++ seg2, fun fuel hf => ?_, ?_, ?_, ?_, ?_, ?_⟩
    · simp only [repeat_steps, r1 fuel (le_trans (le_max_left _ _) hf), Option.some_bind,
        r2 fuel (le_trans (le_max_right _ _) hf)]
    · rw [t2, t1, List.append_assoc]
    · rw [d2, d1]; omega
    · simp [l2]
    · rw [List.filter_append, f1, f2, d1, storesFrom_cons]; rfl
    · simp only [List.mem_append, not_or]; exact ⟨nv1, nv2⟩

/-- One row: reads of the horizontal sync, then `w` pixel pairs. -/
theorem capture_row_runs (env : CaptureEnv) (hsync_bit w : Nat)
    (hlow : ∀ t, ∃ u, t ≤ u ∧ env.hsync_reg u &&& hsync_bit = 0)
    (hhigh : ∀ t, ∃ u, t ≤ u ∧ lnot (env.hsync_reg u) &&& hsync_bit = 0)
    (hdr : ∀ t, ∃ u, t ≤ u ∧ env.drdy u = true) (st : CapState) :
    ∃ n st1 vals seg,
      (∀ fuel, n ≤ fuel → capture_row env fuel hsync_bit w st = some st1) ∧
      st1.trace = st.trace ++ seg ∧ st1.dest = st.dest + w ∧ vals.length = w ∧
      seg.filter isIntOrStore = storesFrom st.dest vals ∧
      CapEvent.read_vsync ∉ seg := by
  obtain ⟨u1, hu1, hc1⟩ := hlow st.t
  obtain ⟨k1, n1, _, r1⟩ := wait_while_exits
    (fun t => decide (env.hsync_reg t &&& hsync_bit ≠ 0)) CapEvent.read_hsync
    (u1 - st.t) st (by simp [Nat.add_sub_cancel' hu1, hc1])
  obtain ⟨u2, hu2, hc2⟩ := hhigh (st.t + k1)
  obtain ⟨k2, n2, _, r2⟩ := wait_while_exits
    (fun t => decide (lnot (env.hsync_reg t) &&& hsync_bit ≠ 0)) CapEvent.read_hsync
    (u2 - (st.t + k1))
    { t := st.t + k1, dest := st.dest,
      trace := st.trace ++ List.replicate k1 CapEvent.read_hsync }
    (by simp [Nat.add_sub_cancel' hu2, hc2])
  obtain ⟨n3, st3, vals, seg3, r3, t3, d3, l3, f3, nv3⟩ := capture_pixels_run env hdr w
    { t := st.t + k1 + k2, dest := st.dest,
      trace := st.trace ++ List.replicate k1 CapEvent.read_hsync ++
        List.replicate k2 CapEvent.read_hsync }
  refine ⟨max n1 (max n2 n3), st3, vals,
    List.replicate k1 CapEvent.read_hsync ++ (List.replicate k2 CapEvent.read_hsync ++ seg3),
    fun fuel hf => ?_, ?_, d3, l3, ?_, ?_⟩
  · have h1 : n1 ≤ fuel := le_trans (le_max_left _ _) hf
    have h2 : n2 ≤ fuel := le_trans (le_trans (le_max_left _ _) (le_max_right _ _)) hf
    have h3 : n3 ≤ fuel := le_trans (le_trans (le_max_right _ _) (le_max_right _ _)) hf
    simp only [capture_row, r1 fuel h1, r2 fuel h2, r3 fuel h3, Option.bind_eq_bind,
      Option.some_bind]
  · rw [t3]; simp only [List.append_assoc]
  · rw [List.filter_append, List.filter_append, filter_replicate_read k1 CapEvent.read_hsync rfl,
      filter_replicate_read k2 CapEvent.read_hsync rfl, f3]
    rfl
  · simp only [List.mem_append, List.mem_replicate, not_or]
    exact ⟨fun h => by simp at h, fun h => by simp at h, nv3⟩

theorem capture_rows_run (env : CaptureEnv) (hsync_bit w : Nat)
    (hlow : ∀ t, ∃ u, t ≤ u ∧ env.hsync_reg u &&& hsync_bit = 0)
    (hhigh : ∀ t, ∃ u, t ≤ u ∧ lnot (env.hsync_reg u) &&& hsync_bit = 0)
    (hdr : ∀ t, ∃ u, t ≤ u ∧ env.drdy u = true) :
    ∀ (h : Nat) (st : CapState),
    ∃ n st1 vals, ∃ rows : List (List CapEvent),
      (∀ fuel, n ≤ fuel →
        repeat_steps (capture_row env fuel hsync_bit w) h st = some st1) ∧
      st1.trace = st.trace ++ rows.flatten ∧ st1.dest = st.dest + h * w ∧
      vals.length = h * w ∧
      rows.flatten.filter isIntOrStore = storesFrom st.dest vals ∧
      rows.length = h ∧
      ∀ row ∈ rows, CapEvent.read_vsync ∉ row ∧
        ∃ d rv, rv.length = w ∧ row.filter isIntOrStore = storesFrom d rv := by
  intro h
  induction h with
  | zero =>
    intro st
    exact ⟨0, st, [], [], fun _ _ => rfl, by simp, by simp, by simp, rfl, rfl,
      fun row hrow => absurd hrow (List.not_mem_nil _)⟩
  | succ h ih =>
    intro st
    obtain ⟨n1, st1, rv, seg, r1, t1, d1, l1, f1, nv1⟩ :=
      capture_row_runs env hsync_bit w hlow hhigh hdr st
    obtain ⟨n2, st2, vals, rows, r2, t2, d2, l2, f2, len2, all2⟩ := ih st1
    refine ⟨max n1 n2, st2, rv ++ vals, seg :: rows, fun fuel hf => ?_, ?_, ?_, ?_, ?_, ?_,
      ?_⟩
    · simp only [repeat_steps, r1 fuel (le_trans (le_max_left _ _) hf), Option.some_bind,
        r2 fuel (le_trans (le_max_right _ _) hf)]
    · rw [t2, t1, List.flatten_cons, List.append_assoc]
    · rw [d2, d1, Nat.succ_mul]; omega
    · rw [List.length_append, l1, l2, Nat.succ_mul]; omega
    · rw [List.flatten_cons, List.filter_append, f1, f2, d1, storesFrom_append, l1]
    · rw [List.length_cons, len2]
    · intro row hrow
      rcases List.mem_cons.mp hrow with rfl | hmem
      · exact ⟨nv1, st.dest, rv, l1, f1⟩
      · exact all2 row hmem

/-- Claim C17: when every polling loop ends, `OV7670_capture` returns (for any
large enough bound on the polls of a loop), and in its trace the interrupt and
store events are exactly: disable, `height * (width / 2)` stores to
consecutive words from `dest` on, enable.  The disable stands between the
reads of the first vsync wait and those of the second, and the rest is
`height` rows of `width / 2` stores each, followed by the enable. -/
theorem capture_trace (env : CaptureEnv) (width height vsync_bit hsync_bit : Nat)
    (hw : width < 65536) (hh : height < 65536)
    (hwait : WaitsTerminate env vsync_bit hsync_bit) :
    ∃ n st,
      (∀ fuel, n ≤ fuel →
        OV7670_capture env fuel width height vsync_bit hsync_bit = some st) ∧
      (∃ vals, vals.length = height * (width / 2) ∧
        st.trace.filter isIntOrStore =
          CapEvent.disable_interrupts :: (storesFrom 0 vals ++
            [CapEvent.enable_interrupts])) ∧
      (∃ k1 k2, ∃ rows : List (List CapEvent), 1 ≤ k1 ∧ 1 ≤ k2 ∧
        st.trace = List.replicate k1 CapEvent.read_vsync ++
          (CapEvent.disable_interrupts :: (List.replicate k2 CapEvent.read_vsync ++
            (rows.flatten ++ [CapEvent.enable_interrupts]))) ∧
        rows.length = height ∧
        ∀ row ∈ rows, CapEvent.read_vsync ∉ row ∧
          ∃ d rv, rv.length = width / 2 ∧ row.filter isIntOrStore = storesFrom d rv) := by
  have hvl : ∀ t, ∃ u, t ≤ u ∧ env.vsync_reg u &&& vsync_bit = 0 := fun t => (hwait t).1
  have hvh : ∀ t, ∃ u, t ≤ u ∧ lnot (env.vsync_reg u) &&& vsync_bit = 0 :=
    fun t => (hwait t).2.1
  have hhl : ∀ t, ∃ u, t ≤ u ∧ env.hsync_reg u &&& hsync_bit = 0 := fun t => (hwait t).2.2.1
  have hhh : ∀ t, ∃ u, t ≤ u ∧ lnot (env.hsync_reg u) &&& hsync_bit = 0 :=
    fun t => (hwait t).2.2.2.1
  have hdr : ∀ t, ∃ u, t ≤ u ∧ env.drdy u = true := fun t => (hwait t).2.2.2.2
  obtain ⟨u1, _, hc1⟩ := hvl 0
  obtain ⟨k1, n1, hk1, r1⟩ := wait_while_exits
    (fun t => decide (env.vsync_reg t &&& vsync_bit ≠ 0)) CapEvent.read_vsync u1
    { t := 0, dest := 0, trace := [] } (by simp [hc1])
  obtain ⟨u2, hu2, hc2⟩ := hvh (0 + k1)
  obtain ⟨k2, n2, hk2, r2⟩ := wait_while_exits
    (fun t => decide (lnot (env.vsync_reg t) &&& vsync_bit ≠ 0)) CapEvent.read_vsync
    (u2 - (0 + k1))
    { t := 0 + k1, dest := 0,
      trace := [] ++ List.replicate k1 CapEvent.read_vsync ++
        [CapEvent.disable_interrupts] }
    (by simp only [Nat.add_sub_cancel' hu2, hc2]; simp)
  obtain ⟨n3, st3, vals, rows, r3, t3, _, l3, f3, len3, all3⟩ :=
    capture_rows_run env hsync_bit (width / 2) hhl hhh hdr height
      { t := 0 + k1 + k2, dest := 0,
        trace := [] ++ List.replicate k1 CapEvent.read_vsync ++
          [CapEvent.disable_interrupts] ++ List.replicate k2 CapEvent.read_vsync }
  refine ⟨max n1 (max n2 n3),
    { st3 with trace := st3.trace ++ [CapEvent.enable_interrupts] },
    fun fuel hf => ?_, ⟨vals, l3, ?_⟩, ⟨k1, k2, rows, hk1, hk2, ?_, len3, all3⟩⟩
  · have h1 : n1 ≤ fuel := le_trans (le_max_left _ _) hf
    have h2 : n2 ≤ fuel := le_trans (le_trans (le_max_left _ _) (le_max_right _ _)) hf
    have h3 : n3 ≤ fuel := le_trans (le_trans (le_max_right _ _) (le_max_right _ _)) hf
    simp only [OV7670_capture, r1 fuel h1, r2 fuel h2, Nat.mod_eq_of_lt hw,
      Nat.mod_eq_of_lt hh, r3 fuel h3, Option.bind_eq_bind, Option.some_bind]
  · simp only [t3, List.nil_append, List.filter_append, f3,
      filter_replicate_read k1 CapEvent.read_vsync rfl,
      filter_replicate_read k2 CapEvent.read_vsync rfl, List.append_nil]
    rfl
  · simp only [t3, List.nil_append, List.append_assoc, List.singleton_append,
      List.cons_append]

/-- Instance of C17: idle sync lines and data always ready, masks on bit 1,
a 4 x 2 frame. -/
theorem capture_trace_witness :
    4 < 65536 ∧ 2 < 65536 ∧
    WaitsTerminate ⟨fun _ => 0, fun _ => 0, fun _ => true, fun t => t⟩ 2 2 ∧
    ∃ n st,
      (∀ fuel, n ≤ fuel →
        OV7670_capture ⟨fun _ => 0, fun _ => 0, fun _ => true, fun t => t⟩ fuel 4 2 2 2 =
          some st) ∧
      (∃ vals, vals.length = 2 * (4 / 2) ∧
        st.trace.filter isIntOrStore =
          CapEvent.disable_interrupts :: (storesFrom 0 vals ++
            [CapEvent.enable_interrupts])) :=
  have hw : WaitsTerminate ⟨fun _ => 0, fun _ => 0, fun _ => true, fun t => t⟩ 2 2 :=
    have h0 : (0 : Nat) &&& 2 = 0 := by decide
    have h1 : lnot 0 &&& 2 = 0 := by decide
    fun t => ⟨⟨t, le_refl t, h0⟩, ⟨t, le_refl t, h1⟩, ⟨t, le_refl t, h0⟩,
      ⟨t, le_refl t, h1⟩, ⟨t, le_refl t, rfl⟩⟩
  ⟨by decide, by decide, hw,
    (capture_trace ⟨fun _ => 0, fun _ => 0, fun _ => true, fun t => t⟩ 4 2 2 2
      (by decide) (by decide) hw).imp fun _ h => h.imp fun _ h2 => ⟨h2.1, h2.2.1⟩⟩

/-! ## End-to-end scenarios -/

set_option maxRecDepth 100000 in
/-- Claim C18: with an input clock of 24 MHz and a non-NULL platform,
`OV7670_set_fps(platform, 30)` returns exactly 30 and its only register
writes are `DBLV <- 0` then `CLKRC <- 0x40`, the 1:1 bypass encoding. -/
theorem set_fps_30_at_24MHz (H : Header) (platform : Nat) (s : Sensor)
    (hx : H.OV7670_XCLK_HZ = 24000000) (hp : platform ≠ 0) :
    (OV7670_set_fps H platform 30 s).1 = 30 ∧
    (OV7670_set_fps H platform 30 s).2.trace =
      s.trace ++ [Event.write platform H.OV7670_REG_DBLV 0,
        Event.write platform H.OV7670_REG_CLKRC 0x40] := by
  have hs : ¬ (pclk_target_of (clamp_fps 30) <
      f32 (((H.OV7670_XCLK_HZ / 32) % 2 ^ 32 : Nat) : ℚ)) := by
    rw [hx]; decide!
  have hb : set_fps_search H.OV7670_XCLK_HZ (clamp_fps 30) (pclk_target_of (clamp_fps 30)) =
      ⟨0, 1, 0⟩ := by
    rw [hx]; exact set_fps_search_24MHz_30fps
  obtain ⟨h1, h2⟩ := set_fps_search_result H platform 30 s _ hs hb hp
  constructor
  · rw [h1]; decide!
  · rw [h2]; rfl

/-- Instance of C18 at the data-sheet header. -/
theorem set_fps_30_at_24MHz_witness :
    datasheet.OV7670_XCLK_HZ = 24000000 ∧ (1 : Nat) ≠ 0 ∧
    (OV7670_set_fps datasheet 1 30 Sensor.blank).1 = 30 ∧
    (OV7670_set_fps datasheet 1 30 Sensor.blank).2.trace =
      Sensor.blank.trace ++ [Event.write 1 datasheet.OV7670_REG_DBLV 0,
        Event.write 1 datasheet.OV7670_REG_CLKRC 0x40] :=
  ⟨rfl, by decide, set_fps_30_at_24MHz datasheet 1 Sensor.blank rfl (by decide)⟩

/-- Claim C19: `OV7670_set_size(platform, 0)` is `OV7670_frame_control` on
`vstart = 9`, `hstart = 162`; its last seven writes are `HSTART <- 20`,
`HSTOP <- 2`, `HREF <- 0x92`, `VSTART <- 2`, `VSTOP <- 122`, `VREF <- 0x05`,
`SCALING_PCLK_DELAY <- 2`, which encode `vstop = 489` and
`hstop = 802 mod 784 = 18`. -/
theorem set_size_0_window (H : Header) (platform : Nat) (s : Sensor) :
    ∃ s1, OV7670_set_size H platform 0 s = some s1 ∧
      s1 = OV7670_frame_control H platform 0 9 162 2 2 s ∧
      s1.trace.drop (s.trace.length + 8) =
        [Event.write platform H.OV7670_REG_HSTART 20,
         Event.write platform H.OV7670_REG_HSTOP 2,
         Event.write platform H.OV7670_REG_HREF 0x92,
         Event.write platform H.OV7670_REG_VSTART 2,
         Event.write platform H.OV7670_REG_VSTOP 122,
         Event.write platform H.OV7670_REG_VREF 0x05,
         Event.write platform H.OV7670_REG_SCALING_PCLK_DELAY 2] ∧
      (9 + 480 = 489 ∧ (162 + 640) % 784 = 18) ∧
      ((20 <<< 3 ||| (0x92 &&& 7)) = 162 ∧ (2 <<< 3 ||| ((0x92 >>> 3) &&& 7)) = 18 ∧
        (2 <<< 2 ||| (0x05 &&& 3)) = 9 ∧ (122 <<< 2 ||| ((0x05 >>> 2) &&& 3)) = 489) := by
  refine ⟨_, rfl, rfl, ?_, by decide, by decide⟩
  simp [OV7670_frame_control, OV7670_write_register, OV7670_read_register]
  decide

set_option maxRecDepth 100000 in
/-- Claim C20 as stated fails: with a 32 MHz input clock a 1 fps request is
below the floor (`XCLK / 32 = 1000000 > 800000`), and `OV7670_set_fps` writes
`DBLV <- 0`, no clock multiplication, not the maximum multiplier (index 3,
`DBLV = 0xC0`); the divider is the maximum, `CLKRC <- 31`. -/
theorem set_fps_floor_not_max_multiplier :
    800000 < 32000000 / 32 ∧
    (OV7670_set_fps { datasheet with OV7670_XCLK_HZ := 32000000 } 1 1
        Sensor.blank).2.trace =
      [Event.write 1 datasheet.OV7670_REG_DBLV 0,
       Event.write 1 datasheet.OV7670_REG_CLKRC 31] ∧
    Event.write 1 datasheet.OV7670_REG_DBLV (3 <<< 6) ∉
      (OV7670_set_fps { datasheet with OV7670_XCLK_HZ := 32000000 } 1 1
        Sensor.blank).2.trace := by
  have htr : (OV7670_set_fps { datasheet with OV7670_XCLK_HZ := 32000000 } 1 1
        Sensor.blank).2.trace =
      [Event.write 1 datasheet.OV7670_REG_DBLV 0,
       Event.write 1 datasheet.OV7670_REG_CLKRC 31] := by
    exact set_fps_below_floor_trace _ 1 1 Sensor.blank (by decide!) (by decide)
  refine ⟨by decide, htr, ?_⟩
  rw [htr]
  decide

set_option maxRecDepth 100000 in
/-- Claim C20, amended: for every 32-bit input clock at which a 1 fps request
is below the floor (`XCLK / 32 > 800000`) and a non-NULL platform,
`OV7670_set_fps(platform, 1)` takes the floor branch: its only register
writes are `DBLV <- 0` (no clock multiplication) then `CLKRC <- 31` (the
maximum divider, divide by 32). -/
theorem set_fps_1fps_floor_configuration (H : Header) (platform : Nat) (s : Sensor)
    (h32 : H.OV7670_XCLK_HZ < 2 ^ 32) (hfloor : 800000 < H.OV7670_XCLK_HZ / 32)
    (hp : platform ≠ 0) :
    (OV7670_set_fps H platform 1 s).2.trace =
      s.trace ++ [Event.write platform H.OV7670_REG_DBLV 0,
        Event.write platform H.OV7670_REG_CLKRC 31] := by
  apply set_fps_below_floor_trace H platform 1 s _ hp
  rw [Nat.mod_eq_of_lt (by omega)]
  have ht : pclk_target_of (clamp_fps 1) = 800000 := by decide!
  have he : f32 ((800001 : Nat) : ℚ) = 800001 := by decide!
  have hm : f32 ((800001 : Nat) : ℚ) ≤ f32 ((H.OV7670_XCLK_HZ / 32 : Nat) : ℚ) :=
    f32_mono _ _ (by exact_mod_cast hfloor)
  rw [he] at hm
  rw [ht]
  linarith

/-- Instance of the amended C20 at a 32 MHz input clock. -/
theorem set_fps_1fps_floor_configuration_witness :
    ({ datasheet with OV7670_XCLK_HZ := 32000000 } : Header).OV7670_XCLK_HZ < 2 ^ 32 ∧
    800000 < ({ datasheet with OV7670_XCLK_HZ := 32000000 } : Header).OV7670_XCLK_HZ / 32 ∧
    (1 : Nat) ≠ 0 ∧
    (OV7670_set_fps { datasheet with OV7670_XCLK_HZ := 32000000 } 1 1
        Sensor.blank).2.trace =
      Sensor.blank.trace ++ [Event.write 1 datasheet.OV7670_REG_DBLV 0,
        Event.write 1 datasheet.OV7670_REG_CLKRC 31] :=
  ⟨by decide, by decide, by decide,
    set_fps_1fps_floor_configuration { datasheet with OV7670_XCLK_HZ := 32000000 } 1
      Sensor.blank (by decide) (by decide) (by decide)⟩

/-! ## Claims on the RP2040 bring-up -/

/-- Claim C16, the code at a failing input: with data pins 4, 6, 7, ..., 12,
which are not contiguous, `OV7670_arch_begin` of `arch/rp2040.c` configures
the PWM and the PIO (the contiguity check is only a "TO DO" comment) and
returns `OV7670_STATUS_OK`. -/
theorem arch_begin_accepts_noncontiguous_pins (H : Header) (sdk : PicoSdk)
    (opcodes other : List Nat) :
    ¬ ContiguousPins [4, 6, 7, 8, 9, 10, 11, 12] ∧
    (OV7670_arch_begin H sdk ⟨⟨-1, -1, 0, 1, 2, 3, [4, 6, 7, 8, 9, 10, 11, 12]⟩, 1⟩
      opcodes other).1 = H.OV7670_STATUS_OK ∧
    (OV7670_arch_begin H sdk ⟨⟨-1, -1, 0, 1, 2, 3, [4, 6, 7, 8, 9, 10, 11, 12]⟩, 1⟩
      opcodes other).2.calls.length = 9 := by
  refine ⟨fun h => absurd (h 0 (by decide)) (by decide), rfl, rfl⟩

/-! ## Claims on `OV7670_Y2RGB565` -/

theorem and_FF (x : Nat) : x &&& 0xFF = x % 256 := Nat.and_pow_two_sub_one_eq_mod x 8

set_option maxRecDepth 20000 in
theorem Y2RGB565_byte : ∀ y, y < 256 → Y2RGB565_word y = Y2RGB565_reference y := by
  decide

theorem Y2RGB565_word_low_byte (w : Nat) : Y2RGB565_word w = Y2RGB565_word (w % 256) := by
  simp only [Y2RGB565_word, and_FF, Nat.mod_mod]

theorem Y2RGB565_reference_low_byte (w : Nat) :
    Y2RGB565_reference w = Y2RGB565_reference (w % 256) := by
  simp only [Y2RGB565_reference, and_FF, Nat.mod_mod]

theorem Y2RGB565_word_eq_reference (w : Nat) : Y2RGB565_word w = Y2RGB565_reference w := by
  rw [Y2RGB565_word_low_byte, Y2RGB565_reference_low_byte]
  exact Y2RGB565_byte _ (Nat.mod_lt _ (by norm_num))

theorem Y2RGB565_loop_eq (buf : List Nat) :
    ∀ n, n ≤ buf.length →
      Y2RGB565_loop buf n = some ((buf.take n).map Y2RGB565_word ++ buf.drop n) := by
  induction buf with
  | nil =>
    intro n hn
    have : n = 0 := by simpa using hn
    subst this; rfl
  | cons w rest ih =>
    intro n hn
    cases n with
    | zero => rfl
    | succ n =>
      have hn1 : n ≤ rest.length := by simpa using hn
      simp only [Y2RGB565_loop, ih n hn1, Option.map_some', List.take_succ_cons,
        List.map_cons, List.drop_succ_cons, List.cons_append]

/-- Claim C21: for every buffer and every `len` not exceeding its length,
`OV7670_Y2RGB565` returns the buffer whose first `len` words `w` are replaced
by the reference value `bswap16((R << 11) | (G << 5) | B)`, `y = w AND 0xFF`,
`R = B = y >> 3`, `G = y >> 2`, the other words being unchanged; the value
depends on the low byte of `w` only, `y = 0` gives 0x0000 and `y = 255` gives
0xFFFF. -/
theorem Y2RGB565_eq_reference (buf : List Nat) (len : Nat) (hlen : len ≤ buf.length)
    (h32 : len < 2 ^ 32) :
    OV7670_Y2RGB565 buf len =
      some ((buf.take len).map Y2RGB565_reference ++ buf.drop len) ∧
    (∀ w, Y2RGB565_reference w = Y2RGB565_reference (w &&& 0xFF)) ∧
    Y2RGB565_reference 0 = 0x0000 ∧ Y2RGB565_reference 255 = 0xFFFF := by
  refine ⟨?_, ?_, by decide, by decide⟩
  · unfold OV7670_Y2RGB565
    rw [Nat.mod_eq_of_lt h32, Y2RGB565_loop_eq buf len hlen]
    congr 2
    exact List.map_congr_left fun w _ => Y2RGB565_word_eq_reference w
  · intro w
    rw [and_FF]
    exact Y2RGB565_reference_low_byte w

/-- Instance of C21: two words converted in a three-word buffer. -/
theorem Y2RGB565_eq_reference_witness :
    2 ≤ [0x1200, 0x34FF, 0x5678].length ∧ 2 < 2 ^ 32 ∧
    OV7670_Y2RGB565 [0x1200, 0x34FF, 0x5678] 2 =
      some (([0x1200, 0x34FF, 0x5678].take 2).map Y2RGB565_reference ++
        [0x1200, 0x34FF, 0x5678].drop 2) :=
  ⟨by decide, by decide,
    (Y2RGB565_eq_reference [0x1200, 0x34FF, 0x5678] 2 (by decide) (by decide)).1⟩

/-! ## Claims on the registers written by `OV7670_frame_control` -/

/-- The fifteen transport calls of `OV7670_frame_control`, in order, with
the values the model computes. -/
theorem frame_control_first_writes (H : Header)
    (platform size vstart hstart edge_offset pclk_delay : Nat) (s : Sensor)
    (hs : size ≤ 4) :
    ((OV7670_frame_control H platform size vstart hstart edge_offset pclk_delay
        s).trace.drop s.trace.length).take 4 =
      [Event.write platform H.OV7670_REG_COM3
        ((if size = 4 then
            ((if size > 0 then H.OV7670_COM3_DCWEN else 0) % 256 |||
              H.OV7670_COM3_SCALEEN) % 256
          else (if size > 0 then H.OV7670_COM3_DCWEN else 0) % 256) % 256),
       Event.write platform H.OV7670_REG_COM14
        ((if size > 0 then 0x18 + size else 0) % 256 % 256),
       Event.write platform H.OV7670_REG_SCALING_DCWCTR
        ((if size ≤ 3 then size else 3) % 256 * 0x11 % 256),
       Event.write platform H.OV7670_REG_SCALING_PCLK_DIV
        ((if size > 0 then 0xF0 + size else 0x08) % 256 % 256)] := by
  have hsz : size % 256 = size := Nat.mod_eq_of_lt (by omega)
  simp [OV7670_frame_control, OV7670_write_register, OV7670_read_register, hsz,
    OV7670_SIZE_DIV1, OV7670_SIZE_DIV8, OV7670_SIZE_DIV16]

/-- Claim C26: with `OV7670_COM3_DCWEN` and `OV7670_COM3_SCALEEN` single-bit
masks of the 8-bit register (`2 ^ i`, `2 ^ j`), for every size 0..4 the first
write of `OV7670_frame_control` is to COM3, and in the value written bit `i`
is set iff `size > 0`, bit `j` is set iff `size = 4`, and no other bit is
set. -/
theorem frame_control_com3_bits (H : Header)
    (platform size vstart hstart edge_offset pclk_delay : Nat) (s : Sensor)
    (i j : Nat) (hi : i < 8) (hj : j < 8) (hij : i ≠ j)
    (hD : H.OV7670_COM3_DCWEN = 2 ^ i) (hS : H.OV7670_COM3_SCALEEN = 2 ^ j)
    (hs : size ≤ 4) :
    ∃ v,
      ((OV7670_frame_control H platform size vstart hstart edge_offset pclk_delay
        s).trace.drop s.trace.length)[0]? =
          some (Event.write platform H.OV7670_REG_COM3 v) ∧
      (v.testBit i = decide (0 < size)) ∧ (v.testBit j = decide (size = 4)) ∧
      ∀ k, k ≠ i → k ≠ j → v.testBit k = false := by
  have hw := frame_control_first_writes H platform size vstart hstart edge_offset
    pclk_delay s hs
  have h0 := congrArg (fun l => l[0]?) hw
  simp only [List.getElem?_take, List.getElem?_cons_zero] at h0
  have h0' : ((OV7670_frame_control H platform size vstart hstart edge_offset pclk_delay
      s).trace.drop s.trace.length)[0]? = some (Event.write platform H.OV7670_REG_COM3
        ((if size = 4 then
            ((if size > 0 then H.OV7670_COM3_DCWEN else 0) % 256 |||
              H.OV7670_COM3_SCALEEN) % 256
          else (if size > 0 then H.OV7670_COM3_DCWEN else 0) % 256) % 256)) := by
    simpa using h0
  refine ⟨_, h0', ?_, ?_, ?_⟩
  · have hji : ¬ j = i := fun h => hij h.symm
    rw [hD, hS]
    have hcases : size = 0 ∨ size = 1 ∨ size = 2 ∨ size = 3 ∨ size = 4 := by omega
    rcases hcases with rfl | rfl | rfl | rfl | rfl <;>
      simp [testBit_mod_256, Nat.testBit_two_pow, hi, hji]
  · rw [hD, hS]
    have hcases : size = 0 ∨ size = 1 ∨ size = 2 ∨ size = 3 ∨ size = 4 := by omega
    rcases hcases with rfl | rfl | rfl | rfl | rfl <;>
      simp [testBit_mod_256, Nat.testBit_two_pow, hj, hij]
  · intro k hki hkj
    have h1 : ¬ i = k := fun h => hki h.symm
    have h2 : ¬ j = k := fun h => hkj h.symm
    rw [hD, hS]
    have hcases : size = 0 ∨ size = 1 ∨ size = 2 ∨ size = 3 ∨ size = 4 := by omega
    rcases hcases with rfl | rfl | rfl | rfl | rfl <;>
      simp [testBit_mod_256, Nat.testBit_two_pow, h1, h2]

/-- Instance of C26 at the data-sheet masks DCWEN = 0x04, SCALEEN = 0x08,
size 4. -/
theorem frame_control_com3_bits_witness :
    2 < 8 ∧ 3 < 8 ∧ (2 : Nat) ≠ 3 ∧ datasheet.OV7670_COM3_DCWEN = 2 ^ 2 ∧
    datasheet.OV7670_COM3_SCALEEN = 2 ^ 3 ∧ 4 ≤ 4 ∧
    ∃ v,
      ((OV7670_frame_control datasheet 1 4 15 252 3 2 Sensor.blank).trace.drop
        Sensor.blank.trace.length)[0]? =
          some (Event.write 1 datasheet.OV7670_REG_COM3 v) ∧
      (v.testBit 2 = decide (0 < 4)) ∧ (v.testBit 3 = decide (4 = 4)) ∧
      ∀ k, k ≠ 2 → k ≠ 3 → v.testBit k = false :=
  ⟨by decide, by decide, by decide, by decide, by decide, by decide,
    frame_control_com3_bits datasheet 1 4 15 252 3 2 Sensor.blank 2 3 (by decide)
      (by decide) (by decide) (by decide) (by decide) (by decide)⟩

/-- Claim C27: for every size 0..4 the third write of `OV7670_frame_control`
is `SCALING_DCWCTR <- 0x11 * min(size, 3)`: both nibbles equal `min(size, 3)`,
which never exceeds 3. -/
theorem frame_control_dcwctr_clamped (H : Header)
    (platform size vstart hstart edge_offset pclk_delay : Nat) (s : Sensor)
    (hs : size ≤ 4) :
    ((OV7670_frame_control H platform size vstart hstart edge_offset pclk_delay
      s).trace.drop s.trace.length)[2]? =
        some (Event.write platform H.OV7670_REG_SCALING_DCWCTR (0x11 * min size 3)) ∧
    (0x11 * min size 3) &&& 0xF = min size 3 ∧
    (0x11 * min size 3) >>> 4 = min size 3 ∧
    min size 3 ≤ 3 := by
  have hw := frame_control_first_writes H platform size vstart hstart edge_offset
    pclk_delay s hs
  have h2 := congrArg (fun l => l[2]?) hw
  have hcases : size = 0 ∨ size = 1 ∨ size = 2 ∨ size = 3 ∨ size = 4 := by omega
  refine ⟨?_, ?_, ?_, min_le_right _ _⟩
  · rcases hcases with rfl | rfl | rfl | rfl | rfl <;> simpa using h2
  · rcases hcases with rfl | rfl | rfl | rfl | rfl <;> decide
  · rcases hcases with rfl | rfl | rfl | rfl | rfl <;> decide

/-- Instance of C27 at the data-sheet header, size 4 (1:16). -/
theorem frame_control_dcwctr_clamped_witness :
    4 ≤ 4 ∧
    ((OV7670_frame_control datasheet 1 4 15 252 3 2 Sensor.blank).trace.drop
      Sensor.blank.trace.length)[2]? =
        some (Event.write 1 datasheet.OV7670_REG_SCALING_DCWCTR (0x11 * min 4 3)) :=
  ⟨by decide,
    (frame_control_dcwctr_clamped datasheet 1 4 15 252 3 2 Sensor.blank (by decide)).1⟩

/-- The four transport calls of `OV7670_frame_control` on the zoom registers:
two reads, then the write of each register's final content. -/
theorem frame_control_zoom_writes (H : Header)
    (platform size vstart hstart edge_offset pclk_delay : Nat) (s : Sensor)
    (hd : ScalingRegsDistinct H) :
    (((OV7670_frame_control H platform size vstart hstart edge_offset pclk_delay
        s).trace.drop s.trace.length).drop 4).take 4 =
      [Event.read platform H.OV7670_REG_SCALING_XSC,
       Event.read platform H.OV7670_REG_SCALING_YSC,
       Event.write platform H.OV7670_REG_SCALING_XSC
         ((OV7670_frame_control H platform size vstart hstart edge_offset pclk_delay
           s).regs H.OV7670_REG_SCALING_XSC),
       Event.write platform H.OV7670_REG_SCALING_YSC
         ((OV7670_frame_control H platform size vstart hstart edge_offset pclk_delay
           s).regs H.OV7670_REG_SCALING_YSC)] := by
  obtain ⟨hxy, hall⟩ := hd
  have hyx : H.OV7670_REG_SCALING_YSC ≠ H.OV7670_REG_SCALING_XSC := fun h => hxy h.symm
  have x5 := (hall H.OV7670_REG_HSTART (by simp)).1
  have x6 := (hall H.OV7670_REG_HSTOP (by simp)).1
  have x7 := (hall H.OV7670_REG_HREF (by simp)).1
  have x8 := (hall H.OV7670_REG_VSTART (by simp)).1
  have x9 := (hall H.OV7670_REG_VSTOP (by simp)).1
  have x10 := (hall H.OV7670_REG_VREF (by simp)).1
  have x11 := (hall H.OV7670_REG_SCALING_PCLK_DELAY (by simp)).1
  have y5 := (hall H.OV7670_REG_HSTART (by simp)).2
  have y6 := (hall H.OV7670_REG_HSTOP (by simp)).2
  have y7 := (hall H.OV7670_REG_HREF (by simp)).2
  have y8 := (hall H.OV7670_REG_VSTART (by simp)).2
  have y9 := (hall H.OV7670_REG_VSTOP (by simp)).2
  have y10 := (hall H.OV7670_REG_VREF (by simp)).2
  have y11 := (hall H.OV7670_REG_SCALING_PCLK_DELAY (by simp)).2
  simp [OV7670_frame_control, OV7670_write_register, OV7670_read_register,
    if_neg x5, if_neg x6, if_neg x7, if_neg x8, if_neg x9, if_neg x10, if_neg x11,
    if_neg y5, if_neg y6, if_neg y7, if_neg y8, if_neg y9, if_neg y10, if_neg y11,
    if_neg hxy, if_neg hyx]

theorem zoom_content_bits (old zoom : Nat) (hz : zoom < 128) :
    (old % 256 / 128 * 128 + zoom).testBit 7 = old.testBit 7 ∧
    (old % 256 / 128 * 128 + zoom) &&& 0x7F = zoom := by
  rw [testBit_7, testBit_7, and_7F]
  constructor
  · congr 1
    apply propext
    constructor <;> intro h <;> omega
  · omega

/-- Claim C28: with the zoom registers distinct from each other and from the
other registers `OV7670_frame_control` writes, for every initial content and
every size 0..4 the function reads SCALING_XSC and SCALING_YSC and then writes
each of them with its old bit 7 unchanged and bits 6:0 equal to 0x40 when
`size = 4` and 0x20 otherwise. -/
theorem frame_control_zoom_read_modify_write (H : Header)
    (platform size vstart hstart edge_offset pclk_delay : Nat) (s : Sensor)
    (hd : ScalingRegsDistinct H) (hs : size ≤ 4) :
    ∃ vx vy,
      (((OV7670_frame_control H platform size vstart hstart edge_offset pclk_delay
          s).trace.drop s.trace.length).drop 4).take 4 =
        [Event.read platform H.OV7670_REG_SCALING_XSC,
         Event.read platform H.OV7670_REG_SCALING_YSC,
         Event.write platform H.OV7670_REG_SCALING_XSC vx,
         Event.write platform H.OV7670_REG_SCALING_YSC vy] ∧
      vx.testBit 7 = (s.regs H.OV7670_REG_SCALING_XSC).testBit 7 ∧
      vy.testBit 7 = (s.regs H.OV7670_REG_SCALING_YSC).testBit 7 ∧
      vx &&& 0x7F = (if size = 4 then 0x40 else 0x20) ∧
      vy &&& 0x7F = (if size = 4 then 0x40 else 0x20) := by
  obtain ⟨fx, fy⟩ := frame_control_zoom_regs H platform size vstart hstart edge_offset
    pclk_delay s hd hs
  have hz : (if size = 4 then 0x40 else 0x20 : Nat) < 128 := by split_ifs <;> norm_num
  have bx := zoom_content_bits (s.regs H.OV7670_REG_SCALING_XSC) _ hz
  have by1 := zoom_content_bits (s.regs H.OV7670_REG_SCALING_YSC) _ hz
  refine ⟨_, _, frame_control_zoom_writes H platform size vstart hstart edge_offset
    pclk_delay s hd, ?_, ?_, ?_, ?_⟩
  · rw [fx]; exact bx.1
  · rw [fy]; exact by1.1
  · rw [fx]; exact bx.2
  · rw [fy]; exact by1.2

/-- Instance of C28 at the data-sheet header, size 4. -/
theorem frame_control_zoom_read_modify_write_witness :
    ScalingRegsDistinct datasheet ∧ 4 ≤ 4 ∧
    ∃ vx vy,
      (((OV7670_frame_control datasheet 1 4 15 252 3 2 Sensor.blank).trace.drop
          Sensor.blank.trace.length).drop 4).take 4 =
        [Event.read 1 datasheet.OV7670_REG_SCALING_XSC,
         Event.read 1 datasheet.OV7670_REG_SCALING_YSC,
         Event.write 1 datasheet.OV7670_REG_SCALING_XSC vx,
         Event.write 1 datasheet.OV7670_REG_SCALING_YSC vy] ∧
      vx.testBit 7 = (Sensor.blank.regs datasheet.OV7670_REG_SCALING_XSC).testBit 7 ∧
      vy.testBit 7 = (Sensor.blank.regs datasheet.OV7670_REG_SCALING_YSC).testBit 7 ∧
      vx &&& 0x7F = (if 4 = 4 then 0x40 else 0x20) ∧
      vy &&& 0x7F = (if 4 = 4 then 0x40 else 0x20) :=
  ⟨by decide, by decide,
    frame_control_zoom_read_modify_write datasheet 1 4 15 252 3 2 Sensor.blank
      (by decide) (by decide)⟩

/-- Claim C29, the code at a failing input: for size 1 the window table holds
the edge offset 4, and `OV7670_set_size` writes `HREF <- 0x36`: the product
`4 << 6 = 0x100` is cut to 8 bits by `OV7670_write_register`, so bits 7:6 of
HREF are 0, not the stored edge offset. -/
theorem set_size_1_edge_offset_truncated (H : Header) (platform : Nat) (s : Sensor) :
    window[1]? = some (10, 174, 4, 2) ∧
    ∃ s1, OV7670_set_size H platform 1 s = some s1 ∧
      (s1.trace.drop (s.trace.length + 8))[2]? =
        some (Event.write platform H.OV7670_REG_HREF 0x36) ∧
      0x36 >>> 6 = 0 := by
  refine ⟨rfl, _, rfl, ?_, by decide⟩
  simp [OV7670_frame_control, OV7670_write_register, OV7670_read_register]
  decide

/-! ## Termination of the sentinel-terminated list player -/

/-- Playing up to the first pair with a 0xFF field: the pairs before it are
played in order, and what follows it in memory plays no part. -/
theorem write_list_prefix (platform : Nat) (pre : List OV7670_command)
    (c : OV7670_command) (post : List OV7670_command)
    (hpre : ∀ x ∈ pre, x.reg ≠ 0xFF ∧ x.value ≠ 0xFF)
    (hc : c.reg = 0xFF ∨ c.value = 0xFF) :
    ∀ s : Sensor, OV7670_write_list platform (pre ++ c :: post) s =
      some (pre.foldl (fun s x =>
        OV7670_delay_ms 1 (OV7670_write_register platform x.reg x.value s)) s) := by
  induction pre with
  | nil =>
    intro s
    have hn : ¬ (c.reg ≠ 0xFF ∧ c.value ≠ 0xFF) := by
      rintro ⟨h1, h2⟩
      rcases hc with h | h
      · exact h1 h
      · exact h2 h
    simp only [List.nil_append, OV7670_write_list, hn, if_false, List.foldl_nil]
  | cons x pre ih =>
    intro s
    have hx := hpre x (List.mem_cons_self _ _)
    simp only [List.cons_append, OV7670_write_list, hx, ne_eq, not_false_eq_true,
      and_self, if_true, List.foldl_cons]
    exact ih (fun y hy => hpre y (List.mem_cons_of_mem _ hy)) _

/-- Claim C30: when the array holds a pair with `reg = 0xFF` or
`value = 0xFF`, the first such pair being `c` after the pairs `pre`,
`OV7670_write_list` returns; its trace is the trace before followed, for each
pair of `pre` in order, by the write of (reg, value) and a 1 ms delay; and
the result is the same whatever follows `c` in memory, also nothing at
all. -/
theorem write_list_stops_at_first_FF (platform : Nat) (pre : List OV7670_command)
    (c : OV7670_command) (post : List OV7670_command) (s : Sensor)
    (hpre : ∀ x ∈ pre, x.reg ≠ 0xFF ∧ x.value ≠ 0xFF)
    (hc : c.reg = 0xFF ∨ c.value = 0xFF) :
    ∃ s1, OV7670_write_list platform (pre ++ c :: post) s = some s1 ∧
      s1.trace = s.trace ++ pre.flatMap (fun x =>
        [Event.write platform x.reg (x.value % 256), Event.delay 1]) ∧
      OV7670_write_list platform (pre ++ [c]) s = some s1 := by
  exact ⟨_, write_list_prefix platform pre c post hpre hc s, play_fold_trace _ _ _,
    write_list_prefix platform pre c [] hpre hc s⟩

/-- Instance of C30 on a list whose second pair has the value 0xFF. -/
theorem write_list_stops_at_first_FF_witness :
    (∀ x ∈ [OV7670_command.mk 0x12 0x80], x.reg ≠ 0xFF ∧ x.value ≠ 0xFF) ∧
    ((OV7670_command.mk 0x2C 0xFF).reg = 0xFF ∨ (OV7670_command.mk 0x2C 0xFF).value = 0xFF) ∧
    ∃ s1, OV7670_write_list 1 ([⟨0x12, 0x80⟩] ++ ⟨0x2C, 0xFF⟩ :: [⟨0x2E, 0xDF⟩, ⟨0xFF, 0xFF⟩])
        Sensor.blank = some s1 ∧
      s1.trace = Sensor.blank.trace ++ [OV7670_command.mk 0x12 0x80].flatMap (fun x =>
        [Event.write 1 x.reg (x.value % 256), Event.delay 1]) ∧
      OV7670_write_list 1 ([⟨0x12, 0x80⟩] ++ [⟨0x2C, 0xFF⟩]) Sensor.blank = some s1 :=
  ⟨by decide, by decide,
    write_list_stops_at_first_FF 1 [⟨0x12, 0x80⟩] ⟨0x2C, 0xFF⟩ [⟨0x2E, 0xDF⟩, ⟨0xFF, 0xFF⟩]
      Sensor.blank (by decide) (by decide)⟩

/-! ## Claims on the register encoding and tie-breaking of `OV7670_set_fps` -/

/-- Claim C22, amended to the `float` arithmetic of the code and to the bound
`8 * XCLK < 2 ^ 32`: in the search branch and with a non-NULL platform exactly
two writes occur, DBLV then CLKRC, and they encode a pair (m, d) of the search
space, `m = pll_ratio[p]`, that passes the float target test and from whose
float distance the returned value is computed, `fl(fps - fl(fps - fl_rate))`:
`DBLV = p << 6` and `CLKRC = d - 1 ≤ 31` when `m ≠ d`, the bypass encoding
`DBLV = 0`, `CLKRC = 0x40` when `m = d`. -/
theorem set_fps_register_encoding (H : Header) (platform : Nat) (r : ℚ) (s : Sensor)
    (h32 : 32 ≤ H.OV7670_XCLK_HZ) (hx : 8 * H.OV7670_XCLK_HZ < 2 ^ 32)
    (hsearch : ¬ (pclk_target_of (clamp_fps r) <
      f32 (((H.OV7670_XCLK_HZ / 32) % 2 ^ 32 : Nat) : ℚ)))
    (hp : platform ≠ 0) :
    ∃ p m d v1 v2, p < 4 ∧ pll_ratio.getD p 0 = m ∧ SearchSpace m d ∧
      f32 ((H.OV7670_XCLK_HZ * m / d : Nat) : ℚ) ≤ pclk_target_of (clamp_fps r) ∧
      (OV7670_set_fps H platform r s).1 =
        f32 (clamp_fps r - delta_of (clamp_fps r) (H.OV7670_XCLK_HZ * m / d)) ∧
      (OV7670_set_fps H platform r s).2.trace =
        s.trace ++ [Event.write platform H.OV7670_REG_DBLV v1,
          Event.write platform H.OV7670_REG_CLKRC v2] ∧
      (m ≠ d → v1 = p <<< 6 ∧ v2 = d - 1 ∧ d - 1 ≤ 31) ∧
      (m = d → v1 = 0 ∧ v2 = 0x40) := by
  have hc30 : clamp_fps r ≤ 30 := by rw [clamp_fps_eq_min]; exact min_le_right _ _
  obtain ⟨hv, hle, hdelta⟩ := set_fps_search_selected H.OV7670_XCLK_HZ (clamp_fps r) hc30
    h32 (by omega) hsearch
  obtain ⟨hss, hpclk⟩ := visited_pclk H.OV7670_XCLK_HZ _ _ hx hv
  have htr := set_fps_search_trace H platform r s hsearch hp
  have hret := set_fps_search_branch H platform r s hsearch
  have hp4 := hv.1
  have hd32 := hv.2.2
  rw [hpclk] at hle hdelta
  rw [hdelta] at hret
  by_cases hbyp : pll_ratio.getD (set_fps_search H.OV7670_XCLK_HZ (clamp_fps r)
        (pclk_target_of (clamp_fps r))).best_pll 0 =
      (set_fps_search H.OV7670_XCLK_HZ (clamp_fps r)
        (pclk_target_of (clamp_fps r))).best_div
  · rw [if_pos hbyp] at htr
    exact ⟨_, _, _, 0, 0x40, hp4, rfl, hss, hle, hret, htr, fun h => absurd hbyp h,
      fun _ => ⟨rfl, rfl⟩⟩
  · rw [if_neg hbyp] at htr
    refine ⟨_, _, _, _, _, hp4, rfl, hss, hle, hret, htr, fun _ => ⟨?_, ?_, ?_⟩,
      fun h => absurd h hbyp⟩
    · have hcases : (set_fps_search H.OV7670_XCLK_HZ (clamp_fps r)
          (pclk_target_of (clamp_fps r))).best_pll = 0 ∨
          (set_fps_search H.OV7670_XCLK_HZ (clamp_fps r)
            (pclk_target_of (clamp_fps r))).best_pll = 1 ∨
          (set_fps_search H.OV7670_XCLK_HZ (clamp_fps r)
            (pclk_target_of (clamp_fps r))).best_pll = 2 ∨
          (set_fps_search H.OV7670_XCLK_HZ (clamp_fps r)
            (pclk_target_of (clamp_fps r))).best_pll = 3 := by omega
      rcases hcases with h | h | h | h <;> rw [h] <;> rfl
    · exact Nat.mod_eq_of_lt (by omega)
    · omega

set_option maxRecDepth 100000 in
/-- Instance of the amended C22 at the 24 MHz data-sheet header, request 30. -/
theorem set_fps_register_encoding_witness :
    32 ≤ datasheet.OV7670_XCLK_HZ ∧ 8 * datasheet.OV7670_XCLK_HZ < 2 ^ 32 ∧
    ¬ (pclk_target_of (clamp_fps 30) <
      f32 (((datasheet.OV7670_XCLK_HZ / 32) % 2 ^ 32 : Nat) : ℚ)) ∧ (1 : Nat) ≠ 0 ∧
    ∃ p m d v1 v2, p < 4 ∧ pll_ratio.getD p 0 = m ∧ SearchSpace m d ∧
      (OV7670_set_fps datasheet 1 30 Sensor.blank).2.trace =
        Sensor.blank.trace ++ [Event.write 1 datasheet.OV7670_REG_DBLV v1,
          Event.write 1 datasheet.OV7670_REG_CLKRC v2] ∧
      (m ≠ d → v1 = p <<< 6 ∧ v2 = d - 1 ∧ d - 1 ≤ 31) ∧
      (m = d → v1 = 0 ∧ v2 = 0x40) :=
  have h : ¬ (pclk_target_of (clamp_fps 30) <
      f32 (((datasheet.OV7670_XCLK_HZ / 32) % 2 ^ 32 : Nat) : ℚ)) := by decide!
  ⟨by decide, by decide, h, by decide,
    (set_fps_register_encoding datasheet 1 30 Sensor.blank (by decide) (by decide) h
      (by decide)).imp fun _ hp => hp.imp fun _ hm => hm.imp fun _ hd => hd.imp fun _ h1 =>
        h1.imp fun _ h2 => ⟨h2.1, h2.2.1, h2.2.2.1, h2.2.2.2.2.2.1, h2.2.2.2.2.2.2⟩⟩

set_option maxRecDepth 100000 in
/-- Claim C22 as stated fails, in two ways.  With a 24 MHz input clock and a
request of 7 fps the two writes `DBLV <- 0x80`, `CLKRC <- 25` encode the pair
(PLL x6, divider 26), of rate 5538461 / 800000, while the value returned is
the `float` 14518743 / 2^21, which is that rate rounded and the rate of no
pair.  With an input clock of 541870912 Hz the product `XCLK * 8` wraps around
in `uint32_t` to 40000000; a request of 25 fps is met exactly by the wrapped
pair (PLL x8, divider 2), so 25 is returned, while no pair of the search space
has the rate `floor(XCLK * m / d) * 5 / 4000000 = 25`. -/
theorem set_fps_register_encoding_fails :
    (32 ≤ datasheet.OV7670_XCLK_HZ ∧
      ((datasheet.OV7670_XCLK_HZ / 32 : Nat) : ℚ) ≤ 7 * 800000 ∧
      (OV7670_set_fps datasheet 1 7 Sensor.blank).1 = 14518743 / 2097152 ∧
      (OV7670_set_fps datasheet 1 7 Sensor.blank).2.trace =
        [Event.write 1 datasheet.OV7670_REG_DBLV 0x80,
         Event.write 1 datasheet.OV7670_REG_CLKRC 25] ∧
      rate datasheet.OV7670_XCLK_HZ 6 26 = 5538461 / 800000 ∧
      ¬ ∃ m d, SearchSpace m d ∧ rate datasheet.OV7670_XCLK_HZ m d =
        (OV7670_set_fps datasheet 1 7 Sensor.blank).1) ∧
    (32 ≤ 541870912 ∧ (((541870912 / 32 : Nat) : ℚ) ≤ 25 * 800000) ∧
      (OV7670_set_fps { datasheet with OV7670_XCLK_HZ := 541870912 } 1 25
        Sensor.blank).1 = 25 ∧
      ¬ ∃ m d, SearchSpace m d ∧ rate 541870912 m d =
        (OV7670_set_fps { datasheet with OV7670_XCLK_HZ := 541870912 } 1 25
          Sensor.blank).1) := by
  have hs : ¬ (pclk_target_of (clamp_fps 7) <
      f32 (((datasheet.OV7670_XCLK_HZ / 32) % 2 ^ 32 : Nat) : ℚ)) := by decide!
  obtain ⟨h1, h2⟩ := set_fps_search_result datasheet 1 7 Sensor.blank _ hs
    set_fps_search_24MHz_7fps (by decide)
  have h7 : (OV7670_set_fps datasheet 1 7 Sensor.blank).1 = 14518743 / 2097152 := by
    rw [h1]; decide!
  have h25 : (OV7670_set_fps { datasheet with OV7670_XCLK_HZ := 541870912 } 1 25
      Sensor.blank).1 = 25 := by
    rw [set_fps_rate_eq]; decide!
  refine ⟨⟨by decide, by norm_num [datasheet], h7, ?_, by decide!, ?_⟩,
    ⟨by norm_num, by norm_num, h25, ?_⟩⟩
  · rw [h2]; decide!
  · rw [h7]
    rintro ⟨m, d, _, hrate⟩
    exact no_rate_24MHz_7fps m d hrate
  · rw [h25]
    rintro ⟨m, d, ⟨hm, _, h32, _⟩, hrate⟩
    have hnat : 541870912 * m / d = 20000000 := by
      simp only [rate] at hrate
      have : ((541870912 * m / d : Nat) : ℚ) = 20000000 := by linarith
      exact_mod_cast this
    have hall : ∀ m ∈ [1, 4, 6, 8], ∀ d, d < 33 → 541870912 * m / d ≠ 20000000 := by
      decide
    exact hall m hm d (by omega) hnat

set_option maxRecDepth 100000 in
/-- Claim C24 as stated fails: with a 24 MHz input clock and the `float`
request 2169467 / 2^21 (about 1.03448248) the float pixel-clock target rounds
up to 827586, so the pair (PLL 1:1, divider 29) passes the target test and is
selected (`DBLV <- 0`, `CLKRC <- 28`), although its rate 413793 / 400000
exceeds the request: the selected pair is not among the pairs whose rate is
within the request, of which (PLL 1:1, divider 30) has the rate 1. -/
theorem set_fps_selects_pair_over_request :
    f32 (2169467 / 2097152) = 2169467 / 2097152 ∧
    ((datasheet.OV7670_XCLK_HZ / 32 : Nat) : ℚ) ≤ (2169467 / 2097152) * 800000 ∧
    pclk_target_of (clamp_fps (2169467 / 2097152)) = 827586 ∧
    set_fps_search datasheet.OV7670_XCLK_HZ (clamp_fps (2169467 / 2097152))
      (pclk_target_of (clamp_fps (2169467 / 2097152))) = ⟨0, 29, 0⟩ ∧
    (OV7670_set_fps datasheet 1 (2169467 / 2097152) Sensor.blank).2.trace =
      [Event.write 1 datasheet.OV7670_REG_DBLV 0,
       Event.write 1 datasheet.OV7670_REG_CLKRC 28] ∧
    rate datasheet.OV7670_XCLK_HZ 1 29 = 413793 / 400000 ∧
    (2169467 / 2097152 : ℚ) < rate datasheet.OV7670_XCLK_HZ 1 29 ∧
    rate datasheet.OV7670_XCLK_HZ 1 30 = 1 := by
  have hs : ¬ (pclk_target_of (clamp_fps (2169467 / 2097152)) <
      f32 (((datasheet.OV7670_XCLK_HZ / 32) % 2 ^ 32 : Nat) : ℚ)) := by decide!
  have hb : set_fps_search datasheet.OV7670_XCLK_HZ (clamp_fps (2169467 / 2097152))
      (pclk_target_of (clamp_fps (2169467 / 2097152))) = ⟨0, 29, 0⟩ := by decide!
  obtain ⟨_, h2⟩ := set_fps_search_result datasheet 1 (2169467 / 2097152) Sensor.blank _
    hs hb (by decide)
  refine ⟨by decide!, by norm_num [datasheet], by decide!, hb, ?_, by decide!, by decide!,
    by decide!⟩
  rw [h2]; decide!

/-- Claim C24, amended to the `float` arithmetic of the code: in the search
branch (input clock of at least 32 Hz, below `2 ^ 32`) the selected pair
(`best_pll`, `best_div`) is a visited pair that passes the float target test,
and the value returned is computed from its float distance; no visited pair
that passes the test has a smaller float distance; and every visited pair
that passes the test with that same float distance has a larger PLL index, or
the same PLL index and a divider at least as large.  With a non-NULL platform
the two writes encode that pair. -/
theorem set_fps_tie_break (H : Header) (platform : Nat) (r : ℚ) (s : Sensor)
    (h32 : 32 ≤ H.OV7670_XCLK_HZ) (hx : H.OV7670_XCLK_HZ < 2 ^ 32)
    (hsearch : ¬ (pclk_target_of (clamp_fps r) <
      f32 (((H.OV7670_XCLK_HZ / 32) % 2 ^ 32 : Nat) : ℚ)))
    (hp : platform ≠ 0) :
    ∃ p d, p = (set_fps_search H.OV7670_XCLK_HZ (clamp_fps r)
        (pclk_target_of (clamp_fps r))).best_pll ∧
      d = (set_fps_search H.OV7670_XCLK_HZ (clamp_fps r)
        (pclk_target_of (clamp_fps r))).best_div ∧
      Visited p d ∧
      f32 (pclk_of H.OV7670_XCLK_HZ p d : ℚ) ≤ pclk_target_of (clamp_fps r) ∧
      (OV7670_set_fps H platform r s).1 =
        f32 (clamp_fps r - delta_of (clamp_fps r) (pclk_of H.OV7670_XCLK_HZ p d)) ∧
      (∀ q e, Visited q e →
        f32 (pclk_of H.OV7670_XCLK_HZ q e : ℚ) ≤ pclk_target_of (clamp_fps r) →
        delta_of (clamp_fps r) (pclk_of H.OV7670_XCLK_HZ p d) ≤
          delta_of (clamp_fps r) (pclk_of H.OV7670_XCLK_HZ q e)) ∧
      (∀ q e, Visited q e →
        f32 (pclk_of H.OV7670_XCLK_HZ q e : ℚ) ≤ pclk_target_of (clamp_fps r) →
        delta_of (clamp_fps r) (pclk_of H.OV7670_XCLK_HZ q e) =
          delta_of (clamp_fps r) (pclk_of H.OV7670_XCLK_HZ p d) →
        p < q ∨ (p = q ∧ d ≤ e)) ∧
      (OV7670_set_fps H platform r s).2.trace =
        s.trace ++
          (if pll_ratio.getD p 0 = d then
            [Event.write platform H.OV7670_REG_DBLV 0,
             Event.write platform H.OV7670_REG_CLKRC 0x40]
          else
            [Event.write platform H.OV7670_REG_DBLV ((p <<< 6) % 256),
             Event.write platform H.OV7670_REG_CLKRC ((d - 1) % 256)]) := by
  have hc30 : clamp_fps r ≤ 30 := by rw [clamp_fps_eq_min]; exact min_le_right _ _
  obtain ⟨hv, hle, hdelta⟩ := set_fps_search_selected H.OV7670_XCLK_HZ (clamp_fps r) hc30
    h32 hx hsearch
  obtain ⟨_, _, s3⟩ := set_fps_search_spec H.OV7670_XCLK_HZ (clamp_fps r)
    (pclk_target_of (clamp_fps r))
  have hret := set_fps_search_branch H platform r s hsearch
  refine ⟨_, _, rfl, rfl, hv, hle, ?_, ?_, ?_,
    set_fps_search_trace H platform r s hsearch hp⟩
  · rw [hret, hdelta]
  · intro q e hvq hq
    rw [← hdelta]
    exact s3 q e hvq hq
  · intro q e hvq hq heq
    apply set_fps_search_first H.OV7670_XCLK_HZ (clamp_fps r) _ q e hvq hq
    rw [heq, ← hdelta]

set_option maxRecDepth 100000 in
/-- Instance of the amended C24 at the 24 MHz data-sheet header, request 30. -/
theorem set_fps_tie_break_witness :
    32 ≤ datasheet.OV7670_XCLK_HZ ∧ datasheet.OV7670_XCLK_HZ < 2 ^ 32 ∧
    ¬ (pclk_target_of (clamp_fps 30) <
      f32 (((datasheet.OV7670_XCLK_HZ / 32) % 2 ^ 32 : Nat) : ℚ)) ∧ (1 : Nat) ≠ 0 ∧
    ∃ p d, p = (set_fps_search datasheet.OV7670_XCLK_HZ (clamp_fps 30)
        (pclk_target_of (clamp_fps 30))).best_pll ∧
      d = (set_fps_search datasheet.OV7670_XCLK_HZ (clamp_fps 30)
        (pclk_target_of (clamp_fps 30))).best_div ∧
      Visited p d ∧
      f32 (pclk_of datasheet.OV7670_XCLK_HZ p d : ℚ) ≤ pclk_target_of (clamp_fps 30) :=
  have h : ¬ (pclk_target_of (clamp_fps 30) <
      f32 (((datasheet.OV7670_XCLK_HZ / 32) % 2 ^ 32 : Nat) : ℚ)) := by
    decide!
  ⟨by decide, by decide, h, by decide,
    (set_fps_tie_break datasheet 1 30 Sensor.blank (by decide) (by decide) h
      (by decide)).imp fun _ hp =>
      hp.imp fun _ hd => ⟨hd.1, hd.2.1, hd.2.2.1, hd.2.2.2.1⟩⟩

/-- Claim C25: in the search branch with `XCLK ≥ 1`, `8 * XCLK < 2 ^ 32` and a
non-NULL platform, the value written to CLKRC is the bypass code 0x40 if and
only if the selected pair is PLL index 0 (multiplier 1) with divider 1, which
holds if and only if the selected pixel clock equals XCLK; a pair whose
divider equals its multiplier is selected only in that form, never as (4,4),
(6,6) or (8,8). -/
theorem set_fps_bypass_iff (H : Header) (platform : Nat) (r : ℚ) (s : Sensor)
    (h1 : 1 ≤ H.OV7670_XCLK_HZ) (hx : 8 * H.OV7670_XCLK_HZ < 2 ^ 32)
    (hsearch : ¬ (pclk_target_of (clamp_fps r) <
      f32 (((H.OV7670_XCLK_HZ / 32) % 2 ^ 32 : Nat) : ℚ)))
    (hp : platform ≠ 0) :
    ∃ p d v1 v2, p = (set_fps_search H.OV7670_XCLK_HZ (clamp_fps r)
        (pclk_target_of (clamp_fps r))).best_pll ∧
      d = (set_fps_search H.OV7670_XCLK_HZ (clamp_fps r)
        (pclk_target_of (clamp_fps r))).best_div ∧
      (OV7670_set_fps H platform r s).2.trace =
        s.trace ++ [Event.write platform H.OV7670_REG_DBLV v1,
          Event.write platform H.OV7670_REG_CLKRC v2] ∧
      (v2 = 0x40 ↔ (p = 0 ∧ d = 1)) ∧
      ((p = 0 ∧ d = 1) ↔ pclk_of H.OV7670_XCLK_HZ p d = H.OV7670_XCLK_HZ) ∧
      (pll_ratio.getD p 0 = d → p = 0 ∧ d = 1) := by
  have hv := set_fps_search_visited H.OV7670_XCLK_HZ (clamp_fps r)
    (pclk_target_of (clamp_fps r))
  obtain ⟨_, hsel, _⟩ := set_fps_search_spec H.OV7670_XCLK_HZ (clamp_fps r)
    (pclk_target_of (clamp_fps r))
  have htr := set_fps_search_trace H platform r s hsearch hp
  have hv01 : Visited 0 1 := ⟨by norm_num, by norm_num, by norm_num⟩
  have hp01 : pclk_of H.OV7670_XCLK_HZ 0 1 = H.OV7670_XCLK_HZ := by
    simp only [pclk_of, pll_ratio, List.getD_cons_zero, Nat.mul_one, Nat.div_one]
    exact Nat.mod_eq_of_lt (by omega)
  -- a selected pixel clock equal to XCLK comes from the pair visited first
  have hfirst : pclk_of H.OV7670_XCLK_HZ
        (set_fps_search H.OV7670_XCLK_HZ (clamp_fps r) (pclk_target_of (clamp_fps r))).best_pll
        (set_fps_search H.OV7670_XCLK_HZ (clamp_fps r) (pclk_target_of (clamp_fps r))).best_div =
        H.OV7670_XCLK_HZ →
      (set_fps_search H.OV7670_XCLK_HZ (clamp_fps r) (pclk_target_of (clamp_fps r))).best_pll = 0 ∧
      (set_fps_search H.OV7670_XCLK_HZ (clamp_fps r) (pclk_target_of (clamp_fps r))).best_div = 1 := by
    intro hsame
    rcases hsel with hinit | ⟨p, d, _, hle, heq⟩
    · rw [hinit]
      exact ⟨rfl, rfl⟩
    · have hpd : pclk_of H.OV7670_XCLK_HZ p d = H.OV7670_XCLK_HZ := by
        rw [heq] at hsame; exact hsame
      have hle01 : f32 (pclk_of H.OV7670_XCLK_HZ 0 1 : ℚ) ≤ pclk_target_of (clamp_fps r) := by
        rw [hp01, ← hpd]; exact hle
      have htie : delta_of (clamp_fps r) (pclk_of H.OV7670_XCLK_HZ 0 1) =
          (set_fps_search H.OV7670_XCLK_HZ (clamp_fps r)
            (pclk_target_of (clamp_fps r))).best_delta := by
        rw [heq, hp01, hpd]
      have hd1 := hv.2.1
      rcases set_fps_search_first H.OV7670_XCLK_HZ (clamp_fps r) _ 0 1 hv01 hle01 htie with
        h | ⟨h, h'⟩
      · omega
      · rw [h] at hd1
        simp only [ne_eq, not_true_eq_false, if_false] at hd1
        exact ⟨h, by omega⟩
  have hdiag : pll_ratio.getD
        (set_fps_search H.OV7670_XCLK_HZ (clamp_fps r) (pclk_target_of (clamp_fps r))).best_pll 0 =
        (set_fps_search H.OV7670_XCLK_HZ (clamp_fps r) (pclk_target_of (clamp_fps r))).best_div →
      (set_fps_search H.OV7670_XCLK_HZ (clamp_fps r) (pclk_target_of (clamp_fps r))).best_pll = 0 ∧
      (set_fps_search H.OV7670_XCLK_HZ (clamp_fps r) (pclk_target_of (clamp_fps r))).best_div = 1 := by
    intro hm
    apply hfirst
    obtain ⟨hss, hpc⟩ := visited_pclk H.OV7670_XCLK_HZ _ _ hx hv
    rw [hpc, hm]
    exact Nat.mul_div_cancel _ (by have := hv.2.1; split_ifs at this <;> omega)
  have hd32 := hv.2.2
  by_cases hbyp : pll_ratio.getD (set_fps_search H.OV7670_XCLK_HZ (clamp_fps r)
        (pclk_target_of (clamp_fps r))).best_pll 0 =
      (set_fps_search H.OV7670_XCLK_HZ (clamp_fps r)
        (pclk_target_of (clamp_fps r))).best_div
  · rw [if_pos hbyp] at htr
    obtain ⟨e1, e2⟩ := hdiag hbyp
    refine ⟨_, _, 0, 0x40, rfl, rfl, htr, ⟨fun _ => ⟨e1, e2⟩, fun _ => rfl⟩,
      ⟨fun _ => by rw [e1, e2]; exact hp01, hfirst⟩, hdiag⟩
  · rw [if_neg hbyp] at htr
    refine ⟨_, _, _, _, rfl, rfl, htr, ⟨fun h => ?_, fun h => ?_⟩,
      ⟨fun h => ?_, hfirst⟩, hdiag⟩
    · exfalso
      rw [Nat.mod_eq_of_lt (by omega)] at h
      omega
    · exact absurd (by rw [h.1, h.2]; rfl) hbyp
    · exact absurd (by rw [h.1, h.2]; rfl) hbyp

set_option maxRecDepth 100000 in
/-- Instance of C25 at the 24 MHz data-sheet header, request 30. -/
theorem set_fps_bypass_iff_witness :
    1 ≤ datasheet.OV7670_XCLK_HZ ∧ 8 * datasheet.OV7670_XCLK_HZ < 2 ^ 32 ∧
    ¬ (pclk_target_of (clamp_fps 30) <
      f32 (((datasheet.OV7670_XCLK_HZ / 32) % 2 ^ 32 : Nat) : ℚ)) ∧ (1 : Nat) ≠ 0 ∧
    ∃ p d v1 v2, p = (set_fps_search datasheet.OV7670_XCLK_HZ (clamp_fps 30)
        (pclk_target_of (clamp_fps 30))).best_pll ∧
      d = (set_fps_search datasheet.OV7670_XCLK_HZ (clamp_fps 30)
        (pclk_target_of (clamp_fps 30))).best_div ∧
      (OV7670_set_fps datasheet 1 30 Sensor.blank).2.trace =
        Sensor.blank.trace ++ [Event.write 1 datasheet.OV7670_REG_DBLV v1,
          Event.write 1 datasheet.OV7670_REG_CLKRC v2] ∧
      (v2 = 0x40 ↔ (p = 0 ∧ d = 1)) ∧
      ((p = 0 ∧ d = 1) ↔ pclk_of datasheet.OV7670_XCLK_HZ p d = datasheet.OV7670_XCLK_HZ) ∧
      (pll_ratio.getD p 0 = d → p = 0 ∧ d = 1) :=
  have h : ¬ (pclk_target_of (clamp_fps 30) <
      f32 (((datasheet.OV7670_XCLK_HZ / 32) % 2 ^ 32 : Nat) : ℚ)) := by
    decide!
  ⟨by norm_num [datasheet], by norm_num [datasheet], h, by decide,
    set_fps_bypass_iff datasheet 1 30 Sensor.blank (by norm_num [datasheet])
      (by norm_num [datasheet]) h (by decide)⟩

/-! ## Claims on the PIO program and the sync polling of `arch/rp2040.c` -/

/-- Claim C32, the code at a failing input: the three `|=` statements of
`OV7670_arch_begin` patch the array they name, `ov_7670_pio_opcodes`, not the
table `ov7670_pio_opcodes` of `ov7670_pio_program`.  So whatever the pins, the
table is left as it was and `pio_add_program` loads it unpatched; started from
the pristine template with vsync on pin 2 and pclk on pin 1, the program is
`[0x2080, 0x2080, 0x4008, 0x2000]`, not `[0x2082, 0x2081, 0x4008, 0x2001]`. -/
theorem arch_begin_loads_unpatched_program (H : Header) (sdk : PicoSdk)
    (host : OV7670_host) (opcodes other : List Nat) :
    (OV7670_arch_begin H sdk host opcodes other).2.opcodes = opcodes ∧
    (OV7670_arch_begin H sdk host opcodes other).2.calls[3]? =
      some (HwCall.pio_add_program opcodes) ∧
    ov7670_pio_opcodes = [0x2080, 0x2080, 0x4008, 0x2000] ∧
    (OV7670_arch_begin H sdk ⟨⟨-1, -1, 0, 1, 2, 3, [4, 5, 6, 7, 8, 9, 10, 11]⟩, 1⟩
      ov7670_pio_opcodes other).2.opcodes ≠
      [0x2080 ||| 2, 0x2080 ||| 1, 0x4008, 0x2000 ||| 1] ∧
    (OV7670_arch_begin H sdk ⟨⟨-1, -1, 0, 1, 2, 3, [4, 5, 6, 7, 8, 9, 10, 11]⟩, 1⟩
      ov7670_pio_opcodes ov7670_pio_opcodes).2.ov_7670_pio_opcodes =
      [0x2080 ||| 2, 0x2080 ||| 1, 0x4008, 0x2000 ||| 1] := by
  refine ⟨rfl, rfl, rfl, ?_, ?_⟩
  · show ov7670_pio_opcodes ≠ _
    decide
  · show [or_pin 0x2080 2, or_pin 0x2080 1, 0x4008, or_pin 0x2000 1] = _
    decide

/-- Claim C33, the code at a failing input: with the sync mask on bit 1
(`m = 2`) and a sampled register value `v = 0`, the selected bit reads low
(`v AND m = 0`), yet the condition `!*vsync_reg & vsync_bit` of the "wait for
VSYNC high" loop is `(!v) & m = 1 & 2 = 0`: the loop does not wait.  So a
capture on sync lines that stay low for ever runs to its end and stores a
whole frame. -/
theorem wait_high_condition_false_while_low :
    (0 : Nat) &&& 2 = 0 ∧ decide (lnot 0 &&& 2 ≠ 0) = false ∧
    (OV7670_capture ⟨fun _ => 0, fun _ => 0, fun _ => true, fun _ => 7⟩ 1 2 1 2 2).map
      CapState.trace =
        some [CapEvent.read_vsync, CapEvent.disable_interrupts, CapEvent.read_vsync,
          CapEvent.read_hsync, CapEvent.read_hsync, CapEvent.read_drdy,
          CapEvent.store 0 7, CapEvent.enable_interrupts] := by
  refine ⟨by decide, by decide, ?_⟩
  decide

/-! ## Claims on the order of events of `OV7670_begin` -/

/-- A command list holding the end marker is played to an end; the events it
adds are, for each pair of a prefix of the list, the write and the 1 ms delay,
whatever the register file. -/
theorem write_list_trace_appends (platform : Nat) (cmd : List OV7670_command)
    (h : OV7670_command.mk 0xFF 0xFF ∈ cmd) :
    ∃ pre : List OV7670_command, pre <+: cmd ∧
      ∀ s : Sensor, ∃ s1, OV7670_write_list platform cmd s = some s1 ∧
        s1.trace = s.trace ++ pre.flatMap (fun c =>
          [Event.write platform c.reg (c.value % 256), Event.delay 1]) := by
  induction cmd with
  | nil => exact absurd h (List.not_mem_nil _)
  | cons c rest ih =>
    by_cases hc : c.reg ≠ 0xFF ∧ c.value ≠ 0xFF
    · have hmem : OV7670_command.mk 0xFF 0xFF ∈ rest := by
        rcases List.mem_cons.mp h with heq | hmem
        · exact absurd (congrArg OV7670_command.reg heq).symm hc.1
        · exact hmem
      obtain ⟨pre, hpre, hrun⟩ := ih hmem
      refine ⟨c :: pre, (List.prefix_cons_inj c).mpr hpre, ?_⟩
      intro s
      obtain ⟨s1, h1, h2⟩ := hrun
        (OV7670_delay_ms 1 (OV7670_write_register platform c.reg c.value s))
      refine ⟨s1, ?_, ?_⟩
      · rw [OV7670_write_list, if_pos hc, h1]
      · rw [h2, play_step_trace, List.flatMap_cons, List.append_assoc]
    · refine ⟨[], List.nil_prefix, ?_⟩
      intro s
      refine ⟨s, ?_, ?_⟩
      · rw [OV7670_write_list, if_neg hc]
      · simp

/-- The events added by `OV7670_frame_control` are register reads and
writes. -/
theorem frame_control_trace_appends (H : Header)
    (platform size vstart hstart edge_offset pclk_delay : Nat) (s : Sensor) :
    ∃ w : List Event,
      (OV7670_frame_control H platform size vstart hstart edge_offset pclk_delay s).trace =
        s.trace ++ w ∧
      ∀ e ∈ w, (∃ r v, e = Event.write platform r v) ∨ (∃ r, e = Event.read platform r) := by
  simp only [OV7670_frame_control, OV7670_write_register, OV7670_read_register,
    List.append_assoc, List.singleton_append, List.cons_append, List.nil_append]
  refine ⟨_, rfl, ?_⟩
  simp

/-- A size within the window table: `OV7670_set_size` returns and adds register
reads and writes only. -/
theorem set_size_trace_appends (H : Header) (platform size : Nat) (hsize : size ≤ 4)
    (s : Sensor) :
    ∃ (s1 : Sensor) (w : List Event),
      OV7670_set_size H platform size s = some s1 ∧ s1.trace = s.trace ++ w ∧
      ∀ e ∈ w, (∃ r v, e = Event.write platform r v) ∨ (∃ r, e = Event.read platform r) := by
  have hcases : size = 0 ∨ size = 1 ∨ size = 2 ∨ size = 3 ∨ size = 4 := by omega
  rcases hcases with rfl | rfl | rfl | rfl | rfl
  · obtain ⟨w, h1, h2⟩ := frame_control_trace_appends H platform 0 9 162 2 2 s
    exact ⟨_, w, rfl, h1, h2⟩
  · obtain ⟨w, h1, h2⟩ := frame_control_trace_appends H platform 1 10 174 4 2 s
    exact ⟨_, w, rfl, h1, h2⟩
  · obtain ⟨w, h1, h2⟩ := frame_control_trace_appends H platform 2 11 186 2 2 s
    exact ⟨_, w, rfl, h1, h2⟩
  · obtain ⟨w, h1, h2⟩ := frame_control_trace_appends H platform 3 12 210 0 2 s
    exact ⟨_, w, rfl, h1, h2⟩
  · obtain ⟨w, h1, h2⟩ := frame_control_trace_appends H platform 4 15 252 3 2 s
    exact ⟨_, w, rfl, h1, h2⟩
set_option maxRecDepth 100000 in
/-- Claim C31 as stated fails: `OV7670_begin` calls `OV7670_set_fps` before it
plays the command lists.  On the data-sheet header with a soft reset, a 1/2 fps
request and one-entry tables, the DBLV (0x6B) and CLKRC (0x11) writes of
`OV7670_set_fps` are events 4 and 5 of the trace, the write of the colorspace
list is event 6 and that of the init list event 8. -/
theorem begin_set_fps_precedes_lists :
    (OV7670_begin datasheet ⟨[⟨0x40, 0xD0⟩, ⟨0xFF, 0xFF⟩], [⟨0x40, 0xC0⟩, ⟨0xFF, 0xFF⟩],
        [⟨0x3A, 0x04⟩, ⟨0xFF, 0xFF⟩]⟩ (fun _ => 0)
        ⟨⟨-1, -1, 0, 1, 2, 3, [4, 5, 6, 7, 8, 9, 10, 11]⟩, 1⟩ 0 0 (1 / 2)
        Sensor.blank).map (fun r => r.2.trace) =
      some [Event.arch_begin, Event.delay 300, Event.write 1 0x12 0x80, Event.delay 1,
        Event.write 1 0x6B 0, Event.write 1 0x11 31,
        Event.write 1 0x40 0xD0, Event.delay 1,
        Event.write 1 0x3A 0x04, Event.delay 1,
        Event.write 1 0x0C 0, Event.write 1 0x3E 0, Event.write 1 0x72 0,
        Event.write 1 0x73 8, Event.read 1 0x70, Event.read 1 0x71,
        Event.write 1 0x70 0x20, Event.write 1 0x71 0x20,
        Event.write 1 0x17 20, Event.write 1 0x18 2, Event.write 1 0x32 0x92,
        Event.write 1 0x19 2, Event.write 1 0x1A 122, Event.write 1 0x03 5,
        Event.write 1 0xA2 2, Event.delay 300] := by
  have key : ∀ s : Sensor, (OV7670_set_fps datasheet 1 (1 / 2) s).2 =
      OV7670_write_register 1 datasheet.OV7670_REG_CLKRC 31
        (OV7670_write_register 1 datasheet.OV7670_REG_DBLV 0 s) := fun s =>
    set_fps_below_floor_state datasheet 1 (1 / 2) s
      (by decide!) (by decide)
  simp only [OV7670_begin, key]
  decide

/-- Claim C31, amended to the order of the code: on a successful bring-up
(`OV7670_arch_begin` returns `OV7670_STATUS_OK`, the tables hold their end
marker, the size is one of the five) `OV7670_begin` returns
`OV7670_STATUS_OK`, and the events it adds to the trace are, in this order:
the call of `OV7670_arch_begin`, once and first; the start-up delay, the
enable pin and the reset (by pin, else the COM7 soft reset) with their
delays; the events of `OV7670_set_fps` (the DBLV then the CLKRC write when the
platform is not NULL); the writes of the colorspace list; the writes of the
init list; the register reads and writes of `OV7670_set_size`; a 300 ms
delay. -/
theorem begin_event_order (H : Header) (T : Tables)
    (arch_begin : OV7670_host → Nat) (host : OV7670_host) (colorspace size : Nat)
    (fps : ℚ) (s : Sensor)
    (hok : arch_begin host = H.OV7670_STATUS_OK)
    (hrgb : OV7670_command.mk 0xFF 0xFF ∈ T.OV7670_rgb)
    (hyuv : OV7670_command.mk 0xFF 0xFF ∈ T.OV7670_yuv)
    (hinit : OV7670_command.mk 0xFF 0xFF ∈ T.OV7670_init)
    (hsize : size ≤ 4) :
    ∃ (s1 : Sensor) (reset timing cs init geo : List Event),
      OV7670_begin H T arch_begin host colorspace size fps s =
        some (H.OV7670_STATUS_OK, s1) ∧
      s1.trace = s.trace ++ Event.arch_begin ::
        (reset ++ timing ++ cs ++ init ++ geo ++ [Event.delay 300]) ∧
      Event.arch_begin ∉ reset ++ timing ++ cs ++ init ++ geo ++ [Event.delay 300] ∧
      reset = [Event.delay 300] ++
        (if host.pins.enable ≥ 0 then
          [Event.pin_output host.pins.enable, Event.pin_write host.pins.enable 0,
            Event.delay 300]
        else []) ++
        (if host.pins.reset ≥ 0 then
          [Event.pin_output host.pins.reset, Event.pin_write host.pins.reset 0,
            Event.delay 1, Event.pin_write host.pins.reset 1]
        else [Event.write host.platform H.OV7670_REG_COM7 (H.OV7670_COM7_RESET % 256)]) ++
        [Event.delay 1] ∧
      (∀ s0 : Sensor, (OV7670_set_fps H host.platform fps s0).2.trace = s0.trace ++ timing) ∧
      (host.platform ≠ 0 → ∃ x y, timing =
        [Event.write host.platform H.OV7670_REG_DBLV x,
          Event.write host.platform H.OV7670_REG_CLKRC y]) ∧
      (∀ s0 : Sensor, (OV7670_write_list host.platform
          (if colorspace = H.OV7670_COLOR_RGB then T.OV7670_rgb else T.OV7670_yuv) s0).map
        Sensor.trace = some (s0.trace ++ cs)) ∧
      (∀ s0 : Sensor, (OV7670_write_list host.platform T.OV7670_init s0).map Sensor.trace =
        some (s0.trace ++ init)) ∧
      (∃ s0 : Sensor, s0.trace = s.trace ++ Event.arch_begin :: (reset ++ timing ++ cs ++ init) ∧
        (OV7670_set_size H host.platform size s0).map Sensor.trace =
          some (s0.trace ++ geo)) := by
  have hcs : OV7670_command.mk 0xFF 0xFF ∈
      (if colorspace = H.OV7670_COLOR_RGB then T.OV7670_rgb else T.OV7670_yuv) := by
    split_ifs
    · exact hrgb
    · exact hyuv
  obtain ⟨timing, ht1, ht2, ht3⟩ := set_fps_trace_appends H host.platform fps
  obtain ⟨pc, _, hpc⟩ := write_list_trace_appends host.platform _ hcs
  obtain ⟨pi, _, hpi⟩ := write_list_trace_appends host.platform _ hinit
  unfold OV7670_begin
  simp only [hok, ne_eq, not_true_eq_false, if_false]
  generalize hX : OV7670_delay_ms 1 (ite (host.pins.reset ≥ 0) _ _) = X
  have hXt : X.trace = s.trace ++ Event.arch_begin :: ([Event.delay 300] ++
        (if host.pins.enable ≥ 0 then
          [Event.pin_output host.pins.enable, Event.pin_write host.pins.enable 0,
            Event.delay 300]
        else []) ++
        (if host.pins.reset ≥ 0 then
          [Event.pin_output host.pins.reset, Event.pin_write host.pins.reset 0,
            Event.delay 1, Event.pin_write host.pins.reset 1]
        else [Event.write host.platform H.OV7670_REG_COM7 (H.OV7670_COM7_RESET % 256)]) ++
        [Event.delay 1]) := by
    rw [← hX]
    split_ifs <;>
      simp [OV7670_delay_ms, OV7670_pin_write, OV7670_pin_output, OV7670_write_register]
  obtain ⟨s1, h1, h1t⟩ := hpc (OV7670_set_fps H host.platform fps X).2
  obtain ⟨s2, h2, h2t⟩ := hpi s1
  obtain ⟨s3, geo, h3, h3t, hgeo⟩ := set_size_trace_appends H host.platform size hsize s2
  have hs2 : s2.trace = s.trace ++ Event.arch_begin :: (([Event.delay 300] ++
        (if host.pins.enable ≥ 0 then
          [Event.pin_output host.pins.enable, Event.pin_write host.pins.enable 0,
            Event.delay 300]
        else []) ++
        (if host.pins.reset ≥ 0 then
          [Event.pin_output host.pins.reset, Event.pin_write host.pins.reset 0,
            Event.delay 1, Event.pin_write host.pins.reset 1]
        else [Event.write host.platform H.OV7670_REG_COM7 (H.OV7670_COM7_RESET % 256)]) ++
        [Event.delay 1]) ++ timing ++
        pc.flatMap (fun c =>
          [Event.write host.platform c.reg (c.value % 256), Event.delay 1]) ++
        pi.flatMap (fun c =>
          [Event.write host.platform c.reg (c.value % 256), Event.delay 1])) := by
    rw [h2t, h1t, ht1, hXt]
    simp only [List.append_assoc, List.cons_append]
  refine ⟨OV7670_delay_ms 300 s3, _, timing, _, _, geo, ?_, ?_, ?_, rfl, ht1, ht2, ?_, ?_,
    ⟨s2, hs2, ?_⟩⟩
  · simp only [h1, h2, h3, Option.bind_eq_bind, Option.some_bind, Option.bind_some]
  · simp only [OV7670_delay_ms, h3t, hs2, List.append_assoc, List.cons_append]
  · intro hmem
    simp only [List.mem_append, List.mem_flatMap] at hmem
    rcases hmem with ((((hm | hm) | hm) | hm) | hm) | hm
    · revert hm
      split_ifs <;> simp
    · exact ht3 hm
    · obtain ⟨c, _, hc⟩ := hm
      simp at hc
    · obtain ⟨c, _, hc⟩ := hm
      simp at hc
    · rcases hgeo _ hm with ⟨r, v, h⟩ | ⟨r, h⟩
      · exact Event.noConfusion h
      · exact Event.noConfusion h
    · simp at hm
  · intro s0
    obtain ⟨t, ha, hb⟩ := hpc s0
    rw [ha, Option.map_some', hb]
  · intro s0
    obtain ⟨t, ha, hb⟩ := hpi s0
    rw [ha, Option.map_some', hb]
  · rw [h3, Option.map_some', h3t]

/-- Instance of C31 (amended) on the data-sheet header: soft reset, RGB, VGA,
30 fps, one-entry command tables. -/
theorem begin_event_order_witness :
    OV7670_command.mk 0xFF 0xFF ∈ [OV7670_command.mk 0x3A 0x04, ⟨0xFF, 0xFF⟩] ∧ (0 : Nat) ≤ 4 ∧
    ∃ (s1 : Sensor) (rest : List Event),
      OV7670_begin datasheet ⟨[⟨0x40, 0xD0⟩, ⟨0xFF, 0xFF⟩], [⟨0x40, 0xC0⟩, ⟨0xFF, 0xFF⟩],
          [⟨0x3A, 0x04⟩, ⟨0xFF, 0xFF⟩]⟩ (fun _ => 0)
          ⟨⟨-1, -1, 0, 1, 2, 3, [4, 5, 6, 7, 8, 9, 10, 11]⟩, 1⟩ 0 0 30 Sensor.blank =
        some (datasheet.OV7670_STATUS_OK, s1) ∧
      s1.trace = Sensor.blank.trace ++ Event.arch_begin :: rest ∧
      Event.arch_begin ∉ rest := by
  obtain ⟨s1, reset, timing, cs, init, geo, h1, h2, h3, _⟩ :=
    begin_event_order datasheet ⟨[⟨0x40, 0xD0⟩, ⟨0xFF, 0xFF⟩], [⟨0x40, 0xC0⟩, ⟨0xFF, 0xFF⟩],
      [⟨0x3A, 0x04⟩, ⟨0xFF, 0xFF⟩]⟩ (fun _ => 0)
      ⟨⟨-1, -1, 0, 1, 2, 3, [4, 5, 6, 7, 8, 9, 10, 11]⟩, 1⟩ 0 0 30 Sensor.blank
      rfl (by decide) (by decide) (by decide) (by decide)
  exact ⟨by decide, by decide, s1, _, h1, h2, h3⟩

end OV7670
